import Mathlib

/-!
# MindCare: rule-based responder and mood tracker

A shallow embedding of the chat responder (`getAIResponse` in `fronted/app.js`,
`generateAIResponse` in `server.js`) and of the mood aggregation performed by
`renderMoodTracker` in `fronted/app.js`, followed by theorems about them.

Conventions of the embedding:

* a JavaScript string is a Lean `String`; `String.prototype.toLowerCase` is a
  built-in of the host, so the lower-casing function is a parameter of every
  definition that calls it and the theorems hold for each choice of it;
* `Math.random()` is a parameter `random : ℚ`. Numbers are embedded twice: the
  definitions `getRandomResponse`, `dayPoint`, `getTrend`, `getMoodEmoji`,
  `getMoodAdvice` and `renderMoodTracker` compute in exact rational arithmetic,
  and the definitions whose name ends in `64` compute as the program does, in
  binary64 with rounding to nearest, `NaN` and the infinities;
* reading an array out of bounds gives `undefined`, embedded as `none`.
-/

namespace MindCare

/-! ## Strings -/

/-- Substring test on character lists: some suffix of `s` starts with `sub`. -/
def listIncludes (s sub : List Char) : Bool :=
  s.tails.any (fun t => sub.isPrefixOf t)

/-- The method `String.prototype.includes`. -/
def includes (s sub : String) : Bool :=
  listIncludes s.data sub.data

/-- A regular expression `^(a|b|...)` matches `s`: one of the alternatives is a
prefix of `s`. -/
def matchesStart (s : String) (alternatives : List String) : Bool :=
  alternatives.any (fun p => p.data.isPrefixOf s.data)

/-! ## Response selection -/

/-- The function `getRandomResponse` (identical in `app.js` and `server.js`):
`responses[Math.floor(Math.random() * responses.length)]`, with the product
taken exactly; `getRandomResponse64` takes it in binary64. -/
def getRandomResponse (random : ℚ) (responses : List String) : Option String :=
  let index : ℤ := ⌊random * (responses.length : ℚ)⌋
  if index < 0 then none else responses[index.toNat]?

/-! ## Client responder (`fronted/app.js`) -/

/-- Keys of the `responses` object literal in `getAIResponse`. -/
inductive Category where
  | greeting | anxiety | sad | stress | happy | sleep | breathing
  | meditation | help | gratitude | crisis | default
  deriving DecidableEq, Repr, Fintype

/-- The `responses` object literal of `getAIResponse`. -/
def responses : Category → List String
  | .greeting =>
    ["Hello! It's wonderful to hear from you. I'm here to support you. How can I help you today?",
     "Hi there! Thank you for reaching out. I'm here to listen and support you. What's on your mind?",
     "Welcome! I'm glad you're here. This is a safe space for you. How are you feeling today?"]
  | .anxiety =>
    ["I understand anxiety can be overwhelming. Let's try a grounding technique: Name 5 things you can see, 4 you can touch, 3 you can hear, 2 you can smell, and 1 you can taste. This can help bring you back to the present moment.",
     "Anxiety is your body's natural response to stress. Remember: this feeling is temporary. Try taking slow, deep breaths - inhale for 4 counts, hold for 4, exhale for 6. You've got this.",
     "Thank you for sharing. When anxiety strikes, remember that it's okay to take a break. Have you tried progressive muscle relaxation? It can really help ease physical tension.",
     "I hear you. Anxiety can feel intense, but you're not alone in this. Let's work through it together. Can you identify what's triggering these feelings right now?"]
  | .sad =>
    ["I hear that you're feeling down. Your feelings are valid, and it's okay to not be okay sometimes. What's one small thing that usually brings you comfort?",
     "Sadness is a natural emotion. Be gentle with yourself. Sometimes just acknowledging how we feel is the first step toward healing. I'm here to listen.",
     "Thank you for trusting me with your feelings. Remember, reaching out like this shows strength. Would you like to talk about what's weighing on your mind?",
     "I'm sorry you're going through this. Sadness can feel heavy, but please know that it's temporary. What has helped you feel better in the past?"]
  | .stress =>
    ["Stress can feel like carrying a heavy weight. Let's lighten that load together. What's the biggest source of stress for you right now?",
     "I understand you're under pressure. Remember to take breaks - even 5 minutes can help. Have you had water and eaten today? Basic self-care matters.",
     "Stress is tough, but you're tougher. Let's break things down into smaller, manageable steps. What's one thing you can do today to ease the pressure?",
     "It sounds like you're dealing with a lot. Let's prioritize together. What's the most urgent thing you need to address right now?"]
  | .happy =>
    ["That's wonderful to hear! Happiness is precious - I'm glad you're experiencing this moment. What's bringing you joy today?",
     "Your positivity is uplifting! It's important to acknowledge and celebrate the good moments. Keep nurturing what makes you happy.",
     "I love hearing this! Positive emotions are just as important to process as difficult ones. What's contributing to your good mood?",
     "That's fantastic! Celebrating the good times is so important. How does this happiness feel in your body?"]
  | .sleep =>
    ["Sleep issues can really impact mental health. Try establishing a bedtime routine: dim lights, no screens 30 minutes before bed, and perhaps some calming music or meditation.",
     "Quality sleep is crucial for wellbeing. Consider keeping your bedroom cool, dark, and quiet. Have you tried progressive relaxation or guided sleep meditations?",
     "Sleep difficulties are common with stress and anxiety. A consistent sleep schedule can help. What's your current bedtime routine like?",
     "I understand how frustrating sleep problems can be. Creating a wind-down routine can signal your body it's time to rest. What relaxation techniques have you tried?"]
  | .breathing =>
    ["Breathing exercises are wonderful! Try this: Breathe in slowly through your nose for 4 counts, hold for 4, then exhale through your mouth for 6 counts. Repeat this 5 times. How do you feel?",
     "Deep breathing activates your body's relaxation response. Let's do the 4-7-8 technique: Inhale for 4, hold for 7, exhale for 8. This can calm your nervous system.",
     "Great choice! Breathing exercises can quickly reduce stress. Try box breathing: Inhale for 4, hold for 4, exhale for 4, hold for 4. Repeat."]
  | .meditation =>
    ["Meditation is a powerful tool for mental health. Start with just 5 minutes a day. Focus on your breath, and when your mind wanders, gently bring it back. Be patient with yourself.",
     "That's great you're interested in meditation! Try a body scan: Close your eyes and slowly bring awareness to each part of your body, from your toes to your head, releasing tension as you go.",
     "Meditation takes practice. Start small - even 2-3 minutes daily can make a difference. Apps like Calm or Headspace can guide you through beginner practices."]
  | .help =>
    ["I'm here to help! You can talk to me about your feelings, learn coping techniques, track your mood, or just have someone listen. What would be most helpful for you right now?",
     "There are many ways I can support you: discussing your emotions, teaching relaxation techniques, or just being a compassionate listener. What's on your mind?",
     "I'm glad you asked! I can help you process emotions, suggest coping strategies, or simply be here to listen without judgment. How can I best support you?"]
  | .gratitude =>
    ["Gratitude is such a powerful practice! It shifts our focus to the positive. What are three things you're grateful for today?",
     "That's beautiful. Practicing gratitude can really improve our mental wellbeing. Would you like to share what you're thankful for?",
     "Gratitude journaling is wonderful for mental health. Even on tough days, finding small things to appreciate can help."]
  | .crisis =>
    ["I'm concerned about what you're sharing. Please know that you deserve support. If you're in immediate danger, please call 988 (Suicide & Crisis Lifeline) or go to your nearest emergency room. You are not alone.",
     "Thank you for trusting me, but I want to connect you with professionals who can provide the help you need right now. Please call 988 or text 'HELLO' to 741741. Your life matters.",
     "What you're feeling is serious, and I want to make sure you get proper support. Please reach out to a crisis counselor at 988 or visit your nearest ER. They can help you through this."]
  | .default =>
    ["Thank you for sharing that with me. I'm here to support you. Can you tell me more about what you're experiencing?",
     "I appreciate you opening up. Your mental health journey is unique, and I'm here to walk alongside you. What would help you most right now?",
     "I'm listening. Remember, there's no judgment here - this is a safe space for you to express yourself. How can I best support you today?",
     "That sounds challenging. I want you to know that what you're feeling is valid. Would you like to explore this further together?",
     "I hear you. It takes courage to share these feelings. What do you need most in this moment?"]

/-- The function `getAIResponse` of `fronted/app.js`. -/
def getAIResponse (toLowerCase : String → String) (random : ℚ) (userMessage : String) :
    Option String :=
  let lowerMsg := toLowerCase userMessage
  if includes lowerMsg "suicide" || includes lowerMsg "kill myself" ||
      includes lowerMsg "end it all" || includes lowerMsg "want to die" ||
      includes lowerMsg "no reason to live" then
    getRandomResponse random (responses .crisis)
  else if matchesStart lowerMsg
      ["hi", "hello", "hey", "greetings", "good morning", "good evening"] then
    getRandomResponse random (responses .greeting)
  else if includes lowerMsg "anxious" || includes lowerMsg "anxiety" ||
      includes lowerMsg "worried" || includes lowerMsg "panic" ||
      includes lowerMsg "nervous" then
    getRandomResponse random (responses .anxiety)
  else if includes lowerMsg "sad" || includes lowerMsg "depressed" ||
      includes lowerMsg "down" || includes lowerMsg "lonely" ||
      includes lowerMsg "empty" then
    getRandomResponse random (responses .sad)
  else if includes lowerMsg "stress" || includes lowerMsg "overwhelm" ||
      includes lowerMsg "pressure" || includes lowerMsg "too much" then
    getRandomResponse random (responses .stress)
  else if includes lowerMsg "happy" || includes lowerMsg "good" ||
      includes lowerMsg "great" || includes lowerMsg "joy" ||
      includes lowerMsg "excited" then
    getRandomResponse random (responses .happy)
  else if includes lowerMsg "sleep" || includes lowerMsg "insomnia" ||
      includes lowerMsg "tired" || includes lowerMsg "rest" ||
      includes lowerMsg "can't sleep" then
    getRandomResponse random (responses .sleep)
  else if includes lowerMsg "breath" || includes lowerMsg "breathing" then
    getRandomResponse random (responses .breathing)
  else if includes lowerMsg "meditat" || includes lowerMsg "mindful" then
    getRandomResponse random (responses .meditation)
  else if includes lowerMsg "help" || includes lowerMsg "what can you do" ||
      includes lowerMsg "how do you work" then
    getRandomResponse random (responses .help)
  else if includes lowerMsg "thank" || includes lowerMsg "grateful" ||
      includes lowerMsg "gratitude" then
    getRandomResponse random (responses .gratitude)
  else
    getRandomResponse random (responses .default)

/-! ## Server responder (`server.js`) -/

/-- Keys of the `responses` object literal in `generateAIResponse`. -/
inductive ServerCategory where
  | greeting | anxiety | sad | stress | happy | crisis | default
  deriving DecidableEq, Repr

/-- The `responses` object literal of `generateAIResponse`. -/
def serverResponses : ServerCategory → List String
  | .greeting =>
    ["Hello! It's wonderful to hear from you. I'm here to support you. How can I help you today?",
     "Hi there! Thank you for reaching out. I'm here to listen and support you. What's on your mind?"]
  | .anxiety =>
    ["I understand anxiety can be overwhelming. Let's try a grounding technique: Name 5 things you can see, 4 you can touch, 3 you can hear, 2 you can smell, and 1 you can taste.",
     "Anxiety is your body's natural response to stress. Try taking slow, deep breaths - inhale for 4 counts, hold for 4, exhale for 6.",
     "When anxiety strikes, remember that it's okay to take a break. Have you tried progressive muscle relaxation?"]
  | .sad =>
    ["I hear that you're feeling down. Your feelings are valid. What's one small thing that usually brings you comfort?",
     "Sadness is a natural emotion. Be gentle with yourself. Sometimes just acknowledging how we feel is the first step toward healing.",
     "Thank you for trusting me with your feelings. Remember, reaching out like this shows strength."]
  | .stress =>
    ["Stress can feel like carrying a heavy weight. Let's lighten that load together. What's the biggest source of stress for you right now?",
     "I understand you're under pressure. Remember to take breaks - even 5 minutes can help. Have you had water and eaten today?",
     "Stress is tough, but you're tougher. Let's break things down into smaller, manageable steps."]
  | .happy =>
    ["That's wonderful to hear! Happiness is precious - I'm glad you're experiencing this moment. What's bringing you joy today?",
     "Your positivity is uplifting! It's important to acknowledge and celebrate the good moments.",
     "I love hearing this! Positive emotions are just as important to process as difficult ones."]
  | .crisis =>
    ["I'm concerned about what you're sharing. Please reach out for immediate support. You can call 988 (US) or your local crisis line. You don't have to go through this alone.",
     "Your life matters. Please contact a crisis counselor at 988 or visit your nearest emergency room. Help is available and people care about you."]
  | .default =>
    ["Thank you for sharing that with me. I'm here to support you. Can you tell me more about what you're experiencing?",
     "I appreciate you opening up. Your mental health journey is unique, and I'm here to walk alongside you.",
     "I'm listening. Remember, there's no judgment here - this is a safe space for you to express yourself."]

/-- The function `generateAIResponse` of `server.js`; the argument `mood` is
the optional mood label of the request body and is never read. -/
def generateAIResponse (toLowerCase : String → String) (random : ℚ)
    (userMessage : String) (mood : Option String) : Option String :=
  let _ := mood
  let lowerMsg := toLowerCase userMessage
  if includes lowerMsg "suicide" || includes lowerMsg "kill myself" ||
      includes lowerMsg "want to die" then
    getRandomResponse random (serverResponses .crisis)
  else if matchesStart lowerMsg ["hi", "hello", "hey"] then
    getRandomResponse random (serverResponses .greeting)
  else if includes lowerMsg "anxious" || includes lowerMsg "anxiety" ||
      includes lowerMsg "worried" then
    getRandomResponse random (serverResponses .anxiety)
  else if includes lowerMsg "sad" || includes lowerMsg "depressed" ||
      includes lowerMsg "down" then
    getRandomResponse random (serverResponses .sad)
  else if includes lowerMsg "stress" || includes lowerMsg "overwhelm" then
    getRandomResponse random (serverResponses .stress)
  else if includes lowerMsg "happy" || includes lowerMsg "good" ||
      includes lowerMsg "great" then
    getRandomResponse random (serverResponses .happy)
  else
    getRandomResponse random (serverResponses .default)


/-! ## Mood tracker (`fronted/app.js`) -/

/-- A value read from an object literal by a string key: a number or a string
stored in the literal, or a member inherited from `Object.prototype` (a function
or an object, hence truthy and not a number). -/
inductive JSValue where
  | number (value : ℚ)
  | string (value : String)
  | inherited (key : String)
  deriving DecidableEq, Repr

/-- The property names every object literal inherits from `Object.prototype`. -/
def objectPrototypeKeys : List String :=
  ["constructor", "__defineGetter__", "__defineSetter__", "hasOwnProperty",
   "__lookupGetter__", "__lookupSetter__", "isPrototypeOf", "propertyIsEnumerable",
   "toString", "valueOf", "__proto__", "toLocaleString"]

/-- The function `getMoodValue`: `moodValues[mood] || 3`. -/
def getMoodValue (mood : String) : JSValue :=
  if mood = "Happy" then .number 5
  else if mood = "Neutral" then .number 3
  else if mood = "Anxious" then .number 2
  else if mood = "Sad" then .number 2
  else if mood = "Angry" then .number 1
  else if mood ∈ objectPrototypeKeys then .inherited mood
  else .number 3

/-- The function `getMoodColor`: `moodColors[mood] || '#a0aec0'`. -/
def getMoodColor (mood : String) : JSValue :=
  if mood = "Happy" then .string "#48bb78"
  else if mood = "Neutral" then .string "#a0aec0"
  else if mood = "Anxious" then .string "#ecc94b"
  else if mood = "Sad" then .string "#4299e1"
  else if mood = "Angry" then .string "#f56565"
  else if mood ∈ objectPrototypeKeys then .inherited mood
  else .string "#a0aec0"

/-- The mood object `{ mood, emoji, color }` built by `selectMood`. -/
structure MoodTag where
  mood : String
  emoji : String
  color : String
  deriving DecidableEq, Repr

/-- A chat message as built by `addUserMessage` and `addBotMessage`. The field
`timestamp` is the instant written in the ISO string, in milliseconds since the
epoch; `mood` is `none` when the property is absent or `null`. -/
structure Message where
  id : Nat
  text : String
  sender : String
  timestamp : Nat
  mood : Option MoodTag
  deriving DecidableEq, Repr

/-- A calendar date. -/
structure CalendarDate where
  year : Nat
  month : Nat
  day : Nat
  deriving DecidableEq, Repr

/-- The text `toLocaleDateString('en-US', { month: 'short', day: 'numeric' })`
produces, such as `Jan 5`: it shows the month and the day of the month and
nothing else, and is embedded as that pair. -/
structure DateLabel where
  month : Nat
  day : Nat
  deriving DecidableEq, Repr

/-- The label of a calendar date: `toLocaleDateString` with the options
`{ month: 'short', day: 'numeric' }`. -/
def toLocaleDateString (date : CalendarDate) : DateLabel :=
  ⟨date.month, date.day⟩

/-- The calendar date of a day counted from 1970-01-01 (proleptic Gregorian
calendar). -/
def civilFromDays (days : Nat) : CalendarDate :=
  let z := days + 719468
  let era := z / 146097
  let doe := z % 146097
  let yoe := (doe - doe / 1460 + doe / 36524 - doe / 146096) / 365
  let doy := doe - (365 * yoe + yoe / 4 - yoe / 100)
  let mp := (5 * doy + 2) / 153
  let day := doy - (153 * mp + 2) / 5 + 1
  let month := if mp < 10 then mp + 3 else mp - 9
  let year := yoe + era * 400 + (if month ≤ 2 then 1 else 0)
  ⟨year, month, day⟩

/-- The local calendar date of an instant in a browser whose time zone is UTC.
The conversion of an instant to a local date is a parameter `localDate` of the
definitions below; this is one instance of it. -/
def utcDate (timestamp : Nat) : CalendarDate :=
  civilFromDays (timestamp / 86400000)

/-- The object `messagesByDate`: its entries in insertion order, which is the
order `Object.keys` lists them in (no date label is an integer index). -/
abbrev MessagesByDate := List (DateLabel × List String)

/-- The read `messagesByDate[date]`; `none` is `undefined`. -/
def MessagesByDate.get (o : MessagesByDate) (date : DateLabel) : Option (List String) :=
  (o.find? (fun e => e.1 = date)).map (fun e => e.2)

/-- The assignment `messagesByDate[date] = value`. -/
def MessagesByDate.set (o : MessagesByDate) (date : DateLabel) (value : List String) :
    MessagesByDate :=
  if o.any (fun e => e.1 = date) then
    o.map (fun e => if e.1 = date then (e.1, value) else e)
  else o ++ [(date, value)]

/-- The update `messagesByDate[date].push(mood)`. -/
def MessagesByDate.push (o : MessagesByDate) (date : DateLabel) (mood : String) :
    MessagesByDate :=
  o.map (fun e => if e.1 = date then (e.1, e.2 ++ [mood]) else e)

/-- The body of the loop `state.messages.forEach(msg => ...)` of
`renderMoodTracker`. -/
def groupStep (localDate : Nat → CalendarDate) (messagesByDate : MessagesByDate)
    (msg : Message) : MessagesByDate :=
  match msg.mood with
  | some tag =>
    if msg.sender = "user" then
      let date := toLocaleDateString (localDate msg.timestamp)
      let withKey :=
        if (messagesByDate.get date).isNone then messagesByDate.set date [] else messagesByDate
      withKey.push date tag.mood
    else messagesByDate
  | none => messagesByDate

/-- The object `messagesByDate` after the first loop of `renderMoodTracker`. -/
def groupByDate (localDate : Nat → CalendarDate) (messages : List Message) : MessagesByDate :=
  messages.foldl (groupStep localDate) []

/-- One step of `moods.reduce((sum, mood) => sum + getMoodValue(mood), 0)`. The
accumulator is `none` once it is not a number: adding an inherited member to a
number gives a string, and so does every later addition. -/
def addMoodValue (sum : Option ℚ) (mood : String) : Option ℚ :=
  match sum, getMoodValue mood with
  | some s, .number v => some (s + v)
  | _, _ => none

/-- The values computed for one date in the second loop of `renderMoodTracker`.
`avgMood` is `none` when the quotient is `NaN` (the sum is not a number, or the
list is empty and the quotient is `0 / 0`); `dominantMood` is `none` when
`moods[moods.length - 1]` is `undefined`. -/
structure DayPoint where
  date : DateLabel
  avgMood : Option ℚ
  dominantMood : Option String
  deriving DecidableEq, Repr

/-- The body of the loop `Object.keys(messagesByDate).forEach(date => ...)`, with
the quotient taken exactly; `dayPoint64` takes it in binary64. -/
def dayPoint (entry : DateLabel × List String) : DayPoint :=
  let moods := entry.2
  { date := entry.1
    avgMood := (moods.foldl addMoodValue (some 0)).bind (fun sum =>
      if moods.length = 0 then none else some (sum / (moods.length : ℚ)))
    dominantMood := moods.getLast? }

/-- The daily points of `renderMoodTracker`, one for each key of
`messagesByDate` in the order of `Object.keys`. -/
def moodPoints (localDate : Nat → CalendarDate) (messages : List Message) : List DayPoint :=
  (groupByDate localDate messages).map dayPoint

/-- The array `dates` of `renderMoodTracker`. -/
def chartDates (localDate : Nat → CalendarDate) (messages : List Message) : List DateLabel :=
  (moodPoints localDate messages).map (fun p => p.date)

/-- The array `moodData` of `renderMoodTracker`. -/
def chartMoodData (localDate : Nat → CalendarDate) (messages : List Message) :
    List (Option ℚ) :=
  (moodPoints localDate messages).map (fun p => p.avgMood)

/-- The array `colors` of `renderMoodTracker`; an `undefined` dominant mood is
looked up under the key `undefined`. -/
def chartColors (localDate : Nat → CalendarDate) (messages : List Message) : List JSValue :=
  (moodPoints localDate messages).map (fun p => getMoodColor (p.dominantMood.getD "undefined"))

/-! ## Vocabulary used to state the properties of the responders -/

/-- The key of `responses` that `getAIResponse` passes to `getRandomResponse`:
the same chain of tests as in `getAIResponse`, recording the branch taken. -/
def selectedCategory (lowerMsg : String) : Category :=
  if includes lowerMsg "suicide" || includes lowerMsg "kill myself" ||
      includes lowerMsg "end it all" || includes lowerMsg "want to die" ||
      includes lowerMsg "no reason to live" then .crisis
  else if matchesStart lowerMsg
      ["hi", "hello", "hey", "greetings", "good morning", "good evening"] then .greeting
  else if includes lowerMsg "anxious" || includes lowerMsg "anxiety" ||
      includes lowerMsg "worried" || includes lowerMsg "panic" ||
      includes lowerMsg "nervous" then .anxiety
  else if includes lowerMsg "sad" || includes lowerMsg "depressed" ||
      includes lowerMsg "down" || includes lowerMsg "lonely" ||
      includes lowerMsg "empty" then .sad
  else if includes lowerMsg "stress" || includes lowerMsg "overwhelm" ||
      includes lowerMsg "pressure" || includes lowerMsg "too much" then .stress
  else if includes lowerMsg "happy" || includes lowerMsg "good" ||
      includes lowerMsg "great" || includes lowerMsg "joy" ||
      includes lowerMsg "excited" then .happy
  else if includes lowerMsg "sleep" || includes lowerMsg "insomnia" ||
      includes lowerMsg "tired" || includes lowerMsg "rest" ||
      includes lowerMsg "can't sleep" then .sleep
  else if includes lowerMsg "breath" || includes lowerMsg "breathing" then .breathing
  else if includes lowerMsg "meditat" || includes lowerMsg "mindful" then .meditation
  else if includes lowerMsg "help" || includes lowerMsg "what can you do" ||
      includes lowerMsg "how do you work" then .help
  else if includes lowerMsg "thank" || includes lowerMsg "grateful" ||
      includes lowerMsg "gratitude" then .gratitude
  else .default

/-- The key of `responses` that `generateAIResponse` passes to
`getRandomResponse`: the same chain of tests, recording the branch taken. -/
def serverSelectedCategory (lowerMsg : String) : ServerCategory :=
  if includes lowerMsg "suicide" || includes lowerMsg "kill myself" ||
      includes lowerMsg "want to die" then .crisis
  else if matchesStart lowerMsg ["hi", "hello", "hey"] then .greeting
  else if includes lowerMsg "anxious" || includes lowerMsg "anxiety" ||
      includes lowerMsg "worried" then .anxiety
  else if includes lowerMsg "sad" || includes lowerMsg "depressed" ||
      includes lowerMsg "down" then .sad
  else if includes lowerMsg "stress" || includes lowerMsg "overwhelm" then .stress
  else if includes lowerMsg "happy" || includes lowerMsg "good" ||
      includes lowerMsg "great" then .happy
  else .default

/-- The five crisis phrases of the specification. -/
def crisisPhrases : List String :=
  ["suicide", "kill myself", "end it all", "want to die", "no reason to live"]

/-- The greeting prefixes of the specification. -/
def greetingPrefixes : List String :=
  ["hi", "hello", "hey", "greetings", "good morning", "good evening"]

/-- The emotion and topic buckets in the fixed order of the specification, each
with its keywords. -/
def topicBuckets : List (Category × List String) :=
  [(.anxiety, ["anxious", "anxiety", "worried", "panic", "nervous"]),
   (.sad, ["sad", "depressed", "down", "lonely", "empty"]),
   (.stress, ["stress", "overwhelm", "pressure", "too much"]),
   (.happy, ["happy", "good", "great", "joy", "excited"]),
   (.sleep, ["sleep", "insomnia", "tired", "rest", "can't sleep"]),
   (.breathing, ["breath", "breathing"]),
   (.meditation, ["meditat", "mindful"]),
   (.help, ["help", "what can you do", "how do you work"]),
   (.gratitude, ["thank", "grateful", "gratitude"])]

/-- The first bucket of `buckets` one of whose keywords is a substring of the
text; `default` when there is none. -/
def firstBucketIn (buckets : List (Category × List String)) (lowerMsg : String) : Category :=
  match buckets.find? (fun b => b.2.any (fun k => includes lowerMsg k)) with
  | some b => b.1
  | none => .default

/-- The specification's bucket rule: the first bucket of `topicBuckets`, in
their order, that has a keyword in the text. -/
def firstBucket (lowerMsg : String) : Category :=
  firstBucketIn topicBuckets lowerMsg

/-- Lower-casing of the ASCII letters, an instance of the lower-casing
function for concrete evaluation. -/
def asciiLower (s : String) : String :=
  ⟨s.data.map Char.toLower⟩

/-! ## Vocabulary used to state the properties of the mood tracker -/

/-- The five mood labels of the specification. -/
def moodLabels : List String :=
  ["Happy", "Neutral", "Anxious", "Sad", "Angry"]

/-- The specification's score table: Happy 5, Neutral 3, Anxious 2, Sad 2,
Angry 1, and the neutral score 3 for any other label. -/
def labelScore (label : String) : ℚ :=
  if label = "Happy" then 5
  else if label = "Neutral" then 3
  else if label = "Anxious" then 2
  else if label = "Sad" then 2
  else if label = "Angry" then 1
  else 3

/-- A message the tracker counts: written by the user and carrying a mood. -/
def isTaggedUser (msg : Message) : Bool :=
  decide (msg.sender = "user") && msg.mood.isSome

/-- The date label under which the tracker files a message. -/
def messageLabel (localDate : Nat → CalendarDate) (msg : Message) : DateLabel :=
  toLocaleDateString (localDate msg.timestamp)

/-- The mood labels of the tagged user messages of the list that are filed under
`date`, in list order. -/
def moodsOn (localDate : Nat → CalendarDate) (messages : List Message) (date : DateLabel) :
    List String :=
  messages.filterMap (fun msg =>
    if msg.sender = "user" ∧ messageLabel localDate msg = date then
      msg.mood.map (fun tag => tag.mood)
    else none)

/-- The mood labels of the tagged user messages of the list whose local calendar
date is `day`, in list order. -/
def moodsOnDay (localDate : Nat → CalendarDate) (messages : List Message) (day : CalendarDate) :
    List String :=
  messages.filterMap (fun msg =>
    if msg.sender = "user" ∧ localDate msg.timestamp = day then
      msg.mood.map (fun tag => tag.mood)
    else none)

/-- Strict order of calendar dates: by year, then month, then day. -/
def CalendarDate.lt (a b : CalendarDate) : Prop :=
  a.year < b.year ∨ (a.year = b.year ∧ (a.month < b.month ∨ (a.month = b.month ∧ a.day < b.day)))

instance (a b : CalendarDate) : Decidable (a.lt b) := by
  unfold CalendarDate.lt
  infer_instance

/-- Weak order of calendar dates. -/
def CalendarDate.le (a b : CalendarDate) : Prop :=
  a = b ∨ a.lt b

instance (a b : CalendarDate) : Decidable (a.le b) := by
  unfold CalendarDate.le
  infer_instance

/-- Position in the list of the first tagged user message filed under `date`;
the length of the list when there is none. -/
def firstFiled (localDate : Nat → CalendarDate) (messages : List Message) (date : DateLabel) :
    Nat :=
  messages.findIdx (fun msg => isTaggedUser msg && decide (messageLabel localDate msg = date))

/-- The daily points are in ascending order of date: whenever a label comes
before another in `dates`, every tagged user message filed under the first is on
an earlier calendar date than every tagged user message filed under the second. -/
def DatesAscending (localDate : Nat → CalendarDate) (messages : List Message) : Prop :=
  (chartDates localDate messages).Pairwise (fun a b =>
    ∀ m ∈ messages, ∀ m' ∈ messages, isTaggedUser m = true → isTaggedUser m' = true →
      messageLabel localDate m = a → messageLabel localDate m' = b →
      (localDate m.timestamp).lt (localDate m'.timestamp))

/-- A user message sent at `timestamp` with the mood `label` selected. -/
def taggedMessage (timestamp : Nat) (label : String) : Message :=
  { id := timestamp, text := "note", sender := "user", timestamp := timestamp,
    mood := some { mood := label, emoji := "", color := "" } }

/-- A user message sent at `timestamp` with no mood selected. -/
def plainMessage (timestamp : Nat) : Message :=
  { id := timestamp, text := "note", sender := "user", timestamp := timestamp, mood := none }

/-- A bot message sent at `timestamp`. -/
def botMessage (timestamp : Nat) : Message :=
  { id := timestamp, text := "reply", sender := "bot", timestamp := timestamp, mood := none }

/-- The history of the specification's example: Happy and Sad on 2024-01-05
(09:00 and 18:00 UTC, with a bot reply in between), Anxious on 2024-01-06, and
an untagged message on 2024-01-07. -/
def specExampleMessages : List Message :=
  [taggedMessage 1704445200000 "Happy", botMessage 1704445201500,
   taggedMessage 1704477600000 "Sad", taggedMessage 1704535200000 "Anxious",
   plainMessage 1704621600000]

/-- A history of one day, 2024-01-05, with Happy at 09:00, Happy at 12:00 and
Sad at 18:00 UTC. -/
def modeExampleMessages : List Message :=
  [taggedMessage 1704445200000 "Happy", taggedMessage 1704456000000 "Happy",
   taggedMessage 1704477600000 "Sad"]

/-- A history that is not in timestamp order: Happy at 18:00 UTC on 2024-01-05
stored before Sad at 09:00 UTC of the same day. -/
def outOfOrderMessages : List Message :=
  [taggedMessage 1704477600000 "Happy", taggedMessage 1704445200000 "Sad"]

/-- A history with a message on 2024-01-05 and one on 2025-01-05 (10:00 UTC). -/
def yearApartMessages : List Message :=
  [taggedMessage 1704448800000 "Happy", taggedMessage 1736071200000 "Sad"]

/-- A history that is not in timestamp order: a message of 2024-03-01 stored
before a message of 2024-01-05. -/
def reversedDaysMessages : List Message :=
  [taggedMessage 1709287200000 "Happy", taggedMessage 1704445200000 "Sad"]

/-! ## Trend and advice (`fronted/app.js`) -/

/-- The index `Array.prototype.slice` derives from one of its arguments: a
negative argument counts from the end, and the result is clamped to the range
from `0` to `length`. -/
def sliceIndex (length : Nat) (i : ℤ) : Nat :=
  if i < 0 then ((length : ℤ) + i).toNat else min i.toNat length

/-- The method `Array.prototype.slice(start, end)`; `stop` is `none` when the
second argument is omitted. -/
def slice {α : Type} (data : List α) (start : ℤ) (stop : Option ℤ) : List α :=
  let k := sliceIndex data.length start
  let final :=
    match stop with
    | some e => sliceIndex data.length e
    | none => data.length
  (data.drop k).take (final - k)

/-- The function `getTrend`, in exact arithmetic; `getTrend64` computes in
binary64. The five results are the string literals of the source file, whose
first field is a pictograph stored as the characters shown. -/
def getTrend (data : List ℚ) : String :=
  if data.length < 2 then "\uF8FFüìä Building"
  else
    let recent := slice data (-3) none
    let earlier := slice data (-6) (some (-3))
    if recent.length = 0 ∨ earlier.length = 0 then "\uF8FFüìä Tracking"
    else
      let recentAvg := recent.foldl (fun a b => a + b) 0 / (recent.length : ℚ)
      let earlierAvg := earlier.foldl (fun a b => a + b) 0 / (earlier.length : ℚ)
      if recentAvg > earlierAvg + 0.5 then "\uF8FFüìà Improving"
      else if recentAvg < earlierAvg - 0.5 then "\uF8FFüìâ Declining"
      else "‚û°Ô∏è Stable"

/-- The expression `s.split(' ')[0]`: the text before the first space of `s`,
and all of `s` when it has no space. -/
def splitFirst (s : String) : String :=
  ⟨s.data.takeWhile (fun c => c != ' ')⟩

/-- The object returned by `getMoodAdvice`. -/
structure AdvicePayload where
  type : String
  message : String
  suggestions : List String
  encouragement : String
  deriving DecidableEq, Repr

/-- The object literal of line 805 of `getMoodAdvice`, returned when `avgMood < 1.5`. -/
def criticalAdvice : AdvicePayload :=
  { type := "critical"
    message := "I'm concerned about how you're feeling. Please reach out for immediate support. You don't have to go through this alone."
    suggestions :=
      ["Contact a mental health professional ",
       " Reach out to someone you trust immediately",
       " Use the crisis resources in your menu"]
    encouragement := "You are important. Your feelings are valid. Help is available and people care about you. Please reach out now." }

/-- The object literal of line 822 of `getMoodAdvice`, returned in the block `avgMood < 2.5`. -/
def lowImprovingAdvice : AdvicePayload :=
  { type := "improving"
    message := "I see you're starting to feel a bit better - that's a positive sign! Let's keep building on this progress."
    suggestions :=
      [" Keep doing what's helping - you're on the right track",
       " Set one small achievable goal for today",
       " Try a 10-minute walk in fresh air",
       " Journal about one thing that went well today"]
    encouragement := "You're making progress! Every small step forward matters. I'm proud of you for continuing to try. Keep going! \uF8FFüí™" }

/-- The object literal of line 840 of `getMoodAdvice`, returned for an improving trend in the block `avgMood < 3.5`. -/
def moderateImprovingAdvice : AdvicePayload :=
  { type := "improving"
    message := "Great progress! You're moving in a positive direction. Let's keep this momentum going!"
    suggestions :=
      ["\uF8FFüéâ Celebrate your progress - you deserve recognition!",
       " Keep up your healthy routines and habits",
       " Continue any mindfulness or relaxation practices"]
    encouragement := "You're doing amazing! The effort you're putting in is paying off. Keep believing in yourself - you're stronger than you know! \uF8FFüåü" }

/-- The object literal of line 853 of `getMoodAdvice`, returned for a declining trend in the block `avgMood < 3.5`. -/
def supportAdvice : AdvicePayload :=
  { type := "support"
    message := "I notice things have been tougher recently. Let's work on getting you back to feeling better."
    suggestions :=
      [" Ask for help - it's a sign of strength, not weakness",
       " Schedule something to look forward to",
       "Challenge negative thoughts with evidence"]
    encouragement := "Ups and downs are normal in recovery. This setback doesn't erase your progress. You have the strength to bounce back. \uF8FFüíô" }

/-- The object literal of line 865 of `getMoodAdvice`, returned for any other trend in the block `avgMood < 3.5`. -/
def maintainAdvice : AdvicePayload :=
  { type := "maintain"
    message := "You're maintaining a steady balance. That's valuable - let's keep you here and continue building resilience."
    suggestions :=
      [" Focus on small, consistent healthy habits",
       " Practice gratitude - write down 3 things daily",
       " Nurture your support network"]
    encouragement := "Stability is progress! You're managing well. Keep taking care of yourself - you're worth it! \uF8FFüåª" }

/-- The object literal of line 882 of `getMoodAdvice`, returned when `avgMood < 4.5`. -/
def thrivingAdvice : AdvicePayload :=
  { type := "thriving"
    message := "You're doing really well! Your positive momentum shows the work you're putting into your wellbeing."
    suggestions :=
      [" Acknowledge how far you've come - be proud!",
       " Consider helping others - it boosts wellbeing",
       "Keep challenging yourself to grow",
       " Explore new activities that bring joy"]
    encouragement := "You're thriving! Your dedication to your mental health is inspiring. Keep up the excellent work - you're an example of resilience! \uF8FFüåà‚ú®" }

/-- The object literal of line 897 of `getMoodAdvice`, returned last. -/
def excellentAdvice : AdvicePayload :=
  { type := "excellent"
    message := "Wow! You're in an excellent place mentally. Your consistent effort has paid off beautifully!"
    suggestions :=
      [" Set new personal growth goals",
       " Continue your self-care practices religiously",
       " Reflect on what's working and document it",
       " Celebrate yourself - you've earned it!"]
    encouragement := "You're absolutely crushing it! Your mental health journey is an inspiration. Remember this feeling and the work that got you here. You're proof that healing and growth are possible! \uF8FFüéâ\uF8FFüåü" }

/-- The function `getMoodAdvice` on a rational average; `getMoodAdvice64` takes
any JavaScript number. In the block `avgMood < 2.5` only an improving trend
returns; every other trend falls through to the block `avgMood < 3.5`. -/
def getMoodAdvice (avgMood : ℚ) (trend : String) : AdvicePayload :=
  let trendDirection := splitFirst trend
  if avgMood < 1.5 then criticalAdvice
  else if avgMood < 2.5 ∧ trendDirection = "\uF8FFüìà" then lowImprovingAdvice
  else if avgMood < 3.5 then
    if trendDirection = "\uF8FFüìà" then moderateImprovingAdvice
    else if trendDirection = "\uF8FFüìâ" then supportAdvice
    else maintainAdvice
  else if avgMood < 4.5 then thrivingAdvice
  else excellentAdvice

/-! ## Vocabulary used to state the properties of trend and advice -/

/-- The result `Building` of `getTrend`. -/
def trendBuilding : String := "\uF8FFüìä Building"

/-- The result `Tracking` of `getTrend`. -/
def trendTracking : String := "\uF8FFüìä Tracking"

/-- The result `Improving` of `getTrend`. -/
def trendImproving : String := "\uF8FFüìà Improving"

/-- The result `Declining` of `getTrend`. -/
def trendDeclining : String := "\uF8FFüìâ Declining"

/-- The result `Stable` of `getTrend`. -/
def trendStable : String := "‚û°Ô∏è Stable"

/-- The last `n` elements of a list, all of it when it has fewer. -/
def lastN {α : Type} (n : Nat) (l : List α) : List α :=
  l.drop (l.length - n)

/-- The specification's `recent`: the last 3 points. -/
def recentPoints (data : List ℚ) : List ℚ :=
  lastN 3 data

/-- The specification's `earlier`: the up to 3 points immediately before the
last 3. -/
def earlierPoints (data : List ℚ) : List ℚ :=
  lastN 3 (data.take (data.length - 3))

/-- The arithmetic mean of a list of numbers. -/
def mean (l : List ℚ) : ℚ :=
  l.sum / (l.length : ℚ)

/-- The six advice tiers of the specification. -/
def adviceTiers : List String :=
  ["critical", "support", "improving", "maintain", "thriving", "excellent"]

/-- A blank string: empty, or made of spaces, tabs and line breaks only. -/
def isBlank (s : String) : Bool :=
  s.data.all Char.isWhitespace

/-! ## Mood label, sessions and the tracker summary (`fronted/app.js`) -/

/-- The function `getMoodEmoji` on a rational average; `getMoodEmoji64` takes any
JavaScript number. The five results are the string literals of the source
file. -/
def getMoodEmoji (avgValue : ℚ) : String :=
  if avgValue ≥ 4.5 then "\uF8FFüòä Great"
  else if avgValue ≥ 3.5 then "\uF8FFüôÇ Good"
  else if avgValue ≥ 2.5 then "\uF8FFüòê Okay"
  else if avgValue ≥ 1.5 then "\uF8FFüòî Low"
  else "\uF8FFüò¢ Struggling"

/-- An entry of `state.sessions`, as built by `addSession`. -/
structure Session where
  timestamp : Nat
  mood : String
  preview : String
  deriving DecidableEq, Repr

/-- The function `addSession`, as a function of the prior `state.sessions`: the
new session is put in front (`unshift`) and the list is cut to its first 10
entries (`slice(0, 10)`). `now` is the instant of `new Date()`, `currentMood` is
`state.currentMood`; positions in the preview count characters. -/
def addSession (now : Nat) (currentMood : Option MoodTag) (sessions : List Session)
    (messagePreview : String) : List Session :=
  let session : Session :=
    { timestamp := now
      mood :=
        match currentMood with
        | some tag => tag.mood
        | none => "Not specified"
      preview :=
        String.mk (messagePreview.data.take 50) ++
          (if messagePreview.data.length > 50 then "..." else "") }
  slice (session :: sessions) 0 (some 10)

/-- The numbers of an array of daily averages; `none` when one of them is `NaN`. -/
def numbers : List (Option ℚ) → Option (List ℚ)
  | [] => some []
  | none :: _ => none
  | some q :: rest => (numbers rest).map (fun l => q :: l)

/-- What the statistics part of `renderMoodTracker` computes: the text of
`totalDays`, the overall average, the text of `avgMood`, the text of
`trendIcon`, and the payload shown by `showMoodAdvice`, `none` when it is not
called. -/
structure TrackerSummary where
  totalDays : Nat
  avgMoodValue : ℚ
  avgMood : String
  trendIcon : String
  advice : Option AdvicePayload
  deriving DecidableEq, Repr

/-- The statistics part of `renderMoodTracker` (from `// Update stats` to the
call of `showMoodAdvice`). The result is `none` when a daily average is `NaN`:
`getTrend`, `getMoodEmoji` and `getMoodAdvice` are embedded on rational numbers. -/
def renderMoodTracker (localDate : Nat → CalendarDate) (messages : List Message) :
    Option TrackerSummary :=
  let dates := chartDates localDate messages
  match numbers (chartMoodData localDate messages) with
  | none => none
  | some moodData =>
    let avgMoodValue : ℚ :=
      if moodData.length > 0 then
        moodData.foldl (fun a b => a + b) 0 / (moodData.length : ℚ)
      else 0
    let trendText := getTrend moodData
    some
      { totalDays := dates.length
        avgMoodValue := avgMoodValue
        avgMood := getMoodEmoji avgMoodValue
        trendIcon := trendText
        advice :=
          if dates.length > 0 then some (getMoodAdvice avgMoodValue trendText) else none }

/-! ## Authentication middleware (`server.js`) -/

/-- The method `String.prototype.split(' ')` on the characters of a string: the
fields between the spaces; a string without space is one field. -/
def splitOnSpace : List Char → List (List Char)
  | [] => [[]]
  | c :: cs =>
    if c = ' ' then [] :: splitOnSpace cs
    else
      match splitOnSpace cs with
      | field :: fields => (c :: field) :: fields
      | [] => [[c]]

/-- The expression `authHeader && authHeader.split(' ')[1]`; `authHeader` is
`none` when the request has no `authorization` header, and the result is `none`
when it is `undefined`. -/
def authToken (authHeader : Option String) : Option String :=
  match authHeader with
  | none => none
  | some header =>
    if header = "" then some ""
    else (splitOnSpace header.data)[1]?.map String.mk

/-- The expression `process.env.JWT_SECRET || 'your-secret-key'`. -/
def jwtSecret (env : Option String) : String :=
  match env with
  | some secret => if secret = "" then "your-secret-key" else secret
  | none => "your-secret-key"

/-- What `authenticateToken` does with a request: it calls `next()` after
setting `req.user`, or it answers with a status and an error text. -/
inductive AuthOutcome (User : Type) where
  | next (user : User)
  | respond (status : Nat) (error : String)
  deriving DecidableEq, Repr

/-- The middleware `authenticateToken`. The library call `jwt.verify(token,
secret, callback)` is the parameter `jwtVerify`, which gives the decoded user or
`none` for an error. -/
def authenticateToken {User : Type} (jwtVerify : String → String → Option User)
    (env : Option String) (authHeader : Option String) : AuthOutcome User :=
  match authToken authHeader with
  | none => .respond 401 "Access token required"
  | some token =>
    if token = "" then .respond 401 "Access token required"
    else
      match jwtVerify token (jwtSecret env) with
      | none => .respond 403 "Invalid token"
      | some user => .next user

/-! ## Vocabulary used to state the remaining properties -/

/-- The result `Great` of `getMoodEmoji`. -/
def moodGreat : String := "\uF8FFüòä Great"

/-- The result `Good` of `getMoodEmoji`. -/
def moodGood : String := "\uF8FFüôÇ Good"

/-- The result `Okay` of `getMoodEmoji`. -/
def moodOkay : String := "\uF8FFüòê Okay"

/-- The result `Low` of `getMoodEmoji`. -/
def moodLow : String := "\uF8FFüòî Low"

/-- The result `Struggling` of `getMoodEmoji`. -/
def moodStruggling : String := "\uF8FFüò¢ Struggling"

/-- Upper-casing of the ASCII letters. -/
def asciiUpper (s : String) : String :=
  ⟨s.data.map Char.toUpper⟩

/-- The crisis phrases tested by the server responder. -/
def serverCrisisPhrases : List String :=
  ["suicide", "kill myself", "want to die"]

/-- A sample request to add a session: the instant, the selected mood and the
message. -/
structure SessionRequest where
  now : Nat
  currentMood : Option MoodTag
  messagePreview : String

/-- The session list after a sequence of calls of `addSession`, starting from
`sessions`. -/
def addSessions (sessions : List Session) (requests : List SessionRequest) : List Session :=
  requests.foldl (fun s r => addSession r.now r.currentMood s r.messagePreview) sessions

/-! ## JavaScript numbers (`fronted/app.js`)

The definitions above compute with exact rational numbers. The definitions of
this part compute as the program does: on binary64 numbers, every sum, product
and quotient rounded to the nearest binary64 number, with `NaN` and the two
infinities. Their names end in `64`. -/

/-- A JavaScript number: a finite binary64 value, held as the rational number it
denotes, one of the two infinities, or `NaN`. Zero carries no sign. -/
inductive JSNumber where
  | finite (value : ℚ)
  | posInf
  | negInf
  | nan
  deriving DecidableEq, Repr

/-- The integer nearest to a rational number, the even one of the two when the
number lies half way between them. -/
def roundHalfEven (x : ℚ) : ℤ :=
  let n := ⌊x⌋
  let rest := x - n
  if rest < 1 / 2 then n
  else if 1 / 2 < rest then n + 1
  else if n % 2 = 0 then n
  else n + 1

/-- The distance between neighbouring binary64 numbers at a rational number: 53
significant bits, the least exponent being `-1022`, below which the numbers are
subnormal. -/
def binary64Ulp (x : ℚ) : ℚ :=
  2 ^ (max (Int.log 2 |x|) (-1022) - 52)

/-- The multiple of `binary64Ulp x` nearest to `x`, the even multiple of the
two when `x` lies half way between them. -/
def binary64Nearest (x : ℚ) : ℚ :=
  roundHalfEven (x / binary64Ulp x) * binary64Ulp x

/-- The binary64 number nearest to a rational number (round to nearest, ties to
even): an infinity when the rounded value reaches `2 ^ 1024`. -/
def roundBinary64 (x : ℚ) : JSNumber :=
  if 2 ^ 1024 ≤ binary64Nearest x then .posInf
  else if binary64Nearest x ≤ -2 ^ 1024 then .negInf
  else .finite (binary64Nearest x)

/-- The operator `+` on two numbers. -/
def JSNumber.add : JSNumber → JSNumber → JSNumber
  | .finite a, .finite b => roundBinary64 (a + b)
  | .finite _, .posInf => .posInf
  | .finite _, .negInf => .negInf
  | .posInf, .finite _ => .posInf
  | .posInf, .posInf => .posInf
  | .negInf, .finite _ => .negInf
  | .negInf, .negInf => .negInf
  | _, _ => .nan

/-- The operator `-` on two numbers. -/
def JSNumber.sub : JSNumber → JSNumber → JSNumber
  | .finite a, .finite b => roundBinary64 (a - b)
  | .finite _, .posInf => .negInf
  | .finite _, .negInf => .posInf
  | .posInf, .finite _ => .posInf
  | .posInf, .negInf => .posInf
  | .negInf, .finite _ => .negInf
  | .negInf, .posInf => .negInf
  | _, _ => .nan

/-- The operator `*` on two numbers. -/
def JSNumber.mul : JSNumber → JSNumber → JSNumber
  | .finite a, .finite b => roundBinary64 (a * b)
  | .finite a, .posInf => if a = 0 then .nan else if 0 < a then .posInf else .negInf
  | .finite a, .negInf => if a = 0 then .nan else if 0 < a then .negInf else .posInf
  | .posInf, .finite b => if b = 0 then .nan else if 0 < b then .posInf else .negInf
  | .negInf, .finite b => if b = 0 then .nan else if 0 < b then .negInf else .posInf
  | .posInf, .posInf => .posInf
  | .posInf, .negInf => .negInf
  | .negInf, .posInf => .negInf
  | .negInf, .negInf => .posInf
  | _, _ => .nan

/-- The operator `/` on two numbers. A zero divisor is the positive zero, as an
array length is. -/
def JSNumber.div : JSNumber → JSNumber → JSNumber
  | .finite a, .finite b =>
    if b = 0 then
      if a = 0 then .nan else if 0 < a then .posInf else .negInf
    else roundBinary64 (a / b)
  | .finite _, .posInf => .finite 0
  | .finite _, .negInf => .finite 0
  | .posInf, .finite b => if 0 ≤ b then .posInf else .negInf
  | .negInf, .finite b => if 0 ≤ b then .negInf else .posInf
  | _, _ => .nan

/-- The operator `<` on two numbers; a comparison with `NaN` is false. -/
def JSNumber.lt : JSNumber → JSNumber → Bool
  | .finite a, .finite b => decide (a < b)
  | .finite _, .posInf => true
  | .negInf, .finite _ => true
  | .negInf, .posInf => true
  | _, _ => false

/-- The operator `>` on two numbers. -/
def JSNumber.gt (a b : JSNumber) : Bool :=
  JSNumber.lt b a

/-- The operator `>=` on two numbers; a comparison with `NaN` is false. -/
def JSNumber.ge : JSNumber → JSNumber → Bool
  | .finite a, .finite b => decide (a ≥ b)
  | .finite _, .negInf => true
  | .posInf, .finite _ => true
  | .posInf, .posInf => true
  | .posInf, .negInf => true
  | .negInf, .negInf => true
  | _, _ => false

/-- The number of an array length; a length is below `2 ^ 32` and is a binary64
number as it stands. -/
def JSNumber.ofLength (length : Nat) : JSNumber :=
  .finite (length : ℚ)

/-- The function `getRandomResponse` on binary64 numbers:
`responses[Math.floor(Math.random() * responses.length)]`. `random` is the
value of `Math.random()`. `Math.floor` leaves `NaN` and the infinities as they
are, and reading the array there gives `undefined`. -/
def getRandomResponse64 (random : ℚ) (responses : List String) : Option String :=
  match JSNumber.mul (.finite random) (JSNumber.ofLength responses.length) with
  | .finite product =>
    let index : ℤ := ⌊product⌋
    if index < 0 then none else responses[index.toNat]?
  | _ => none

/-- One step of `moods.reduce((sum, mood) => sum + getMoodValue(mood), 0)` on
binary64 numbers. Adding an inherited member to a number gives a string, which
stays a string under every later addition and which the division turns into
`NaN`; the accumulator is `NaN` from there on. -/
def addMoodValue64 (sum : JSNumber) (mood : String) : JSNumber :=
  match getMoodValue mood with
  | .number v => JSNumber.add sum (.finite v)
  | _ => .nan

/-- The values computed for one date in the second loop of `renderMoodTracker`,
with the average as a JavaScript number. -/
structure DayPoint64 where
  date : DateLabel
  avgMood : JSNumber
  dominantMood : Option String
  deriving DecidableEq, Repr

/-- The body of the loop `Object.keys(messagesByDate).forEach(date => ...)` on
binary64 numbers. -/
def dayPoint64 (entry : DateLabel × List String) : DayPoint64 :=
  let moods := entry.2
  { date := entry.1
    avgMood :=
      JSNumber.div (moods.foldl addMoodValue64 (.finite 0)) (JSNumber.ofLength moods.length)
    dominantMood := moods.getLast? }

/-- The daily points of `renderMoodTracker` on binary64 numbers, one for each
key of `messagesByDate` in the order of `Object.keys`. -/
def moodPoints64 (localDate : Nat → CalendarDate) (messages : List Message) :
    List DayPoint64 :=
  (groupByDate localDate messages).map dayPoint64

/-- The array `moodData` of `renderMoodTracker` on binary64 numbers. -/
def chartMoodData64 (localDate : Nat → CalendarDate) (messages : List Message) :
    List JSNumber :=
  (moodPoints64 localDate messages).map (fun p => p.avgMood)

/-- The function `getTrend` on binary64 numbers. -/
def getTrend64 (data : List JSNumber) : String :=
  if data.length < 2 then "\uF8FFüìä Building"
  else
    let recent := slice data (-3) none
    let earlier := slice data (-6) (some (-3))
    if recent.length = 0 ∨ earlier.length = 0 then "\uF8FFüìä Tracking"
    else
      let recentAvg :=
        JSNumber.div (recent.foldl (fun a b => JSNumber.add a b) (.finite 0))
          (JSNumber.ofLength recent.length)
      let earlierAvg :=
        JSNumber.div (earlier.foldl (fun a b => JSNumber.add a b) (.finite 0))
          (JSNumber.ofLength earlier.length)
      if JSNumber.gt recentAvg (JSNumber.add earlierAvg (.finite 0.5)) then "\uF8FFüìà Improving"
      else if JSNumber.lt recentAvg (JSNumber.sub earlierAvg (.finite 0.5)) then "\uF8FFüìâ Declining"
      else "‚û°Ô∏è Stable"

/-- The function `getMoodEmoji` on binary64 numbers. -/
def getMoodEmoji64 (avgValue : JSNumber) : String :=
  if JSNumber.ge avgValue (.finite 4.5) then "\uF8FFüòä Great"
  else if JSNumber.ge avgValue (.finite 3.5) then "\uF8FFüôÇ Good"
  else if JSNumber.ge avgValue (.finite 2.5) then "\uF8FFüòê Okay"
  else if JSNumber.ge avgValue (.finite 1.5) then "\uF8FFüòî Low"
  else "\uF8FFüò¢ Struggling"

/-- The function `getMoodAdvice` on binary64 numbers. -/
def getMoodAdvice64 (avgMood : JSNumber) (trend : String) : AdvicePayload :=
  let trendDirection := splitFirst trend
  if JSNumber.lt avgMood (.finite 1.5) then criticalAdvice
  else if JSNumber.lt avgMood (.finite 2.5) ∧ trendDirection = "\uF8FFüìà" then lowImprovingAdvice
  else if JSNumber.lt avgMood (.finite 3.5) then
    if trendDirection = "\uF8FFüìà" then moderateImprovingAdvice
    else if trendDirection = "\uF8FFüìâ" then supportAdvice
    else maintainAdvice
  else if JSNumber.lt avgMood (.finite 4.5) then thrivingAdvice
  else excellentAdvice

/-- What the statistics part of `renderMoodTracker` computes, with the overall
average as a JavaScript number. -/
structure TrackerSummary64 where
  totalDays : Nat
  avgMoodValue : JSNumber
  avgMood : String
  trendIcon : String
  advice : Option AdvicePayload
  deriving DecidableEq, Repr

/-- The statistics part of `renderMoodTracker` (from `// Update stats` to the
call of `showMoodAdvice`) on binary64 numbers. -/
def renderMoodTracker64 (localDate : Nat → CalendarDate) (messages : List Message) :
    TrackerSummary64 :=
  let dates := (moodPoints64 localDate messages).map (fun p => p.date)
  let moodData := chartMoodData64 localDate messages
  let avgMoodValue : JSNumber :=
    if moodData.length > 0 then
      JSNumber.div (moodData.foldl (fun a b => JSNumber.add a b) (.finite 0))
        (JSNumber.ofLength moodData.length)
    else .finite 0
  let trendText := getTrend64 moodData
  { totalDays := dates.length
    avgMoodValue := avgMoodValue
    avgMood := getMoodEmoji64 avgMoodValue
    trendIcon := trendText
    advice :=
      if dates.length > 0 then some (getMoodAdvice64 avgMoodValue trendText) else none }

/-! ## Vocabulary used to state the properties of the binary64 functions -/

/-- The mean of a list of numbers as the program computes it: the values are
added from the left, starting from `0`, and the sum is divided by the count. -/
def mean64 (l : List JSNumber) : JSNumber :=
  JSNumber.div (l.foldl (fun a b => JSNumber.add a b) (.finite 0)) (JSNumber.ofLength l.length)

/-- The last 3 points of a list of numbers. -/
def recentPoints64 (data : List JSNumber) : List JSNumber :=
  lastN 3 data

/-- The up to 3 points immediately before the last 3 of a list of numbers. -/
def earlierPoints64 (data : List JSNumber) : List JSNumber :=
  lastN 3 (data.take (data.length - 3))

/-- The numbers of the specification's score table for a list of labels. -/
def labelScores64 (labels : List String) : List JSNumber :=
  labels.map (fun label => JSNumber.finite (labelScore label))

/-- A history of one day, 2024-01-05, with Happy at 09:00, Neutral at 12:00 and
Sad at 18:00 UTC. -/
def thirdsExampleMessages : List Message :=
  [taggedMessage 1704445200000 "Happy", taggedMessage 1704456000000 "Neutral",
   taggedMessage 1704477600000 "Sad"]

/-- A history of one message, on 2024-01-05, whose label names a member of
`Object.prototype`. -/
def inheritedLabelMessages : List Message :=
  [taggedMessage 1704445200000 "toString"]

/-- Six daily averages whose last three have mean 7/3 and whose first three have
mean 11/6 in exact arithmetic: the two means differ by exactly 1/2. -/
def halfApartPoints : List ℚ :=
  [1, 1, 3.5, 1, 1, 5]

/-- A value of `Math.random()`: a multiple of `2 ^ (-53)` just below 2/3. -/
def tieDraw : ℚ :=
  6004799503160661 / 2 ^ 53

/-! # Theorems -/

/-! ## Strings and selection: auxiliary facts -/

theorem listIncludes_iff (s sub : List Char) : listIncludes s sub = true ↔ sub <:+: s := by
  unfold listIncludes
  rw [List.any_eq_true, List.infix_iff_prefix_suffix]
  constructor
  · rintro ⟨t, ht, hp⟩
    exact ⟨t, List.isPrefixOf_iff_prefix.mp hp, (List.mem_tails _ _).mp ht⟩
  · rintro ⟨t, hp, ht⟩
    exact ⟨t, (List.mem_tails _ _).mpr ht, List.isPrefixOf_iff_prefix.mpr hp⟩

theorem includes_iff (s sub : String) : includes s sub = true ↔ sub.data <:+: s.data :=
  listIncludes_iff _ _

theorem includes_eq_false_iff (s sub : String) :
    includes s sub = false ↔ ¬ sub.data <:+: s.data := by
  rw [← includes_iff, Bool.not_eq_true]

theorem matchesStart_iff (s : String) (alts : List String) :
    matchesStart s alts = true ↔ ∃ p ∈ alts, p.data <+: s.data := by
  unfold matchesStart
  rw [List.any_eq_true]
  constructor
  · rintro ⟨p, hp, h⟩
    exact ⟨p, hp, List.isPrefixOf_iff_prefix.mp h⟩
  · rintro ⟨p, hp, h⟩
    exact ⟨p, hp, List.isPrefixOf_iff_prefix.mpr h⟩

theorem floor_index_bounds (random : ℚ) (n : ℕ) (h0 : 0 ≤ random) (h1 : random < 1)
    (hn : 0 < n) : 0 ≤ ⌊random * (n : ℚ)⌋ ∧ (⌊random * (n : ℚ)⌋).toNat < n := by
  have hpos : (0 : ℚ) < (n : ℚ) := by exact_mod_cast hn
  have hnn : 0 ≤ ⌊random * (n : ℚ)⌋ := Int.floor_nonneg.mpr (mul_nonneg h0 hpos.le)
  have hlt : ⌊random * (n : ℚ)⌋ < (n : ℤ) := by
    rw [Int.floor_lt]
    have : random * (n : ℚ) < 1 * (n : ℚ) := mul_lt_mul_of_pos_right h1 hpos
    simpa using this
  exact ⟨hnn, by omega⟩

theorem getRandomResponse_mem (random : ℚ) (l : List String) (h0 : 0 ≤ random)
    (h1 : random < 1) (hl : l ≠ []) : ∃ t ∈ l, getRandomResponse random l = some t := by
  obtain ⟨hnn, hlt⟩ := floor_index_bounds random l.length h0 h1 (List.length_pos.mpr hl)
  refine ⟨l[(⌊random * (l.length : ℚ)⌋).toNat], List.getElem_mem _, ?_⟩
  unfold getRandomResponse
  simp only [not_lt.mpr hnn, if_false]
  exact List.getElem?_eq_getElem hlt

theorem getRandomResponse_some_mem (random : ℚ) (l : List String) (t : String)
    (h : getRandomResponse random l = some t) : t ∈ l := by
  unfold getRandomResponse at h
  simp only at h
  split_ifs at h
  exact List.getElem?_mem h

theorem getRandomResponse_zero (t : String) (l : List String) :
    getRandomResponse 0 (t :: l) = some t := by
  simp [getRandomResponse]

theorem responses_ne_nil (c : Category) : responses c ≠ [] := by
  cases c <;> simp [responses]

set_option maxRecDepth 100000 in
theorem responses_disjoint :
    ∀ c₁ c₂ : Category, ∀ t ∈ responses c₁, t ∈ responses c₂ → c₁ = c₂ := by
  decide

theorem getAIResponse_eq (toLowerCase : String → String) (random : ℚ) (userMessage : String) :
    getAIResponse toLowerCase random userMessage =
      getRandomResponse random (responses (selectedCategory (toLowerCase userMessage))) := by
  unfold getAIResponse selectedCategory
  simp only [apply_ite responses, apply_ite (getRandomResponse random)]

theorem ite_ne_of_ne {α : Type} (c : Prop) [Decidable c] (a b x : α) (ha : a ≠ x) (hb : b ≠ x) :
    (if c then a else b) ≠ x := by
  split_ifs <;> assumption

theorem crisis_test_iff (s : String) :
    (includes s "suicide" || includes s "kill myself" || includes s "end it all" ||
      includes s "want to die" || includes s "no reason to live") = true ↔
      ∃ p ∈ crisisPhrases, p.data <:+: s.data := by
  simp only [Bool.or_eq_true, includes_iff, crisisPhrases, List.mem_cons, List.mem_singleton,
    List.not_mem_nil, or_false, exists_eq_or_imp, exists_eq_left, or_assoc]

theorem selectedCategory_crisis_iff (s : String) :
    selectedCategory s = .crisis ↔ ∃ p ∈ crisisPhrases, p.data <:+: s.data := by
  rw [← crisis_test_iff]
  unfold selectedCategory
  by_cases h : (includes s "suicide" || includes s "kill myself" || includes s "end it all" ||
      includes s "want to die" || includes s "no reason to live") = true
  · rw [if_pos h]
    exact iff_of_true rfl h
  · rw [if_neg h]
    refine iff_of_false ?_ h
    repeat' (first | exact Category.noConfusion | apply ite_ne_of_ne)

theorem selectedCategory_greeting_iff (s : String)
    (hc : ¬ ∃ p ∈ crisisPhrases, p.data <:+: s.data) :
    selectedCategory s = .greeting ↔ ∃ p ∈ greetingPrefixes, p.data <+: s.data := by
  rw [← crisis_test_iff] at hc
  rw [greetingPrefixes, ← matchesStart_iff]
  unfold selectedCategory
  rw [if_neg hc]
  by_cases h : matchesStart s
      ["hi", "hello", "hey", "greetings", "good morning", "good evening"] = true
  · rw [if_pos h]
    exact iff_of_true rfl h
  · rw [if_neg h]
    refine iff_of_false ?_ h
    repeat' (first | exact Category.noConfusion | apply ite_ne_of_ne)

theorem firstBucketIn_nil (s : String) : firstBucketIn [] s = .default := rfl

theorem firstBucketIn_cons (b : Category × List String) (rest : List (Category × List String))
    (s : String) :
    firstBucketIn (b :: rest) s =
      if b.2.any (fun k => includes s k) = true then b.1 else firstBucketIn rest s := by
  unfold firstBucketIn
  rw [List.find?_cons]
  cases h : b.2.any (fun k => includes s k) <;> simp

theorem selectedCategory_eq_firstBucket (s : String)
    (hc : ¬ ∃ p ∈ crisisPhrases, p.data <:+: s.data)
    (hg : ¬ ∃ p ∈ greetingPrefixes, p.data <+: s.data) :
    selectedCategory s = firstBucket s := by
  rw [← crisis_test_iff] at hc
  rw [greetingPrefixes, ← matchesStart_iff] at hg
  unfold selectedCategory firstBucket topicBuckets
  rw [if_neg hc, if_neg hg]
  simp only [firstBucketIn_cons, firstBucketIn_nil, List.any_cons, List.any_nil, Bool.or_false,
    Bool.or_assoc]

theorem topicBuckets_ne_default : ∀ b ∈ topicBuckets, b.1 ≠ Category.default := by
  decide

theorem firstBucket_default_iff (s : String) :
    firstBucket s = .default ↔ ∀ b ∈ topicBuckets, ∀ k ∈ b.2, ¬ k.data <:+: s.data := by
  unfold firstBucket firstBucketIn
  constructor
  · intro h
    split at h
    · next b hb =>
      exact absurd h (topicBuckets_ne_default b (List.mem_of_find?_eq_some hb))
    · next hnone =>
      rw [List.find?_eq_none] at hnone
      intro b hb k hk hin
      apply hnone b hb
      rw [List.any_eq_true]
      exact ⟨k, hk, (includes_iff _ _).mpr hin⟩
  · intro h
    have hnone : topicBuckets.find? (fun b => b.2.any (fun k => includes s k)) = none := by
      rw [List.find?_eq_none]
      intro b hb hany
      rw [List.any_eq_true] at hany
      obtain ⟨k, hk, hin⟩ := hany
      exact h b hb k hk ((includes_iff _ _).mp hin)
    rw [hnone]

theorem generateAIResponse_eq (toLowerCase : String → String) (random : ℚ)
    (userMessage : String) (mood : Option String) :
    generateAIResponse toLowerCase random userMessage mood =
      getRandomResponse random
        (serverResponses (serverSelectedCategory (toLowerCase userMessage))) := by
  unfold generateAIResponse serverSelectedCategory
  simp only [apply_ite serverResponses, apply_ite (getRandomResponse random)]

/-! ## The responders -/

/-- C1: when the lower-cased message contains one of the five crisis phrases,
`getAIResponse` returns one of the crisis templates, for every random draw in
`[0, 1)` and whatever else the message contains. -/
theorem getAIResponse_crisis (toLowerCase : String → String) (random : ℚ)
    (userMessage : String) (h0 : 0 ≤ random) (h1 : random < 1)
    (hphrase : ∃ p ∈ crisisPhrases, p.data <:+: (toLowerCase userMessage).data) :
    ∃ t ∈ responses .crisis, getAIResponse toLowerCase random userMessage = some t := by
  rw [getAIResponse_eq, (selectedCategory_crisis_iff _).mpr hphrase]
  exact getRandomResponse_mem random _ h0 h1 (responses_ne_nil _)

theorem getAIResponse_crisis_witness :
    (∃ p ∈ crisisPhrases, p.data <:+: (asciiLower "I feel happy but want to die").data) ∧
      ∃ t ∈ responses .crisis,
        getAIResponse asciiLower 0 "I feel happy but want to die" = some t :=
  ⟨by decide,
    getAIResponse_crisis asciiLower 0 "I feel happy but want to die" (by norm_num)
      (by norm_num) (by decide)⟩

/-- C2, evaluated at two failing inputs: the server responder tests only three
of the five crisis phrases, so a message with "end it all" or with "no reason to
live" is answered from the default templates, not from the crisis templates. -/
theorem generateAIResponse_misses_crisis_phrases :
    generateAIResponse asciiLower 0 "I just want to end it all" none =
        some ("Thank you for sharing that with me. I'm here to support you. " ++
          "Can you tell me more about what you're experiencing?") ∧
      generateAIResponse asciiLower 0 "There is no reason to live" (some "Sad") =
        some ("Thank you for sharing that with me. I'm here to support you. " ++
          "Can you tell me more about what you're experiencing?") ∧
      ("Thank you for sharing that with me. I'm here to support you. " ++
          "Can you tell me more about what you're experiencing?") ∉
        serverResponses .crisis := by
  refine ⟨?_, ?_, by decide⟩
  · rw [generateAIResponse_eq,
      show serverSelectedCategory (asciiLower "I just want to end it all") = .default by decide]
    exact getRandomResponse_zero _ _
  · rw [generateAIResponse_eq,
      show serverSelectedCategory (asciiLower "There is no reason to live") = .default by decide]
    exact getRandomResponse_zero _ _

/-- C3: a message with no crisis phrase and no greeting prefix is answered from
the templates of the first bucket, in the order anxiety, sad, stress, happy,
sleep, breathing, meditation, help, gratitude, that has a keyword as a substring
of the lower-cased message; it is answered from the default templates exactly
when no bucket has a keyword in the message. -/
theorem getAIResponse_first_bucket (toLowerCase : String → String) (random : ℚ)
    (userMessage : String) (h0 : 0 ≤ random) (h1 : random < 1)
    (hc : ∀ p ∈ crisisPhrases, ¬ p.data <:+: (toLowerCase userMessage).data)
    (hg : ∀ p ∈ greetingPrefixes, ¬ p.data <+: (toLowerCase userMessage).data) :
    getAIResponse toLowerCase random userMessage =
        getRandomResponse random (responses (firstBucket (toLowerCase userMessage))) ∧
      (∃ t ∈ responses (firstBucket (toLowerCase userMessage)),
        getAIResponse toLowerCase random userMessage = some t) ∧
      ((∃ t ∈ responses .default, getAIResponse toLowerCase random userMessage = some t) ↔
        ∀ b ∈ topicBuckets, ∀ k ∈ b.2, ¬ k.data <:+: (toLowerCase userMessage).data) := by
  have hsel : selectedCategory (toLowerCase userMessage) =
      firstBucket (toLowerCase userMessage) :=
    selectedCategory_eq_firstBucket _ (fun ⟨p, hp, h⟩ => hc p hp h)
      (fun ⟨p, hp, h⟩ => hg p hp h)
  have heq := getAIResponse_eq toLowerCase random userMessage
  rw [hsel] at heq
  obtain ⟨t, ht, hget⟩ := getRandomResponse_mem random
    (responses (firstBucket (toLowerCase userMessage))) h0 h1 (responses_ne_nil _)
  refine ⟨heq, ⟨t, ht, heq.trans hget⟩, ?_⟩
  rw [← firstBucket_default_iff]
  constructor
  · rintro ⟨u, hu, hres⟩
    have hut : u = t := by
      rw [heq, hget] at hres
      exact (Option.some.inj hres).symm
    exact responses_disjoint _ _ u (hut ▸ ht) hu
  · intro hd
    exact ⟨t, hd ▸ ht, heq.trans hget⟩

theorem getAIResponse_first_bucket_witness :
    firstBucket (asciiLower "I feel anxious but happy") = .anxiety ∧
      (getAIResponse asciiLower 0 "I feel anxious but happy" =
          getRandomResponse 0 (responses (firstBucket (asciiLower "I feel anxious but happy"))) ∧
        (∃ t ∈ responses (firstBucket (asciiLower "I feel anxious but happy")),
          getAIResponse asciiLower 0 "I feel anxious but happy" = some t) ∧
        ((∃ t ∈ responses .default,
            getAIResponse asciiLower 0 "I feel anxious but happy" = some t) ↔
          ∀ b ∈ topicBuckets, ∀ k ∈ b.2,
            ¬ k.data <:+: (asciiLower "I feel anxious but happy").data)) :=
  ⟨by decide,
    getAIResponse_first_bucket asciiLower 0 "I feel anxious but happy" (by norm_num)
      (by norm_num) (by decide) (by decide)⟩

/-- C4: for a message with no crisis phrase, `getAIResponse` returns one of the
greeting templates exactly when the lower-cased text starts with one of "hi",
"hello", "hey", "greetings", "good morning", "good evening"; keywords elsewhere
in the message do not matter, and a greeting word that is not at position 0 does
not make the message a greeting. -/
theorem getAIResponse_greeting_iff (toLowerCase : String → String) (random : ℚ)
    (userMessage : String) (h0 : 0 ≤ random) (h1 : random < 1)
    (hc : ∀ p ∈ crisisPhrases, ¬ p.data <:+: (toLowerCase userMessage).data) :
    (∃ t ∈ responses .greeting, getAIResponse toLowerCase random userMessage = some t) ↔
      ∃ p ∈ greetingPrefixes, p.data <+: (toLowerCase userMessage).data := by
  have hc' : ¬ ∃ p ∈ crisisPhrases, p.data <:+: (toLowerCase userMessage).data :=
    fun ⟨p, hp, h⟩ => hc p hp h
  rw [← selectedCategory_greeting_iff _ hc', getAIResponse_eq]
  constructor
  · rintro ⟨t, ht, hres⟩
    exact responses_disjoint _ _ t (getRandomResponse_some_mem _ _ _ hres) ht
  · intro hsel
    rw [hsel]
    exact getRandomResponse_mem random _ h0 h1 (responses_ne_nil _)

theorem getAIResponse_greeting_iff_witness :
    ((∃ t ∈ responses .greeting, getAIResponse asciiLower 0 "Hi, I am anxious" = some t) ↔
        ∃ p ∈ greetingPrefixes, p.data <+: (asciiLower "Hi, I am anxious").data) ∧
      ((∃ t ∈ responses .greeting, getAIResponse asciiLower 0 "Oh hi there" = some t) ↔
        ∃ p ∈ greetingPrefixes, p.data <+: (asciiLower "Oh hi there").data) :=
  ⟨getAIResponse_greeting_iff asciiLower 0 "Hi, I am anxious" (by norm_num) (by norm_num)
      (by decide),
    getAIResponse_greeting_iff asciiLower 0 "Oh hi there" (by norm_num) (by norm_num)
      (by decide)⟩

/-- C5: for a non-empty template list and a random value in `[0, 1)` the index
`floor(random * length)` is within bounds, so `getRandomResponse` returns a member
of the list; hence `getAIResponse` always returns a member of the template set
of the category it selected. -/
theorem getRandomResponse_in_bounds (random : ℚ) (h0 : 0 ≤ random) (h1 : random < 1) :
    (∀ templates : List String, templates ≠ [] →
        0 ≤ ⌊random * (templates.length : ℚ)⌋ ∧
          (⌊random * (templates.length : ℚ)⌋).toNat < templates.length ∧
          ∃ t ∈ templates, getRandomResponse random templates = some t) ∧
      ∀ (toLowerCase : String → String) (userMessage : String),
        ∃ t ∈ responses (selectedCategory (toLowerCase userMessage)),
          getAIResponse toLowerCase random userMessage = some t := by
  constructor
  · intro templates hne
    obtain ⟨ha, hb⟩ :=
      floor_index_bounds random templates.length h0 h1 (List.length_pos.mpr hne)
    exact ⟨ha, hb, getRandomResponse_mem random templates h0 h1 hne⟩
  · intro toLowerCase userMessage
    rw [getAIResponse_eq]
    exact getRandomResponse_mem random _ h0 h1 (responses_ne_nil _)

theorem getRandomResponse_in_bounds_witness :
    (∀ templates : List String, templates ≠ [] →
        0 ≤ ⌊(1 / 2 : ℚ) * (templates.length : ℚ)⌋ ∧
          (⌊(1 / 2 : ℚ) * (templates.length : ℚ)⌋).toNat < templates.length ∧
          ∃ t ∈ templates, getRandomResponse (1 / 2) templates = some t) ∧
      ∀ (toLowerCase : String → String) (userMessage : String),
        ∃ t ∈ responses (selectedCategory (toLowerCase userMessage)),
          getAIResponse toLowerCase (1 / 2) userMessage = some t :=
  getRandomResponse_in_bounds (1 / 2) (by norm_num) (by norm_num)

/-! ## Grouping by date: auxiliary facts -/

theorem get_isNone_iff (o : MessagesByDate) (k : DateLabel) :
    (o.get k).isNone = true ↔ k ∉ o.map Prod.fst := by
  unfold MessagesByDate.get
  rw [Option.isNone_iff_eq_none, Option.map_eq_none', List.find?_eq_none]
  simp only [decide_eq_true_eq, List.mem_map, not_exists, not_and]

theorem push_keys (o : MessagesByDate) (k : DateLabel) (x : String) :
    (o.push k x).map Prod.fst = o.map Prod.fst := by
  unfold MessagesByDate.push
  rw [List.map_map]
  apply List.map_congr_left
  intro e _
  simp only [Function.comp]
  split_ifs <;> rfl

theorem push_of_not_mem (o : MessagesByDate) (k : DateLabel) (x : String)
    (h : k ∉ o.map Prod.fst) : o.push k x = o := by
  unfold MessagesByDate.push
  conv_rhs => rw [← List.map_id o]
  apply List.map_congr_left
  intro e he
  have : e.1 ≠ k := fun hk => h (hk ▸ List.mem_map_of_mem Prod.fst he)
  simp [this]

theorem set_of_not_mem (o : MessagesByDate) (k : DateLabel) (v : List String)
    (h : k ∉ o.map Prod.fst) : o.set k v = o ++ [(k, v)] := by
  unfold MessagesByDate.set
  have hany : o.any (fun e => decide (e.1 = k)) = false := by
    rw [List.any_eq_false]
    intro e he
    have : e.1 ≠ k := fun hk => h (hk ▸ List.mem_map_of_mem Prod.fst he)
    simp [this]
  simp [hany]

theorem groupStep_tagged (localDate : Nat → CalendarDate) (o : MessagesByDate) (msg : Message)
    (tag : MoodTag) (hu : msg.sender = "user") (hm : msg.mood = some tag) :
    groupStep localDate o msg =
      if messageLabel localDate msg ∈ o.map Prod.fst then
        o.push (messageLabel localDate msg) tag.mood
      else o ++ [(messageLabel localDate msg, [tag.mood])] := by
  unfold groupStep
  rw [hm]
  simp only [hu, if_true]
  by_cases hk : messageLabel localDate msg ∈ o.map Prod.fst
  · have hnone : ¬ (o.get (messageLabel localDate msg)).isNone = true := by
      rw [get_isNone_iff]
      exact not_not.mpr hk
    rw [if_pos hk]
    unfold messageLabel at hnone ⊢
    rw [if_neg hnone]
  · have hnone : (o.get (messageLabel localDate msg)).isNone = true :=
      (get_isNone_iff _ _).mpr hk
    rw [if_neg hk]
    have hset := set_of_not_mem o (messageLabel localDate msg) [] hk
    have hpush := push_of_not_mem o (messageLabel localDate msg) tag.mood hk
    unfold messageLabel at hnone hset hpush ⊢
    rw [if_pos hnone, hset]
    unfold MessagesByDate.push at hpush ⊢
    rw [List.map_append, hpush]
    simp

theorem groupStep_untagged (localDate : Nat → CalendarDate) (o : MessagesByDate) (msg : Message)
    (h : isTaggedUser msg = false) : groupStep localDate o msg = o := by
  unfold groupStep
  unfold isTaggedUser at h
  cases hm : msg.mood with
  | none => rfl
  | some tag =>
    have : msg.sender ≠ "user" := by
      intro hu
      simp [hu, hm] at h
    simp [this]

theorem groupByDate_snoc (localDate : Nat → CalendarDate) (msgs : List Message) (msg : Message) :
    groupByDate localDate (msgs ++ [msg]) = groupStep localDate (groupByDate localDate msgs) msg := by
  simp [groupByDate, List.foldl_append]

theorem moodsOn_snoc (localDate : Nat → CalendarDate) (msgs : List Message) (msg : Message)
    (k : DateLabel) :
    moodsOn localDate (msgs ++ [msg]) k = moodsOn localDate msgs k ++ moodsOn localDate [msg] k := by
  simp [moodsOn, List.filterMap_append]

theorem moodsOn_append (localDate : Nat → CalendarDate) (l₁ l₂ : List Message) (k : DateLabel) :
    moodsOn localDate (l₁ ++ l₂) k = moodsOn localDate l₁ k ++ moodsOn localDate l₂ k := by
  simp [moodsOn, List.filterMap_append]

theorem moodsOn_single_untagged (localDate : Nat → CalendarDate) (msg : Message) (k : DateLabel)
    (h : isTaggedUser msg = false) : moodsOn localDate [msg] k = [] := by
  unfold isTaggedUser at h
  unfold moodsOn
  cases hm : msg.mood with
  | none => simp [List.filterMap, hm]
  | some tag =>
    have : msg.sender ≠ "user" := by
      intro hu
      simp [hu, hm] at h
    simp [List.filterMap, this]

theorem moodsOn_single_tagged (localDate : Nat → CalendarDate) (msg : Message) (tag : MoodTag)
    (k : DateLabel) (hu : msg.sender = "user") (hm : msg.mood = some tag) :
    moodsOn localDate [msg] k = if messageLabel localDate msg = k then [tag.mood] else [] := by
  unfold moodsOn
  by_cases hk : messageLabel localDate msg = k
  · simp [List.filterMap, hu, hm, hk]
  · simp [List.filterMap, hu, hm, hk]

theorem isTaggedUser_iff (msg : Message) :
    isTaggedUser msg = true ↔ msg.sender = "user" ∧ ∃ tag, msg.mood = some tag := by
  unfold isTaggedUser
  simp [Option.isSome_iff_exists]

/-- The state of `messagesByDate` after the first loop: its keys are distinct,
each key holds the moods of the tagged user messages filed under it, in list
order, and a label is a key exactly when some tagged user message is filed under
it. -/
theorem groupByDate_spec (localDate : Nat → CalendarDate) (msgs : List Message) :
    ((groupByDate localDate msgs).map Prod.fst).Nodup ∧
      (∀ e ∈ groupByDate localDate msgs, e.2 = moodsOn localDate msgs e.1) ∧
      ∀ k, k ∈ (groupByDate localDate msgs).map Prod.fst ↔ moodsOn localDate msgs k ≠ [] := by
  induction msgs using List.reverseRecOn with
  | nil => simp [groupByDate, moodsOn]
  | append_singleton msgs msg ih =>
    obtain ⟨hnd, hval, hkey⟩ := ih
    rw [groupByDate_snoc]
    cases ht : isTaggedUser msg with
    | false =>
      rw [groupStep_untagged _ _ _ ht]
      simp only [moodsOn_snoc, moodsOn_single_untagged _ _ _ ht, List.append_nil]
      exact ⟨hnd, hval, hkey⟩
    | true =>
      obtain ⟨hu, tag, hm⟩ := (isTaggedUser_iff msg).mp ht
      rw [groupStep_tagged _ _ _ tag hu hm]
      simp only [moodsOn_snoc, moodsOn_single_tagged _ _ tag _ hu hm]
      by_cases hk : messageLabel localDate msg ∈ (groupByDate localDate msgs).map Prod.fst
      · rw [if_pos hk, push_keys]
        refine ⟨hnd, ?_, ?_⟩
        · intro e' he'
          unfold MessagesByDate.push at he'
          rw [List.mem_map] at he'
          obtain ⟨e, he, rfl⟩ := he'
          by_cases hek : e.1 = messageLabel localDate msg
          · rw [if_pos hek]
            simp only [if_pos hek.symm]
            rw [hval e he]
          · rw [if_neg hek, if_neg (Ne.symm hek), List.append_nil]
            exact hval e he
        · intro k
          by_cases hkk : messageLabel localDate msg = k
          · subst hkk
            simp [hk]
          · simp [hkk, hkey k]
      · rw [if_neg hk]
        have hempty : moodsOn localDate msgs (messageLabel localDate msg) = [] := by
          by_contra hne
          exact hk ((hkey _).mpr hne)
        refine ⟨?_, ?_, ?_⟩
        · rw [List.map_append, List.nodup_append]
          refine ⟨hnd, by simp, ?_⟩
          intro a ha hb
          simp only [List.map_cons, List.map_nil, List.mem_singleton] at hb
          exact hk (hb ▸ ha)
        · intro e he
          rw [List.mem_append] at he
          rcases he with he | he
          · have hek : messageLabel localDate msg ≠ e.1 :=
              fun h => hk (h ▸ List.mem_map_of_mem Prod.fst he)
            simp [hek, hval e he]
          · simp only [List.mem_singleton] at he
            subst he
            simp [hempty]
        · intro k
          by_cases hkk : messageLabel localDate msg = k
          · subst hkk
            simp
          · simp [hkk, hkey k, Ne.symm hkk]

theorem moodsOn_ne_nil_iff (localDate : Nat → CalendarDate) (msgs : List Message)
    (k : DateLabel) :
    moodsOn localDate msgs k ≠ [] ↔
      ∃ m ∈ msgs, isTaggedUser m = true ∧ messageLabel localDate m = k := by
  induction msgs using List.reverseRecOn with
  | nil => simp [moodsOn]
  | append_singleton msgs msg ih =>
    rw [moodsOn_snoc]
    cases ht : isTaggedUser msg with
    | false =>
      rw [moodsOn_single_untagged _ _ _ ht, List.append_nil, ih]
      constructor
      · rintro ⟨m, hm, h⟩
        exact ⟨m, List.mem_append_left _ hm, h⟩
      · rintro ⟨m, hm, h1, h2⟩
        rw [List.mem_append, List.mem_singleton] at hm
        rcases hm with hm | rfl
        · exact ⟨m, hm, h1, h2⟩
        · rw [ht] at h1
          exact absurd h1 (by decide)
    | true =>
      obtain ⟨hu, tag, hm⟩ := (isTaggedUser_iff msg).mp ht
      rw [moodsOn_single_tagged _ _ tag _ hu hm]
      by_cases hk : messageLabel localDate msg = k
      · rw [if_pos hk]
        exact iff_of_true (by simp) ⟨msg, by simp, ht, hk⟩
      · rw [if_neg hk, List.append_nil, ih]
        constructor
        · rintro ⟨m, hm, h⟩
          exact ⟨m, List.mem_append_left _ hm, h⟩
        · rintro ⟨m, hm', h1, h2⟩
          rw [List.mem_append, List.mem_singleton] at hm'
          rcases hm' with hm' | rfl
          · exact ⟨m, hm', h1, h2⟩
          · exact absurd h2 hk

theorem moodPoints_mem (localDate : Nat → CalendarDate) (msgs : List Message) (p : DayPoint)
    (hp : p ∈ moodPoints localDate msgs) :
    p = dayPoint (p.date, moodsOn localDate msgs p.date) ∧
      moodsOn localDate msgs p.date ≠ [] := by
  unfold moodPoints at hp
  rw [List.mem_map] at hp
  obtain ⟨e, he, rfl⟩ := hp
  obtain ⟨_, hval, hkey⟩ := groupByDate_spec localDate msgs
  have h1 : (dayPoint e).date = e.1 := rfl
  rw [h1, ← hval e he]
  exact ⟨rfl, hval e he ▸ (hkey e.1).mp (List.mem_map_of_mem Prod.fst he)⟩

theorem chartDates_eq (localDate : Nat → CalendarDate) (msgs : List Message) :
    chartDates localDate msgs = (groupByDate localDate msgs).map Prod.fst := by
  unfold chartDates moodPoints
  rw [List.map_map]
  rfl

theorem getMoodValue_of_label (label : String) (h : label ∈ moodLabels) :
    getMoodValue label = .number (labelScore label) := by
  simp only [moodLabels, List.mem_cons, List.mem_singleton, List.not_mem_nil, or_false] at h
  rcases h with rfl | rfl | rfl | rfl | rfl <;> decide

theorem foldl_addMoodValue (moods : List String) (h : ∀ l ∈ moods, l ∈ moodLabels) (s : ℚ) :
    moods.foldl addMoodValue (some s) = some (s + (moods.map labelScore).sum) := by
  induction moods generalizing s with
  | nil => simp
  | cons a rest ih =>
    have ha := getMoodValue_of_label a (h a (List.mem_cons_self _ _))
    have hrest : ∀ l ∈ rest, l ∈ moodLabels := fun l hl => h l (List.mem_cons_of_mem _ hl)
    rw [List.foldl_cons]
    have hstep : addMoodValue (some s) a = some (s + labelScore a) := by
      unfold addMoodValue
      rw [ha]
    rw [hstep, ih hrest, List.map_cons, List.sum_cons, add_assoc]

theorem exists_last_of_exists {α : Type} (p : α → Bool) (l : List α)
    (h : ∃ x ∈ l, p x = true) :
    ∃ l₁ m l₂, l = l₁ ++ m :: l₂ ∧ p m = true ∧ ∀ y ∈ l₂, p y = false := by
  induction l using List.reverseRecOn with
  | nil => simp at h
  | append_singleton l x ih =>
    cases hx : p x with
    | true => exact ⟨l, x, [], rfl, hx, by simp⟩
    | false =>
      have h' : ∃ y ∈ l, p y = true := by
        obtain ⟨y, hy, hpy⟩ := h
        rw [List.mem_append, List.mem_singleton] at hy
        rcases hy with hy | rfl
        · exact ⟨y, hy, hpy⟩
        · rw [hx] at hpy
          exact absurd hpy (by decide)
      obtain ⟨l₁, m, l₂, hl, hm, hl₂⟩ := ih h'
      refine ⟨l₁, m, l₂ ++ [x], by rw [hl]; simp, hm, ?_⟩
      intro y hy
      rw [List.mem_append, List.mem_singleton] at hy
      rcases hy with hy | rfl
      · exact hl₂ y hy
      · exact hx

theorem firstFiled_snoc_of_mem (localDate : Nat → CalendarDate) (msgs : List Message)
    (msg : Message) (a : DateLabel)
    (ha : a ∈ (groupByDate localDate msgs).map Prod.fst) :
    firstFiled localDate (msgs ++ [msg]) a = firstFiled localDate msgs a ∧
      firstFiled localDate msgs a < msgs.length := by
  obtain ⟨_, _, hkey⟩ := groupByDate_spec localDate msgs
  obtain ⟨m, hm, ht, hl⟩ := (moodsOn_ne_nil_iff _ _ _).mp ((hkey a).mp ha)
  have hlt : firstFiled localDate msgs a < msgs.length := by
    unfold firstFiled
    apply List.findIdx_lt_length_of_exists
    exact ⟨m, hm, by simp [ht, hl]⟩
  refine ⟨?_, hlt⟩
  unfold firstFiled at hlt ⊢
  rw [List.findIdx_append, if_pos hlt]

/-- The keys of `messagesByDate` are in the order in which their first tagged
user message occurs in the list. -/
theorem groupByDate_order (localDate : Nat → CalendarDate) (msgs : List Message) :
    ((groupByDate localDate msgs).map Prod.fst).Pairwise
      (fun a b => firstFiled localDate msgs a < firstFiled localDate msgs b) := by
  induction msgs using List.reverseRecOn with
  | nil => simp [groupByDate]
  | append_singleton msgs msg ih =>
    have hold : ((groupByDate localDate msgs).map Prod.fst).Pairwise
        (fun a b => firstFiled localDate (msgs ++ [msg]) a <
          firstFiled localDate (msgs ++ [msg]) b) := by
      refine List.Pairwise.imp_of_mem ?_ ih
      intro a b ha hb hab
      rw [(firstFiled_snoc_of_mem localDate msgs msg a ha).1,
        (firstFiled_snoc_of_mem localDate msgs msg b hb).1]
      exact hab
    rw [groupByDate_snoc]
    cases ht : isTaggedUser msg with
    | false =>
      rw [groupStep_untagged _ _ _ ht]
      exact hold
    | true =>
      obtain ⟨hu, tag, hm⟩ := (isTaggedUser_iff msg).mp ht
      rw [groupStep_tagged _ _ _ tag hu hm]
      by_cases hk : messageLabel localDate msg ∈ (groupByDate localDate msgs).map Prod.fst
      · rw [if_pos hk, push_keys]
        exact hold
      · rw [if_neg hk, List.map_append, List.pairwise_append]
        refine ⟨hold, by simp, ?_⟩
        intro a ha b hb
        simp only [List.map_cons, List.map_nil, List.mem_singleton] at hb
        subst hb
        obtain ⟨h1, h2⟩ := firstFiled_snoc_of_mem localDate msgs msg a ha
        rw [h1]
        obtain ⟨_, _, hkey⟩ := groupByDate_spec localDate msgs
        have hnone : ¬ firstFiled localDate msgs (messageLabel localDate msg) < msgs.length := by
          intro hlt
          unfold firstFiled at hlt
          have hp := List.findIdx_getElem (w := hlt)
          simp only [Bool.and_eq_true, decide_eq_true_eq] at hp
          exact hk ((hkey _).mpr ((moodsOn_ne_nil_iff _ _ _).mpr
            ⟨_, List.getElem_mem _, hp.1, hp.2⟩))
        unfold firstFiled at hnone h2 ⊢
        rw [List.findIdx_append, if_neg hnone]
        omega

theorem pairwise_filter_bool {α : Type} (R : α → α → Prop) (p : α → Bool) (l : List α) :
    (l.filter p).Pairwise R ↔ l.Pairwise (fun x y => p x = true → p y = true → R x y) := by
  induction l with
  | nil => simp
  | cons a rest ih =>
    cases ha : p a with
    | false =>
      rw [List.filter_cons_of_neg (by simp [ha]), ih, List.pairwise_cons]
      simp [ha]
    | true =>
      rw [List.filter_cons_of_pos ha, List.pairwise_cons, List.pairwise_cons, ih]
      simp only [List.mem_filter, ha, true_implies, and_imp]

theorem moodsOn_eq_nil_of (localDate : Nat → CalendarDate) (msgs : List Message) (k : DateLabel)
    (h : ∀ m ∈ msgs, (isTaggedUser m && decide (messageLabel localDate m = k)) = false) :
    moodsOn localDate msgs k = [] := by
  by_contra hne
  obtain ⟨m, hm, ht, hl⟩ := (moodsOn_ne_nil_iff _ _ _).mp hne
  have := h m hm
  simp [ht, hl] at this

theorem groupStep_filter (localDate : Nat → CalendarDate) (keep : Message → Bool)
    (hkeep : ∀ m, isTaggedUser m = true → keep m = true) (msgs : List Message)
    (o : MessagesByDate) :
    (msgs.filter keep).foldl (groupStep localDate) o = msgs.foldl (groupStep localDate) o := by
  induction msgs generalizing o with
  | nil => rfl
  | cons m rest ih =>
    cases hk : keep m with
    | true => rw [List.filter_cons_of_pos hk, List.foldl_cons, List.foldl_cons, ih]
    | false =>
      have ht : isTaggedUser m = false := by
        cases h : isTaggedUser m with
        | false => rfl
        | true => rw [hkeep m h] at hk; exact absurd hk (by decide)
      rw [List.filter_cons_of_neg (by simp [hk]), List.foldl_cons, groupStep_untagged _ _ _ ht, ih]

theorem specExample_points :
    moodPoints utcDate specExampleMessages =
      [⟨⟨1, 5⟩, some (7 / 2), some "Sad"⟩, ⟨⟨1, 6⟩, some 2, some "Anxious"⟩] := by
  have hg : groupByDate utcDate specExampleMessages =
      [(⟨1, 5⟩, ["Happy", "Sad"]), (⟨1, 6⟩, ["Anxious"])] := by decide
  unfold moodPoints
  rw [hg]
  simp [dayPoint, addMoodValue, getMoodValue]
  norm_num

theorem modeExample_points :
    moodPoints utcDate modeExampleMessages = [⟨⟨1, 5⟩, some 4, some "Sad"⟩] := by
  have hg : groupByDate utcDate modeExampleMessages =
      [(⟨1, 5⟩, ["Happy", "Happy", "Sad"])] := by decide
  unfold moodPoints
  rw [hg]
  simp [dayPoint, addMoodValue, getMoodValue]
  norm_num

/-! ## The mood tracker -/

/-- In exact arithmetic the score of each daily point is the arithmetic mean, over the
tagged user messages filed under the point's date, of the label values Happy 5,
Neutral 3, Anxious 2, Sad 2, Angry 1; when the messages filed under the point are
all of one calendar day, these are the tagged user messages of that day. -/
theorem moodPoints_avgMood (localDate : Nat → CalendarDate) (messages : List Message)
    (p : DayPoint) (hp : p ∈ moodPoints localDate messages)
    (hlabels : ∀ l ∈ moodsOn localDate messages p.date, l ∈ moodLabels) :
    moodsOn localDate messages p.date ≠ [] ∧
      p.avgMood =
        some (((moodsOn localDate messages p.date).map labelScore).sum /
          ((moodsOn localDate messages p.date).length : ℚ)) ∧
      ∀ day : CalendarDate, toLocaleDateString day = p.date →
        (∀ m ∈ messages, isTaggedUser m = true → messageLabel localDate m = p.date →
          localDate m.timestamp = day) →
        moodsOn localDate messages p.date = moodsOnDay localDate messages day := by
  obtain ⟨hp', hne⟩ := moodPoints_mem localDate messages p hp
  refine ⟨hne, ?_, ?_⟩
  · have havg : p.avgMood = (dayPoint (p.date, moodsOn localDate messages p.date)).avgMood :=
      congrArg DayPoint.avgMood hp'
    rw [havg]
    unfold dayPoint
    simp only
    rw [foldl_addMoodValue _ hlabels, Option.some_bind, zero_add,
      if_neg (fun h => hne (List.length_eq_zero.mp h))]
  · intro day hday hall
    unfold moodsOn moodsOnDay
    apply List.filterMap_congr
    intro m hm
    cases hmood : m.mood with
    | none => simp
    | some tag =>
      by_cases hu : m.sender = "user"
      · have ht : isTaggedUser m = true := (isTaggedUser_iff m).mpr ⟨hu, tag, hmood⟩
        by_cases hl : messageLabel localDate m = p.date
        · simp [hu, hl, hall m hm ht hl]
        · have hd : localDate m.timestamp ≠ day := by
            intro h
            apply hl
            unfold messageLabel
            rw [h, hday]
          simp [hu, hl, hd]
      · simp [hu]

theorem moodPoints_avgMood_witness :
    (⟨⟨1, 5⟩, some (7 / 2), some "Sad"⟩ : DayPoint) ∈ moodPoints utcDate specExampleMessages ∧
      moodsOn utcDate specExampleMessages ⟨1, 5⟩ = ["Happy", "Sad"] ∧
      (moodsOn utcDate specExampleMessages ⟨1, 5⟩ ≠ [] ∧
        (some (7 / 2) : Option ℚ) =
          some (((moodsOn utcDate specExampleMessages ⟨1, 5⟩).map labelScore).sum /
            ((moodsOn utcDate specExampleMessages ⟨1, 5⟩).length : ℚ))) ∧
      moodsOn utcDate specExampleMessages ⟨1, 5⟩ =
        moodsOnDay utcDate specExampleMessages ⟨2024, 1, 5⟩ :=
  have h := moodPoints_avgMood utcDate specExampleMessages ⟨⟨1, 5⟩, some (7 / 2), some "Sad"⟩
    (by rw [specExample_points]; simp) (by decide)
  ⟨by rw [specExample_points]; simp, by decide, ⟨h.1, h.2.1⟩,
    h.2.2 ⟨2024, 1, 5⟩ (by decide) (by decide)⟩

/-- C7 as stated fails: in a history that is not in timestamp order the dominant
label of a point is not the label of the latest-timestamp tagged user message
of that day. Here Happy (18:00) is stored before Sad (09:00) of the same day, and
the dominant label is Sad. -/
theorem dominantMood_not_latest_timestamp :
    ¬ ∀ p ∈ moodPoints utcDate outOfOrderMessages, ∀ m ∈ outOfOrderMessages,
        isTaggedUser m = true → messageLabel utcDate m = p.date →
        (∀ m' ∈ outOfOrderMessages, isTaggedUser m' = true →
          utcDate m'.timestamp = utcDate m.timestamp → m'.timestamp ≤ m.timestamp) →
        p.dominantMood = m.mood.map (fun tag => tag.mood) := by
  decide

/-- C7, amended: the dominant label of each daily point is the label of the last
tagged user message, in list order, that is filed under the point's date (not
the most frequent label); when the tagged user messages of the list are in
ascending order of timestamp, that message has the latest timestamp among
them. -/
theorem dominantMood_last_in_list (localDate : Nat → CalendarDate) (messages : List Message)
    (p : DayPoint) (hp : p ∈ moodPoints localDate messages) :
    ∃ l₁ m l₂, messages = l₁ ++ m :: l₂ ∧ isTaggedUser m = true ∧
      messageLabel localDate m = p.date ∧
      (∀ m' ∈ l₂, isTaggedUser m' = true → messageLabel localDate m' ≠ p.date) ∧
      p.dominantMood = m.mood.map (fun tag => tag.mood) ∧
      (((messages.filter isTaggedUser).map (fun msg => msg.timestamp)).Pairwise (· ≤ ·) →
        ∀ m' ∈ messages, isTaggedUser m' = true → messageLabel localDate m' = p.date →
          m'.timestamp ≤ m.timestamp) := by
  obtain ⟨hp', hne⟩ := moodPoints_mem localDate messages p hp
  obtain ⟨l₁, m, l₂, hsplit, hm, hl₂⟩ := exists_last_of_exists
    (fun msg => isTaggedUser msg && decide (messageLabel localDate msg = p.date)) messages
    (by
      obtain ⟨m, hmem, ht, hl⟩ := (moodsOn_ne_nil_iff _ _ _).mp hne
      exact ⟨m, hmem, by simp [ht, hl]⟩)
  simp only [Bool.and_eq_true, decide_eq_true_eq] at hm
  obtain ⟨hu, tag, hmood⟩ := (isTaggedUser_iff m).mp hm.1
  have hlast : ∀ m' ∈ l₂, isTaggedUser m' = true → messageLabel localDate m' ≠ p.date := by
    intro m' hm' ht hl
    have := hl₂ m' hm'
    simp [ht, hl] at this
  refine ⟨l₁, m, l₂, hsplit, hm.1, hm.2, hlast, ?_, ?_⟩
  · have hdom : p.dominantMood =
        (dayPoint (p.date, moodsOn localDate messages p.date)).dominantMood :=
      congrArg DayPoint.dominantMood hp'
    rw [hdom, hmood]
    unfold dayPoint
    simp only
    have hcons : m :: l₂ = [m] ++ l₂ := rfl
    rw [hsplit, hcons, moodsOn_append, moodsOn_append, moodsOn_eq_nil_of _ l₂ _ hl₂,
      moodsOn_single_tagged _ _ tag _ hu hmood, if_pos hm.2, List.append_nil,
      List.getLast?_append]
    simp
  · intro hsorted m' hm' ht' hl'
    rw [List.pairwise_map, pairwise_filter_bool, hsplit, List.pairwise_append] at hsorted
    rw [hsplit, List.mem_append, List.mem_cons] at hm'
    rcases hm' with h | rfl | h
    · exact hsorted.2.2 m' h m (List.mem_cons_self _ _) ht' hm.1
    · exact le_refl _
    · exact absurd hl' (hlast m' h ht')

theorem dominantMood_last_in_list_witness :
    (⟨⟨1, 5⟩, some 4, some "Sad"⟩ : DayPoint) ∈ moodPoints utcDate modeExampleMessages ∧
      ((modeExampleMessages.filter isTaggedUser).map (fun msg => msg.timestamp)).Pairwise
        (· ≤ ·) ∧
      ∃ l₁ m l₂, modeExampleMessages = l₁ ++ m :: l₂ ∧ isTaggedUser m = true ∧
        messageLabel utcDate m = ⟨1, 5⟩ ∧
        (∀ m' ∈ l₂, isTaggedUser m' = true → messageLabel utcDate m' ≠ ⟨1, 5⟩) ∧
        some "Sad" = m.mood.map (fun tag => tag.mood) ∧
        (((modeExampleMessages.filter isTaggedUser).map (fun msg => msg.timestamp)).Pairwise
            (· ≤ ·) →
          ∀ m' ∈ modeExampleMessages, isTaggedUser m' = true →
            messageLabel utcDate m' = ⟨1, 5⟩ → m'.timestamp ≤ m.timestamp) :=
  ⟨by rw [modeExample_points]; simp, by decide,
    dominantMood_last_in_list utcDate modeExampleMessages ⟨⟨1, 5⟩, some 4, some "Sad"⟩
      (by rw [modeExample_points]; simp)⟩

/-- C8, evaluated at a failing input: a tagged user message of 2024-01-05 and
one of 2025-01-05 are filed under the same label, which has no year, and share
one daily point although they are on two calendar dates. -/
theorem moodPoints_merge_years :
    (yearApartMessages.filter isTaggedUser).map (fun msg => utcDate msg.timestamp) =
        [⟨2024, 1, 5⟩, ⟨2025, 1, 5⟩] ∧
      chartDates utcDate yearApartMessages = [⟨1, 5⟩] ∧
      (moodPoints utcDate yearApartMessages).length = 1 := by
  decide

/-- C9 as stated fails: for a history that is not in timestamp order the points
are not in ascending order of date. Here the point of 2024-03-01 comes before
the point of 2024-01-05. -/
theorem chartDates_not_ascending :
    chartDates utcDate reversedDaysMessages = [⟨3, 1⟩, ⟨1, 5⟩] ∧
      ¬ DatesAscending utcDate reversedDaysMessages := by
  unfold DatesAscending
  decide

/-- C9, amended: the daily points are in the order in which their date labels
first occur among the tagged user messages of the list; hence, when the tagged
user messages are in ascending order of calendar date and no two of them on
different calendar dates share a label, the points are in ascending order of
date. -/
theorem chartDates_order (localDate : Nat → CalendarDate) (messages : List Message) :
    (chartDates localDate messages).Pairwise
        (fun a b => firstFiled localDate messages a < firstFiled localDate messages b) ∧
      (((messages.filter isTaggedUser).map (fun msg => localDate msg.timestamp)).Pairwise
          CalendarDate.le →
        (∀ m ∈ messages, ∀ m' ∈ messages, isTaggedUser m = true → isTaggedUser m' = true →
          messageLabel localDate m = messageLabel localDate m' →
          localDate m.timestamp = localDate m'.timestamp) →
        DatesAscending localDate messages) := by
  have hord := groupByDate_order localDate messages
  rw [← chartDates_eq] at hord
  refine ⟨hord, ?_⟩
  intro hsorted hunique
  unfold DatesAscending
  refine List.Pairwise.imp_of_mem ?_ hord
  intro a b ha _ hab m hm m' hm' ht ht' hl hl'
  rw [List.pairwise_map, pairwise_filter_bool, List.pairwise_iff_getElem] at hsorted
  rw [chartDates_eq] at ha
  obtain ⟨_, _, hkey⟩ := groupByDate_spec localDate messages
  obtain ⟨x, hx, hxt, hxl⟩ := (moodsOn_ne_nil_iff _ _ _).mp ((hkey a).mp ha)
  have hia : firstFiled localDate messages a < messages.length := by
    unfold firstFiled
    exact List.findIdx_lt_length_of_exists ⟨x, hx, by simp [hxt, hxl]⟩
  have hm0 := List.findIdx_getElem (w := hia)
  simp only [Bool.and_eq_true, decide_eq_true_eq] at hm0
  obtain ⟨j, hj, hjm⟩ := List.getElem_of_mem hm'
  have hjb : firstFiled localDate messages b ≤ j := by
    by_contra hlt
    have := List.not_of_lt_findIdx (not_le.mp hlt)
    rw [List.getElem_eq_iff.mpr (List.getElem?_eq_getElem hj)] at this
    simp [hjm, ht', hl'] at this
  have hle := hsorted (firstFiled localDate messages a) j hia hj (by unfold firstFiled at *; omega)
    hm0.1 (hjm ▸ ht')
  rw [hjm] at hle
  have hsame : localDate m.timestamp =
      localDate (messages[firstFiled localDate messages a]).timestamp :=
    hunique m hm _ (List.getElem_mem _) ht hm0.1 (hl.trans hm0.2.symm)
  have hab' : a ≠ b := fun h => by rw [h] at hab; exact lt_irrefl _ hab
  rw [hsame]
  rcases hle with heq | hlt
  · have hlab : a = b := by
      rw [← hm0.2, ← hl']
      exact congrArg toLocaleDateString heq
    exact absurd hlab hab'
  · exact hlt

theorem chartDates_order_witness :
    ((specExampleMessages.filter isTaggedUser).map (fun msg => utcDate msg.timestamp)).Pairwise
        CalendarDate.le ∧
      chartDates utcDate specExampleMessages = [⟨1, 5⟩, ⟨1, 6⟩] ∧
      DatesAscending utcDate specExampleMessages :=
  ⟨by decide, by decide,
    (chartDates_order utcDate specExampleMessages).2 (by decide) (by decide)⟩

/-- C10: the aggregation uses only the tagged user messages: the daily points,
and the arrays `dates`, `moodData` and `colors`, computed from a list equal those
computed from the list with every bot message and every untagged message
removed, and those computed from its tagged user messages alone. -/
theorem moodPoints_filter (localDate : Nat → CalendarDate) (messages : List Message) :
    moodPoints localDate
        (messages.filter (fun msg => msg.sender != "bot" && msg.mood.isSome)) =
        moodPoints localDate messages ∧
      moodPoints localDate (messages.filter isTaggedUser) = moodPoints localDate messages ∧
      chartDates localDate (messages.filter isTaggedUser) = chartDates localDate messages ∧
      chartMoodData localDate (messages.filter isTaggedUser) =
        chartMoodData localDate messages ∧
      chartColors localDate (messages.filter isTaggedUser) = chartColors localDate messages := by
  have h1 : moodPoints localDate (messages.filter isTaggedUser) = moodPoints localDate messages := by
    unfold moodPoints groupByDate
    rw [groupStep_filter localDate isTaggedUser (fun _ h => h)]
  have h2 : moodPoints localDate
      (messages.filter (fun msg => msg.sender != "bot" && msg.mood.isSome)) =
      moodPoints localDate messages := by
    unfold moodPoints groupByDate
    rw [groupStep_filter localDate _ (fun m h => by
      obtain ⟨hu, tag, hm⟩ := (isTaggedUser_iff m).mp h
      simp [hu, hm])]
  refine ⟨h2, h1, ?_, ?_, ?_⟩
  · unfold chartDates
    rw [h1]
  · unfold chartMoodData
    rw [h1]
  · unfold chartColors
    rw [h1]

/-! ## Trend: auxiliary facts -/

theorem foldl_add_eq_sum (l : List ℚ) (s : ℚ) :
    l.foldl (fun a b => a + b) s = s + l.sum := by
  induction l generalizing s with
  | nil => simp
  | cons a rest ih => rw [List.foldl_cons, ih, List.sum_cons, add_assoc]

theorem slice_recent (data : List ℚ) : slice data (-3) none = recentPoints data := by
  unfold slice sliceIndex recentPoints lastN
  have hk : ((data.length : ℤ) + -3).toNat = data.length - 3 := by omega
  simp only [show ((-3 : ℤ) < 0) by norm_num, if_true, hk]
  apply List.take_of_length_le
  rw [List.length_drop]

theorem slice_earlier (data : List ℚ) :
    slice data (-6) (some (-3)) = earlierPoints data := by
  unfold slice sliceIndex earlierPoints lastN
  have hk : ((data.length : ℤ) + -6).toNat = data.length - 6 := by omega
  have hf : ((data.length : ℤ) + -3).toNat = data.length - 3 := by omega
  simp only [show ((-6 : ℤ) < 0) by norm_num, show ((-3 : ℤ) < 0) by norm_num, if_true, hk, hf]
  rw [List.length_take, List.drop_take]
  have h1 : min (data.length - 3) data.length - 3 = data.length - 6 := by omega
  rw [h1]

theorem recentPoints_length (data : List ℚ) :
    (recentPoints data).length = min 3 data.length := by
  unfold recentPoints lastN
  rw [List.length_drop]
  omega

theorem earlierPoints_length (data : List ℚ) :
    (earlierPoints data).length = min 3 (data.length - 3) := by
  unfold earlierPoints lastN
  rw [List.length_drop, List.length_take]
  omega

theorem getTrend_eq (data : List ℚ) :
    getTrend data =
      if data.length < 2 then trendBuilding
      else if data.length < 4 then trendTracking
      else if mean (recentPoints data) > mean (earlierPoints data) + 0.5 then trendImproving
      else if mean (recentPoints data) < mean (earlierPoints data) - 0.5 then trendDeclining
      else trendStable := by
  unfold getTrend
  simp only [slice_recent, slice_earlier, foldl_add_eq_sum, zero_add]
  by_cases h2 : data.length < 2
  · rw [if_pos h2, if_pos h2]
    rfl
  · rw [if_neg h2, if_neg h2]
    have hr := recentPoints_length data
    have he := earlierPoints_length data
    by_cases h4 : data.length < 4
    · have : (recentPoints data).length = 0 ∨ (earlierPoints data).length = 0 := by
        right
        omega
      rw [if_pos this, if_pos h4]
      rfl
    · have : ¬ ((recentPoints data).length = 0 ∨ (earlierPoints data).length = 0) := by
        omega
      rw [if_neg this, if_neg h4]
      rfl

theorem trend_strings_distinct :
    trendBuilding ≠ trendTracking ∧ trendBuilding ≠ trendImproving ∧
      trendBuilding ≠ trendDeclining ∧ trendBuilding ≠ trendStable ∧
      trendTracking ≠ trendImproving ∧ trendTracking ≠ trendDeclining ∧
      trendTracking ≠ trendStable ∧ trendImproving ≠ trendDeclining ∧
      trendImproving ≠ trendStable ∧ trendDeclining ≠ trendStable := by
  decide

theorem lastN_append {α : Type} (n : Nat) (p l : List α) (h : n ≤ l.length) :
    lastN n (p ++ l) = lastN n l := by
  unfold lastN
  rw [List.length_append]
  have : p.length + l.length - n = p.length + (l.length - n) := by omega
  rw [this, List.drop_append]

theorem recentPoints_append (p d : List ℚ) (h : 3 ≤ d.length) :
    recentPoints (p ++ d) = recentPoints d :=
  lastN_append 3 p d h

theorem earlierPoints_append (p d : List ℚ) (h : 6 ≤ d.length) :
    earlierPoints (p ++ d) = earlierPoints d := by
  unfold earlierPoints
  rw [List.length_append]
  have h1 : p.length + d.length - 3 = p.length + (d.length - 3) := by omega
  rw [h1, List.take_append]
  apply lastN_append
  rw [List.length_take]
  omega

/-! ## The mood lookups -/

/-- C11, evaluated at a failing input: the label `toString` is none of the five
mood labels, and `moodValues[mood] || 3` and `moodColors[mood] || '#a0aec0'`
give the member inherited from `Object.prototype`, not the default score 3 and
not the default colour. -/
theorem getMoodValue_inherited_key :
    "toString" ∉ moodLabels ∧
      getMoodValue "toString" = .inherited "toString" ∧
      getMoodValue "toString" ≠ .number 3 ∧
      getMoodColor "toString" = .inherited "toString" ∧
      getMoodColor "toString" ≠ .string "#a0aec0" := by
  decide

/-! ## The trend evaluator -/

/-- In exact arithmetic: for a list of at least 4 points, with `recent` the last 3
points and `earlier` the up to 3 points immediately before them, `getTrend` returns
Improving exactly when `mean recent > mean earlier + 0.5`, Declining exactly when
`mean recent < mean earlier - 0.5`, and Stable otherwise, so that a difference
of exactly 0.5 is Stable. -/
theorem getTrend_classification (data : List ℚ) (h : 4 ≤ data.length) :
    (∃ before, data = before ++ earlierPoints data ++ recentPoints data) ∧
      (recentPoints data).length = 3 ∧
      (earlierPoints data).length = min 3 (data.length - 3) ∧
      (getTrend data = trendImproving ↔
        mean (recentPoints data) > mean (earlierPoints data) + 0.5) ∧
      (getTrend data = trendDeclining ↔
        mean (recentPoints data) < mean (earlierPoints data) - 0.5) ∧
      (getTrend data = trendStable ↔
        mean (earlierPoints data) - 0.5 ≤ mean (recentPoints data) ∧
          mean (recentPoints data) ≤ mean (earlierPoints data) + 0.5) := by
  obtain ⟨_, _, _, _, _, _, _, hID, hIS, hDS⟩ := trend_strings_distinct
  have hsplit : ∃ before, data = before ++ earlierPoints data ++ recentPoints data := by
    refine ⟨(data.take (data.length - 3)).take ((data.take (data.length - 3)).length - 3), ?_⟩
    unfold earlierPoints recentPoints lastN
    rw [List.take_append_drop, List.take_append_drop]
  refine ⟨hsplit, by rw [recentPoints_length]; omega, earlierPoints_length data, ?_⟩
  rw [getTrend_eq, if_neg (by omega), if_neg (by omega)]
  by_cases hi : mean (recentPoints data) > mean (earlierPoints data) + 0.5
  · rw [if_pos hi]
    refine ⟨iff_of_true rfl hi, iff_of_false hID ?_, iff_of_false hIS ?_⟩
    · intro hd
      norm_num at hi hd
      linarith
    · intro hs
      exact absurd hs.2 (not_le.mpr hi)
  · rw [if_neg hi]
    by_cases hd : mean (recentPoints data) < mean (earlierPoints data) - 0.5
    · rw [if_pos hd]
      refine ⟨iff_of_false (Ne.symm hID) hi, iff_of_true rfl hd, iff_of_false hDS ?_⟩
      intro hs
      exact absurd hs.1 (not_le.mpr hd)
    · rw [if_neg hd]
      exact ⟨iff_of_false (Ne.symm hIS) hi, iff_of_false (Ne.symm hDS) hd,
        iff_of_true rfl ⟨not_lt.mp hd, not_lt.mp hi⟩⟩

theorem getTrend_classification_witness :
    getTrend [2, 2, 2, 4, 4, 4] = trendImproving ∧ getTrend [3, 3, 3, 3] = trendStable ∧
      getTrend [3, 3, 3, 7 / 2, 7 / 2, 7 / 2] = trendStable :=
  ⟨(getTrend_classification [2, 2, 2, 4, 4, 4] (by decide)).2.2.2.1.mpr
      (by norm_num [mean, recentPoints, earlierPoints, lastN]),
    (getTrend_classification [3, 3, 3, 3] (by decide)).2.2.2.2.2.mpr
      (by norm_num [mean, recentPoints, earlierPoints, lastN]),
    (getTrend_classification [3, 3, 3, 7 / 2, 7 / 2, 7 / 2] (by decide)).2.2.2.2.2.mpr
      (by norm_num [mean, recentPoints, earlierPoints, lastN])⟩

/-- C13: `getTrend` returns Building exactly for 0 or 1 points and Tracking
exactly for 2 or 3 points, where the earlier slice is empty; for 4 or more
points it returns one of Improving, Declining, Stable; and the recent slice is
not empty once the list has 2 or more points. -/
theorem getTrend_sentinel (data : List ℚ) :
    (getTrend data = trendBuilding ↔ data.length < 2) ∧
      (getTrend data = trendTracking ↔ 2 ≤ data.length ∧ data.length < 4) ∧
      ((getTrend data = trendBuilding ∨ getTrend data = trendTracking) ↔ data.length < 4) ∧
      (4 ≤ data.length →
        getTrend data = trendImproving ∨ getTrend data = trendDeclining ∨
          getTrend data = trendStable) ∧
      (2 ≤ data.length → slice data (-3) none ≠ []) ∧
      (data.length < 4 → slice data (-6) (some (-3)) = []) := by
  obtain ⟨hBT, hBI, hBD, hBS, hTI, hTD, hTS, _, _, _⟩ := trend_strings_distinct
  have hrecent : 2 ≤ data.length → slice data (-3) none ≠ [] := by
    intro h hnil
    have := recentPoints_length data
    rw [← slice_recent, hnil] at this
    simp at this
    omega
  have hearlier : data.length < 4 → slice data (-6) (some (-3)) = [] := by
    intro h
    have := earlierPoints_length data
    rw [← slice_earlier] at this
    apply List.eq_nil_of_length_eq_zero
    omega
  have hthree : 4 ≤ data.length →
      getTrend data = trendImproving ∨ getTrend data = trendDeclining ∨
        getTrend data = trendStable := by
    intro h
    rw [getTrend_eq, if_neg (by omega), if_neg (by omega)]
    split_ifs
    · exact Or.inl rfl
    · exact Or.inr (Or.inl rfl)
    · exact Or.inr (Or.inr rfl)
  by_cases h2 : data.length < 2
  · have hval : getTrend data = trendBuilding := by rw [getTrend_eq, if_pos h2]
    refine ⟨iff_of_true hval h2, ?_, iff_of_true (Or.inl hval) (by omega), hthree, hrecent,
      hearlier⟩
    rw [hval]
    exact iff_of_false hBT (by omega)
  · by_cases h4 : data.length < 4
    · have hval : getTrend data = trendTracking := by
        rw [getTrend_eq, if_neg h2, if_pos h4]
      refine ⟨?_, iff_of_true hval ⟨by omega, h4⟩, iff_of_true (Or.inr hval) h4, hthree,
        hrecent, hearlier⟩
      rw [hval]
      exact iff_of_false (Ne.symm hBT) h2
    · rcases hthree (by omega) with hv | hv | hv
      · rw [hv]
        exact ⟨iff_of_false (Ne.symm hBI) h2, iff_of_false (Ne.symm hTI) (by omega),
          iff_of_false (by rintro (h | h); exact hBI h.symm; exact hTI h.symm) h4,
          fun _ => Or.inl rfl, hrecent, hearlier⟩
      · rw [hv]
        exact ⟨iff_of_false (Ne.symm hBD) h2, iff_of_false (Ne.symm hTD) (by omega),
          iff_of_false (by rintro (h | h); exact hBD h.symm; exact hTD h.symm) h4,
          fun _ => Or.inr (Or.inl rfl), hrecent, hearlier⟩
      · rw [hv]
        exact ⟨iff_of_false (Ne.symm hBS) h2, iff_of_false (Ne.symm hTS) (by omega),
          iff_of_false (by rintro (h | h); exact hBS h.symm; exact hTS h.symm) h4,
          fun _ => Or.inr (Or.inr rfl), hrecent, hearlier⟩

/-- C14: `getTrend` depends only on the last 6 points: putting any list in
front of a list of at least 6 points does not change the result. -/
theorem getTrend_append (p d : List ℚ) (h : 6 ≤ d.length) :
    getTrend (p ++ d) = getTrend d := by
  have h1 : ¬ p.length + d.length < 2 := by omega
  have h2 : ¬ p.length + d.length < 4 := by omega
  have h3 : ¬ d.length < 2 := by omega
  have h4 : ¬ d.length < 4 := by omega
  rw [getTrend_eq, getTrend_eq, recentPoints_append p d (by omega),
    earlierPoints_append p d h, List.length_append, if_neg h1, if_neg h2, if_neg h3, if_neg h4]

theorem getTrend_append_witness :
    getTrend ([1, 5, 1] ++ [2, 2, 2, 4, 4, 4]) = getTrend [2, 2, 2, 4, 4, 4] :=
  getTrend_append [1, 5, 1] [2, 2, 2, 4, 4, 4] (by decide)

/-! ## Advice: auxiliary facts -/

theorem splitFirst_trends :
    splitFirst trendImproving = "\uF8FFüìà" ∧ splitFirst trendDeclining = "\uF8FFüìâ" ∧
      splitFirst trendStable ≠ "\uF8FFüìà" ∧ splitFirst trendStable ≠ "\uF8FFüìâ" ∧
      splitFirst trendBuilding ≠ "\uF8FFüìà" ∧ splitFirst trendBuilding ≠ "\uF8FFüìâ" ∧
      splitFirst trendTracking ≠ "\uF8FFüìà" ∧ splitFirst trendTracking ≠ "\uF8FFüìâ" ∧
      splitFirst trendDeclining ≠ "\uF8FFüìà" := by
  decide

/-- The branch `getMoodAdvice` takes, with the condition under which it takes it. -/
theorem getMoodAdvice_cases (avgMood : ℚ) (trend : String) :
    (avgMood < 1.5 ∧ getMoodAdvice avgMood trend = criticalAdvice) ∨
      (1.5 ≤ avgMood ∧ avgMood < 2.5 ∧ splitFirst trend = "\uF8FFüìà" ∧
        getMoodAdvice avgMood trend = lowImprovingAdvice) ∨
      (2.5 ≤ avgMood ∧ avgMood < 3.5 ∧ splitFirst trend = "\uF8FFüìà" ∧
        getMoodAdvice avgMood trend = moderateImprovingAdvice) ∨
      (1.5 ≤ avgMood ∧ avgMood < 3.5 ∧ splitFirst trend ≠ "\uF8FFüìà" ∧
        splitFirst trend = "\uF8FFüìâ" ∧ getMoodAdvice avgMood trend = supportAdvice) ∨
      (1.5 ≤ avgMood ∧ avgMood < 3.5 ∧ splitFirst trend ≠ "\uF8FFüìà" ∧
        splitFirst trend ≠ "\uF8FFüìâ" ∧ getMoodAdvice avgMood trend = maintainAdvice) ∨
      (3.5 ≤ avgMood ∧ avgMood < 4.5 ∧ getMoodAdvice avgMood trend = thrivingAdvice) ∨
      (4.5 ≤ avgMood ∧ getMoodAdvice avgMood trend = excellentAdvice) := by
  unfold getMoodAdvice
  simp only
  by_cases h1 : avgMood < 1.5
  · exact Or.inl ⟨h1, by rw [if_pos h1]⟩
  rw [if_neg h1]
  have h1' : (1.5 : ℚ) ≤ avgMood := not_lt.mp h1
  by_cases hup : splitFirst trend = "\uF8FFüìà"
  · by_cases h2 : avgMood < 2.5
    · exact Or.inr (Or.inl ⟨h1', h2, hup, by rw [if_pos ⟨h2, hup⟩]⟩)
    · rw [if_neg (fun h => h2 h.1)]
      by_cases h3 : avgMood < 3.5
      · exact Or.inr (Or.inr (Or.inl ⟨not_lt.mp h2, h3, hup, by rw [if_pos h3, if_pos hup]⟩))
      · rw [if_neg h3]
        by_cases h4 : avgMood < 4.5
        · exact Or.inr (Or.inr (Or.inr (Or.inr (Or.inr (Or.inl
            ⟨not_lt.mp h3, h4, by rw [if_pos h4]⟩)))))
        · exact Or.inr (Or.inr (Or.inr (Or.inr (Or.inr (Or.inr
            ⟨not_lt.mp h4, by rw [if_neg h4]⟩)))))
  · rw [if_neg (fun h => hup h.2)]
    by_cases h3 : avgMood < 3.5
    · rw [if_pos h3, if_neg hup]
      by_cases hdown : splitFirst trend = "\uF8FFüìâ"
      · exact Or.inr (Or.inr (Or.inr (Or.inl ⟨h1', h3, hup, hdown, by rw [if_pos hdown]⟩)))
      · exact Or.inr (Or.inr (Or.inr (Or.inr (Or.inl
          ⟨h1', h3, hup, hdown, by rw [if_neg hdown]⟩))))
    · rw [if_neg h3]
      by_cases h4 : avgMood < 4.5
      · exact Or.inr (Or.inr (Or.inr (Or.inr (Or.inr (Or.inl
          ⟨not_lt.mp h3, h4, by rw [if_pos h4]⟩)))))
      · exact Or.inr (Or.inr (Or.inr (Or.inr (Or.inr (Or.inr
          ⟨not_lt.mp h4, by rw [if_neg h4]⟩)))))

theorem getMoodAdvice_critical (avgMood : ℚ) (trend : String) (h : avgMood < 1.5) :
    getMoodAdvice avgMood trend = criticalAdvice := by
  rcases getMoodAdvice_cases avgMood trend with
    c | c | c | c | c | c | c
  · exact c.2
  all_goals (exfalso; obtain ⟨c1, _⟩ := c; norm_num at h c1; linarith)

theorem getMoodAdvice_thriving (avgMood : ℚ) (trend : String) (h1 : 3.5 ≤ avgMood)
    (h2 : avgMood < 4.5) : getMoodAdvice avgMood trend = thrivingAdvice := by
  rcases getMoodAdvice_cases avgMood trend with
    c | ⟨_, c, _⟩ | ⟨_, c, _⟩ | ⟨_, c, _⟩ | ⟨_, c, _⟩ | c | c
  · exfalso; obtain ⟨c, _⟩ := c; norm_num at h1 c; linarith
  · exfalso; norm_num at h1 c; linarith
  · exfalso; norm_num at h1 c; linarith
  · exfalso; norm_num at h1 c; linarith
  · exfalso; norm_num at h1 c; linarith
  · exact c.2.2
  · exfalso; obtain ⟨c, _⟩ := c; norm_num at h2 c; linarith

theorem getMoodAdvice_excellent (avgMood : ℚ) (trend : String) (h : 4.5 ≤ avgMood) :
    getMoodAdvice avgMood trend = excellentAdvice := by
  rcases getMoodAdvice_cases avgMood trend with
    c | ⟨_, c, _⟩ | ⟨_, c, _⟩ | ⟨_, c, _⟩ | ⟨_, c, _⟩ | ⟨_, c, _⟩ | c
  · exfalso; obtain ⟨c, _⟩ := c; norm_num at h c; linarith
  · exfalso; norm_num at h c; linarith
  · exfalso; norm_num at h c; linarith
  · exfalso; norm_num at h c; linarith
  · exfalso; norm_num at h c; linarith
  · exfalso; norm_num at h c; linarith
  · exact c.2

theorem getMoodAdvice_mid (avgMood : ℚ) (trend : String) (h1 : 1.5 ≤ avgMood)
    (h2 : avgMood < 3.5) :
    getMoodAdvice avgMood trend =
      if splitFirst trend = "\uF8FFüìà" then
        (if avgMood < 2.5 then lowImprovingAdvice else moderateImprovingAdvice)
      else if splitFirst trend = "\uF8FFüìâ" then supportAdvice
      else maintainAdvice := by
  rcases getMoodAdvice_cases avgMood trend with
    c | ⟨_, c2, cu, c⟩ | ⟨c1, _, cu, c⟩ | ⟨_, _, cu, cd, c⟩ | ⟨_, _, cu, cd, c⟩ | c | c
  · exfalso; obtain ⟨c, _⟩ := c; norm_num at h1 c; linarith
  · rw [c, if_pos cu, if_pos c2]
  · rw [c, if_pos cu, if_neg (not_lt.mpr c1)]
  · rw [c, if_neg cu, if_pos cd]
  · rw [c, if_neg cu, if_neg cd]
  · exfalso; obtain ⟨c, _⟩ := c; norm_num at h2 c; linarith
  · exfalso; obtain ⟨c, _⟩ := c; norm_num at h2 c; linarith

/-! ## The advice -/

/-- C15: for every trend string `getMoodAdvice` returns tier critical when
`avgMood < 1.5`, thriving when `3.5 ≤ avgMood < 4.5` and excellent when
`avgMood ≥ 4.5`; outside the range from 1.5 to 3.5 the whole payload does not
depend on the trend. -/
theorem getMoodAdvice_outer_tiers (avgMood : ℚ) (trend : String) :
    (avgMood < 1.5 → (getMoodAdvice avgMood trend).type = "critical") ∧
      (3.5 ≤ avgMood → avgMood < 4.5 → (getMoodAdvice avgMood trend).type = "thriving") ∧
      (4.5 ≤ avgMood → (getMoodAdvice avgMood trend).type = "excellent") ∧
      (avgMood < 1.5 ∨ 3.5 ≤ avgMood →
        ∀ other : String, getMoodAdvice avgMood other = getMoodAdvice avgMood trend) := by
  refine ⟨?_, ?_, ?_, ?_⟩
  · intro h
    rw [getMoodAdvice_critical avgMood trend h]
    rfl
  · intro h1 h2
    rw [getMoodAdvice_thriving avgMood trend h1 h2]
    rfl
  · intro h
    rw [getMoodAdvice_excellent avgMood trend h]
    rfl
  · intro h other
    rcases h with h | h
    · rw [getMoodAdvice_critical avgMood trend h, getMoodAdvice_critical avgMood other h]
    · by_cases h4 : avgMood < 4.5
      · rw [getMoodAdvice_thriving avgMood trend h h4,
          getMoodAdvice_thriving avgMood other h h4]
      · rw [getMoodAdvice_excellent avgMood trend (not_lt.mp h4),
          getMoodAdvice_excellent avgMood other (not_lt.mp h4)]

theorem getMoodAdvice_outer_tiers_witness :
    (getMoodAdvice 1 trendDeclining).type = "critical" ∧
      ∀ other : String, getMoodAdvice 1 other = getMoodAdvice 1 trendDeclining :=
  ⟨(getMoodAdvice_outer_tiers 1 trendDeclining).1 (by norm_num),
    (getMoodAdvice_outer_tiers 1 trendDeclining).2.2.2 (Or.inl (by norm_num))⟩

/-- C16: for `2.5 ≤ avgMood < 3.5`, `getMoodAdvice` returns the
moderate-improving payload, of tier improving, when the trend is Improving, tier
support when the trend is Declining, and tier maintain for every other trend
string, among them Stable, Building and Tracking. -/
theorem getMoodAdvice_moderate (avgMood : ℚ) (h1 : 2.5 ≤ avgMood) (h2 : avgMood < 3.5) :
    getMoodAdvice avgMood trendImproving = moderateImprovingAdvice ∧
      moderateImprovingAdvice.type = "improving" ∧
      (getMoodAdvice avgMood trendDeclining).type = "support" ∧
      (∀ trend : String, splitFirst trend ≠ splitFirst trendImproving →
        splitFirst trend ≠ splitFirst trendDeclining →
        (getMoodAdvice avgMood trend).type = "maintain") ∧
      (getMoodAdvice avgMood trendStable).type = "maintain" ∧
      (getMoodAdvice avgMood trendBuilding).type = "maintain" ∧
      (getMoodAdvice avgMood trendTracking).type = "maintain" := by
  obtain ⟨hI, hD, hS1, hS2, hB1, hB2, hT1, hT2, hD1⟩ := splitFirst_trends
  have h15 : (1.5 : ℚ) ≤ avgMood := by norm_num at h1 ⊢; linarith
  have hmaintain : ∀ trend : String, splitFirst trend ≠ "\uF8FFüìà" →
      splitFirst trend ≠ "\uF8FFüìâ" → (getMoodAdvice avgMood trend).type = "maintain" := by
    intro trend hu hd
    rw [getMoodAdvice_mid avgMood trend h15 h2, if_neg hu, if_neg hd]
    rfl
  refine ⟨?_, rfl, ?_, ?_, hmaintain _ hS1 hS2, hmaintain _ hB1 hB2, hmaintain _ hT1 hT2⟩
  · rw [getMoodAdvice_mid avgMood _ h15 h2, if_pos hI, if_neg (not_lt.mpr h1)]
  · rw [getMoodAdvice_mid avgMood _ h15 h2, if_neg hD1, if_pos hD]
    rfl
  · intro trend hu hd
    rw [hI] at hu
    rw [hD] at hd
    exact hmaintain trend hu hd

theorem getMoodAdvice_moderate_witness :
    getMoodAdvice 3 trendImproving = moderateImprovingAdvice ∧
      (getMoodAdvice 3 trendDeclining).type = "support" ∧
      (getMoodAdvice 3 trendStable).type = "maintain" :=
  have h := getMoodAdvice_moderate 3 (by norm_num) (by norm_num)
  ⟨h.1, h.2.2.1, h.2.2.2.2.1⟩

/-- C17, evaluated at failing inputs: for an average of 2 and the trends Stable,
Building and Tracking, `getMoodAdvice` falls through the block `avgMood < 2.5`
and returns tier maintain, not tier support. -/
theorem getMoodAdvice_low_not_support :
    (1.5 : ℚ) ≤ 2 ∧ (2 : ℚ) < 2.5 ∧
      getMoodAdvice 2 trendStable = maintainAdvice ∧
      getMoodAdvice 2 trendBuilding = maintainAdvice ∧
      getMoodAdvice 2 trendTracking = maintainAdvice ∧
      maintainAdvice.type = "maintain" ∧ maintainAdvice.type ≠ "support" := by
  obtain ⟨_, _, hS1, hS2, hB1, hB2, hT1, hT2, _⟩ := splitFirst_trends
  refine ⟨by norm_num, by norm_num, ?_, ?_, ?_, rfl, by decide⟩
  · rw [getMoodAdvice_mid 2 _ (by norm_num) (by norm_num), if_neg hS1, if_neg hS2]
  · rw [getMoodAdvice_mid 2 _ (by norm_num) (by norm_num), if_neg hB1, if_neg hB2]
  · rw [getMoodAdvice_mid 2 _ (by norm_num) (by norm_num), if_neg hT1, if_neg hT2]

/-- C18 as stated fails: the averages 2 and 3 with the trend Improving get the
same tier, improving, and different messages, suggestions and encouragements. -/
theorem getMoodAdvice_improving_two_payloads :
    (getMoodAdvice 2 trendImproving).type = (getMoodAdvice 3 trendImproving).type ∧
      (getMoodAdvice 2 trendImproving).message ≠ (getMoodAdvice 3 trendImproving).message ∧
      (getMoodAdvice 2 trendImproving).suggestions ≠
        (getMoodAdvice 3 trendImproving).suggestions ∧
      (getMoodAdvice 2 trendImproving).encouragement ≠
        (getMoodAdvice 3 trendImproving).encouragement := by
  obtain ⟨hI, _⟩ := splitFirst_trends
  have e2 : getMoodAdvice 2 trendImproving = lowImprovingAdvice := by
    rw [getMoodAdvice_mid 2 _ (by norm_num) (by norm_num), if_pos hI, if_pos (by norm_num)]
  have e3 : getMoodAdvice 3 trendImproving = moderateImprovingAdvice := by
    rw [getMoodAdvice_mid 3 _ (by norm_num) (by norm_num), if_pos hI, if_neg (by norm_num)]
  rw [e2, e3]
  decide

/-- C18, amended: the payload is determined by the tier, except that the tier
improving has two payloads, one for `avgMood < 2.5` and one for
`2.5 ≤ avgMood`: two inputs that get the same tier and, when that tier is
improving, lie on the same side of 2.5, get the same message, suggestions and
encouragement. -/
theorem getMoodAdvice_payload_of_tier (avgMood₁ avgMood₂ : ℚ) (trend₁ trend₂ : String)
    (htype : (getMoodAdvice avgMood₁ trend₁).type = (getMoodAdvice avgMood₂ trend₂).type)
    (hside : (getMoodAdvice avgMood₁ trend₁).type = "improving" →
      (avgMood₁ < 2.5 ↔ avgMood₂ < 2.5)) :
    getMoodAdvice avgMood₁ trend₁ = getMoodAdvice avgMood₂ trend₂ := by
  rcases getMoodAdvice_cases avgMood₁ trend₁ with
    ⟨_, c⟩ | ⟨_, a2, _, c⟩ | ⟨a1, _, _, c⟩ | ⟨_, _, _, _, c⟩ | ⟨_, _, _, _, c⟩ | ⟨_, _, c⟩ |
      ⟨_, c⟩ <;>
  rcases getMoodAdvice_cases avgMood₂ trend₂ with
    ⟨_, d⟩ | ⟨_, b2, _, d⟩ | ⟨b1, _, _, d⟩ | ⟨_, _, _, _, d⟩ | ⟨_, _, _, _, d⟩ | ⟨_, _, d⟩ |
      ⟨_, d⟩ <;>
  (rw [c] at htype hside; rw [d] at htype; rw [c, d]) <;>
  first
    | rfl
    | exact absurd htype (by decide)
    | exact absurd ((hside rfl).mp a2) (not_lt.mpr b1)
    | exact absurd ((hside rfl).mpr b2) (not_lt.mpr a1)

theorem getMoodAdvice_payload_of_tier_witness :
    getMoodAdvice 2 trendDeclining = getMoodAdvice 3 trendDeclining :=
  getMoodAdvice_payload_of_tier 2 3 trendDeclining trendDeclining
    (by
      obtain ⟨_, hD, _, _, _, _, _, _, hD1⟩ := splitFirst_trends
      rw [getMoodAdvice_mid 2 _ (by norm_num) (by norm_num), if_neg hD1, if_pos hD,
        getMoodAdvice_mid 3 _ (by norm_num) (by norm_num), if_neg hD1, if_pos hD])
    (by
      obtain ⟨_, hD, _, _, _, _, _, _, hD1⟩ := splitFirst_trends
      rw [getMoodAdvice_mid 2 _ (by norm_num) (by norm_num), if_neg hD1, if_pos hD]
      decide)

/-- C19: `getMoodAdvice` returns, for every average and every trend string, a
payload whose type is one of critical, support, improving, maintain, thriving,
excellent, with a message, a non-empty list of suggestions and an
encouragement. -/
theorem getMoodAdvice_total (avgMood : ℚ) (trend : String) :
    (getMoodAdvice avgMood trend).type ∈ adviceTiers ∧
      (getMoodAdvice avgMood trend).message ≠ "" ∧
      (getMoodAdvice avgMood trend).suggestions ≠ [] ∧
      (getMoodAdvice avgMood trend).encouragement ≠ "" := by
  rcases getMoodAdvice_cases avgMood trend with
    ⟨_, c⟩ | ⟨_, _, _, c⟩ | ⟨_, _, _, c⟩ | ⟨_, _, _, _, c⟩ | ⟨_, _, _, _, c⟩ | ⟨_, _, c⟩ |
      ⟨_, c⟩ <;>
  rw [c] <;> decide

/-! ## Empty input -/

theorem not_infix_of_blank (k s : List Char) (hs : s.all Char.isWhitespace = true)
    (hk : ∃ c ∈ k, c.isWhitespace = false) : ¬ k <:+: s := by
  intro hin
  obtain ⟨c, hc, hw⟩ := hk
  have hcs : c ∈ s := hin.subset hc
  rw [List.all_eq_true] at hs
  rw [hs c hcs] at hw
  exact absurd hw (by decide)

theorem keywords_not_blank :
    (∀ p ∈ crisisPhrases, ∃ c ∈ p.data, c.isWhitespace = false) ∧
      (∀ p ∈ greetingPrefixes, ∃ c ∈ p.data, c.isWhitespace = false) ∧
      ∀ b ∈ topicBuckets, ∀ k ∈ b.2, ∃ c ∈ k.data, c.isWhitespace = false := by
  decide

theorem selectedCategory_blank (s : String) (hs : isBlank s = true) :
    selectedCategory s = .default := by
  obtain ⟨hc, hg, hb⟩ := keywords_not_blank
  unfold isBlank at hs
  rw [selectedCategory_eq_firstBucket s
    (fun ⟨p, hp, h⟩ => not_infix_of_blank _ _ hs (hc p hp) h)
    (fun ⟨p, hp, h⟩ => not_infix_of_blank _ _ hs (hg p hp) h.isInfix),
    firstBucket_default_iff]
  intro b hbm k hk
  exact not_infix_of_blank _ _ hs (hb b hbm k hk)

/-- C20 as stated fails: invoked with the empty string, or with a string of
spaces, `getAIResponse` returns a response, the first default template when the
random value is 0. -/
theorem getAIResponse_empty_returns_response :
    getAIResponse asciiLower 0 "" =
        some ("Thank you for sharing that with me. I'm here to support you. " ++
          "Can you tell me more about what you're experiencing?") ∧
      getAIResponse asciiLower 0 "   " =
        some ("Thank you for sharing that with me. I'm here to support you. " ++
          "Can you tell me more about what you're experiencing?") := by
  constructor
  · rw [getAIResponse_eq, selectedCategory_blank _ (by decide)]
    exact getRandomResponse_zero _ _
  · rw [getAIResponse_eq, selectedCategory_blank _ (by decide)]
    exact getRandomResponse_zero _ _

/-- C20, amended: `getAIResponse` has no rule for empty input: invoked with a
message whose lower-cased text is empty or blank, it returns one of the default
templates. -/
theorem getAIResponse_blank (toLowerCase : String → String) (random : ℚ)
    (userMessage : String) (h0 : 0 ≤ random) (h1 : random < 1)
    (hblank : isBlank (toLowerCase userMessage) = true) :
    ∃ t ∈ responses .default, getAIResponse toLowerCase random userMessage = some t := by
  rw [getAIResponse_eq, selectedCategory_blank _ hblank]
  exact getRandomResponse_mem random _ h0 h1 (responses_ne_nil _)

theorem getAIResponse_blank_witness :
    isBlank (asciiLower "") = true ∧ isBlank (asciiLower " \t\n") = true ∧
      (∃ t ∈ responses .default, getAIResponse asciiLower (1 / 2) "" = some t) ∧
      ∃ t ∈ responses .default, getAIResponse asciiLower (1 / 2) " \t\n" = some t :=
  ⟨by decide, by decide,
    getAIResponse_blank asciiLower (1 / 2) "" (by norm_num) (by norm_num) (by decide),
    getAIResponse_blank asciiLower (1 / 2) " \t\n" (by norm_num) (by norm_num) (by decide)⟩

/-! ## Letter case: auxiliary facts -/

theorem toLower_toLower (c : Char) : c.toLower.toLower = c.toLower := by
  by_cases h : c.toNat ≥ 65 ∧ c.toNat ≤ 90
  · obtain ⟨n, hn⟩ : ∃ n, c.toNat = n := ⟨_, rfl⟩
    have hc : c = Char.ofNat n := by rw [← hn, Char.ofNat_toNat]
    rw [hn] at h
    subst hc
    obtain ⟨h1, h2⟩ := h
    interval_cases n <;> decide
  · have : c.toLower = c := by
      unfold Char.toLower
      simp only [h, if_false]
    rw [this, this]

theorem toLower_toUpper (c : Char) : c.toUpper.toLower = c.toLower := by
  by_cases h : c.toNat ≥ 97 ∧ c.toNat ≤ 122
  · obtain ⟨n, hn⟩ : ∃ n, c.toNat = n := ⟨_, rfl⟩
    have hc : c = Char.ofNat n := by rw [← hn, Char.ofNat_toNat]
    rw [hn] at h
    subst hc
    obtain ⟨h1, h2⟩ := h
    interval_cases n <;> decide
  · have : c.toUpper = c := by
      unfold Char.toUpper
      simp only [h, if_false]
    rw [this]

theorem asciiLower_asciiLower (s : String) : asciiLower (asciiLower s) = asciiLower s := by
  unfold asciiLower
  simp only [List.map_map]
  congr 1
  apply List.map_congr_left
  intro c _
  exact toLower_toLower c

theorem asciiLower_asciiUpper (s : String) : asciiLower (asciiUpper s) = asciiLower s := by
  unfold asciiLower asciiUpper
  simp only [List.map_map]
  congr 1
  apply List.map_congr_left
  intro c _
  exact toLower_toUpper c

/-! ## Case and selection -/

/-- C21: the category chosen by `getAIResponse` is case-insensitive over the
ASCII letters: a message, its lower-cased form and its upper-cased form get the
same category and, for the same draw, the same response, because every rule is
tested on the lower-cased text. -/
theorem selectedCategory_case_insensitive (m : String) (random : ℚ) :
    selectedCategory (asciiLower (asciiLower m)) = selectedCategory (asciiLower m) ∧
      selectedCategory (asciiLower (asciiUpper m)) = selectedCategory (asciiLower m) ∧
      getAIResponse asciiLower random (asciiLower m) = getAIResponse asciiLower random m ∧
      getAIResponse asciiLower random (asciiUpper m) = getAIResponse asciiLower random m ∧
      ∀ (toLowerCase : String → String) (other : String),
        toLowerCase other = toLowerCase m →
        getAIResponse toLowerCase random other = getAIResponse toLowerCase random m := by
  refine ⟨by rw [asciiLower_asciiLower], by rw [asciiLower_asciiUpper], ?_, ?_, ?_⟩
  · rw [getAIResponse_eq, getAIResponse_eq, asciiLower_asciiLower]
  · rw [getAIResponse_eq, getAIResponse_eq, asciiLower_asciiUpper]
  · intro toLowerCase other h
    rw [getAIResponse_eq, getAIResponse_eq, h]

/-- In exact arithmetic: for a list of length `n ≥ 1`, a draw in `[0, 1)` and an
index `i < n`,
the index `floor(random * n)` is `i` exactly when `i / n ≤ random < (i + 1) / n`,
an interval of length `1 / n`; in that interval `getRandomResponse` returns the
element at index `i`, and for a list without repetition only there. -/
theorem getRandomResponse_uniform (random : ℚ) (templates : List String) (i : Nat)
    (h0 : 0 ≤ random) (h1 : random < 1) (hi : i < templates.length) :
    (⌊random * (templates.length : ℚ)⌋ = (i : ℤ) ↔
        (i : ℚ) / (templates.length : ℚ) ≤ random ∧
          random < ((i : ℚ) + 1) / (templates.length : ℚ)) ∧
      ((i : ℚ) / (templates.length : ℚ) ≤ random ∧
          random < ((i : ℚ) + 1) / (templates.length : ℚ) →
        getRandomResponse random templates = some templates[i]) ∧
      (templates.Nodup →
        (getRandomResponse random templates = some templates[i] ↔
          (i : ℚ) / (templates.length : ℚ) ≤ random ∧
            random < ((i : ℚ) + 1) / (templates.length : ℚ))) ∧
      ((i : ℚ) + 1) / (templates.length : ℚ) - (i : ℚ) / (templates.length : ℚ) =
        1 / (templates.length : ℚ) := by
  have hn : (0 : ℚ) < (templates.length : ℚ) := by
    exact_mod_cast Nat.lt_of_le_of_lt (Nat.zero_le i) hi
  have hfloor : ⌊random * (templates.length : ℚ)⌋ = (i : ℤ) ↔
      (i : ℚ) / (templates.length : ℚ) ≤ random ∧
        random < ((i : ℚ) + 1) / (templates.length : ℚ) := by
    rw [Int.floor_eq_iff, div_le_iff₀ hn, lt_div_iff₀ hn]
    simp
  obtain ⟨hnn, hlt⟩ := floor_index_bounds random templates.length h0 h1
    (Nat.lt_of_le_of_lt (Nat.zero_le i) hi)
  have hget : getRandomResponse random templates =
      templates[(⌊random * (templates.length : ℚ)⌋).toNat]? := by
    unfold getRandomResponse
    simp only [not_lt.mpr hnn, if_false]
  have hin : (i : ℚ) / (templates.length : ℚ) ≤ random ∧
      random < ((i : ℚ) + 1) / (templates.length : ℚ) →
      getRandomResponse random templates = some templates[i] := by
    intro h
    rw [hget, hfloor.mpr h, Int.toNat_ofNat]
    exact List.getElem?_eq_getElem hi
  refine ⟨hfloor, hin, ?_, ?_⟩
  · intro hnd
    refine ⟨?_, hin⟩
    intro h
    rw [hget, List.getElem?_eq_getElem hlt, Option.some.injEq, hnd.getElem_inj_iff] at h
    rw [hfloor.symm]
    omega
  · field_simp

theorem getRandomResponse_uniform_witness :
    getRandomResponse (1 / 2) ["a", "b", "c"] = some "b" :=
  (getRandomResponse_uniform (1 / 2) ["a", "b", "c"] 1 (by norm_num) (by norm_num)
    (by decide)).2.1 (by norm_num)

/-! ## Sessions -/

/-- C23: after `addSession` the list is the new session followed by the first
`min (length s) 9` entries of the prior list `s` in their order, and has length
`min (length s + 1) 10`; starting from the empty list, no sequence of calls
makes the list longer than 10. -/
theorem addSession_spec (now : Nat) (currentMood : Option MoodTag) (sessions : List Session)
    (messagePreview : String) :
    (∃ session : Session, session.timestamp = now ∧
        session.mood = (currentMood.map (fun tag => tag.mood)).getD "Not specified" ∧
        addSession now currentMood sessions messagePreview =
          session :: sessions.take (min sessions.length 9)) ∧
      (addSession now currentMood sessions messagePreview).length =
        min (sessions.length + 1) 10 ∧
      ∀ requests : List SessionRequest, (addSessions [] requests).length ≤ 10 := by
  have hshape : ∀ (x : Session) (s : List Session),
      slice (x :: s) 0 (some 10) = x :: s.take (min s.length 9) := by
    intro x s
    unfold slice sliceIndex
    have e0 : ¬ ((0 : ℤ) < 0) := by norm_num
    have e10 : ¬ ((10 : ℤ) < 0) := by norm_num
    simp only [e0, e10, if_false, List.length_cons]
    have a : min (Int.toNat 0) (s.length + 1) = 0 := by simp
    have b : min (Int.toNat 10) (s.length + 1) = min s.length 9 + 1 := by
      have : Int.toNat 10 = 10 := rfl
      omega
    rw [a, b, List.drop_zero, Nat.sub_zero, List.take_succ_cons]
  have hlen : ∀ (n : Nat) (m : Option MoodTag) (s : List Session) (p : String),
      (addSession n m s p).length = min (s.length + 1) 10 := by
    intro n m s p
    unfold addSession
    simp only [hshape, List.length_cons, List.length_take]
    omega
  refine ⟨?_, hlen _ _ _ _, ?_⟩
  · unfold addSession
    refine ⟨_, ?_, ?_, hshape _ _⟩
    · rfl
    · cases currentMood <;> rfl
  · intro requests
    unfold addSessions
    induction requests using List.reverseRecOn with
    | nil => simp
    | append_singleton rs r _ =>
      rw [List.foldl_append, List.foldl_cons, List.foldl_nil, hlen]
      omega

/-! ## Authentication -/

/-- C24: `authenticateToken` calls `next` exactly when the header yields a
non-empty token (its second space-separated field) and the token passes
verification; it answers 401 `Access token required` exactly when the header is
absent or yields no token, and 403 `Invalid token` exactly when the token fails
verification; a request that is answered is not passed on. -/
theorem authenticateToken_spec {User : Type} (jwtVerify : String → String → Option User)
    (env : Option String) (authHeader : Option String) :
    (∀ user, authenticateToken jwtVerify env authHeader = .next user ↔
        ∃ token, authToken authHeader = some token ∧ token ≠ "" ∧
          jwtVerify token (jwtSecret env) = some user) ∧
      (authenticateToken jwtVerify env authHeader = .respond 401 "Access token required" ↔
        authToken authHeader = none ∨ authToken authHeader = some "") ∧
      (authenticateToken jwtVerify env authHeader = .respond 403 "Invalid token" ↔
        ∃ token, authToken authHeader = some token ∧ token ≠ "" ∧
          jwtVerify token (jwtSecret env) = none) ∧
      authToken none = none ∧
      (∀ header : String, header ≠ "" →
        authToken (some header) = (splitOnSpace header.data)[1]?.map String.mk) ∧
      (jwtVerify "" (jwtSecret env) = none →
        ((∃ user, authenticateToken jwtVerify env authHeader = .next user) ↔
          ∃ token, authToken authHeader = some token ∧
            (jwtVerify token (jwtSecret env)).isSome = true)) := by
  have hnext : ∀ user, authenticateToken jwtVerify env authHeader = .next user ↔
      ∃ token, authToken authHeader = some token ∧ token ≠ "" ∧
        jwtVerify token (jwtSecret env) = some user := by
    intro user
    unfold authenticateToken
    cases ht : authToken authHeader with
    | none => simp
    | some token =>
      by_cases he : token = ""
      · simp [he]
      · cases hv : jwtVerify token (jwtSecret env) with
        | none => simp [he, hv]
        | some u => simp [he, hv]
  refine ⟨hnext, ?_, ?_, rfl, ?_, ?_⟩
  · unfold authenticateToken
    cases ht : authToken authHeader with
    | none => simp
    | some token =>
      by_cases he : token = ""
      · simp [he]
      · cases hv : jwtVerify token (jwtSecret env) with
        | none => simp [he, hv]
        | some u => simp [he, hv]
  · unfold authenticateToken
    cases ht : authToken authHeader with
    | none => simp
    | some token =>
      by_cases he : token = ""
      · simp [he]
      · cases hv : jwtVerify token (jwtSecret env) with
        | none => simp [he, hv]
        | some u => simp [he, hv]
  · intro header hne
    unfold authToken
    simp only [if_neg hne]
  · intro hempty
    constructor
    · rintro ⟨user, hu⟩
      obtain ⟨token, h1, _, h3⟩ := (hnext user).mp hu
      exact ⟨token, h1, by rw [h3]; rfl⟩
    · rintro ⟨token, h1, h2⟩
      obtain ⟨user, hu⟩ := Option.isSome_iff_exists.mp h2
      have hne : token ≠ "" := by
        intro h
        rw [h, hempty] at hu
        exact absurd hu (by simp)
      exact ⟨user, (hnext user).mpr ⟨token, h1, hne, hu⟩⟩

theorem authenticateToken_spec_witness :
    authenticateToken (fun token _ => if token = "abc" then some "ann" else none) none
        (some "Bearer abc") = .next "ann" ∧
      authenticateToken (fun token _ => if token = "abc" then some "ann" else none) none
        (some "Bearer xyz") = .respond 403 "Invalid token" ∧
      authenticateToken (fun token _ => if token = "abc" then some "ann" else none) none
        (some "Bearer") = .respond 401 "Access token required" ∧
      authenticateToken (fun token _ => if token = "abc" then some "ann" else none) none
        none = .respond 401 "Access token required" :=
  ⟨((authenticateToken_spec (fun token _ => if token = "abc" then some "ann" else none) none
      (some "Bearer abc")).1 "ann").mpr ⟨"abc", by decide, by decide, by decide⟩,
    by decide, by decide, by decide⟩

/-! ## Advice and mood label -/

/-- C25: for `1.5 ≤ avgMood < 2.5` and a trend that is not Improving,
`getMoodAdvice` falls through to the moderate block and returns the payload it
returns for an average in `[2.5, 3.5)` with the same trend: support for
Declining, maintain for Stable, Building and Tracking. -/
theorem getMoodAdvice_low_falls_through (low moderate : ℚ) (trend : String)
    (h1 : 1.5 ≤ low) (h2 : low < 2.5) (h3 : 2.5 ≤ moderate) (h4 : moderate < 3.5)
    (hnot : splitFirst trend ≠ splitFirst trendImproving) :
    getMoodAdvice low trend = getMoodAdvice moderate trend ∧
      getMoodAdvice low trendDeclining = supportAdvice ∧
      getMoodAdvice moderate trendDeclining = supportAdvice ∧
      supportAdvice.type = "support" ∧
      getMoodAdvice low trendStable = maintainAdvice ∧
      getMoodAdvice low trendBuilding = maintainAdvice ∧
      getMoodAdvice low trendTracking = maintainAdvice ∧
      getMoodAdvice moderate trendStable = maintainAdvice ∧
      maintainAdvice.type = "maintain" := by
  obtain ⟨hI, hD, hS1, hS2, hB1, hB2, hT1, hT2, hD1⟩ := splitFirst_trends
  rw [hI] at hnot
  have hlow : (avg : ℚ) → 1.5 ≤ avg → avg < 2.5 → avg < 3.5 := by
    intro avg _ h
    norm_num at h ⊢
    linarith
  have hmod : (avg : ℚ) → 2.5 ≤ avg → 1.5 ≤ avg := by
    intro avg h
    norm_num at h ⊢
    linarith
  have l35 := hlow low h1 h2
  have m15 := hmod moderate h3
  refine ⟨?_, ?_, ?_, rfl, ?_, ?_, ?_, ?_, rfl⟩
  · rw [getMoodAdvice_mid low trend h1 l35, getMoodAdvice_mid moderate trend m15 h4,
      if_neg hnot, if_neg hnot]
  · rw [getMoodAdvice_mid low _ h1 l35, if_neg hD1, if_pos hD]
  · rw [getMoodAdvice_mid moderate _ m15 h4, if_neg hD1, if_pos hD]
  · rw [getMoodAdvice_mid low _ h1 l35, if_neg hS1, if_neg hS2]
  · rw [getMoodAdvice_mid low _ h1 l35, if_neg hB1, if_neg hB2]
  · rw [getMoodAdvice_mid low _ h1 l35, if_neg hT1, if_neg hT2]
  · rw [getMoodAdvice_mid moderate _ m15 h4, if_neg hS1, if_neg hS2]

theorem getMoodAdvice_low_falls_through_witness :
    getMoodAdvice 2 trendStable = getMoodAdvice 3 trendStable ∧
      getMoodAdvice 2 trendDeclining = supportAdvice :=
  have h := getMoodAdvice_low_falls_through 2 3 trendStable (by norm_num) (by norm_num)
    (by norm_num) (by norm_num) (by decide)
  ⟨h.1, h.2.1⟩

theorem mood_strings_distinct :
    moodGreat ≠ moodGood ∧ moodGreat ≠ moodOkay ∧ moodGreat ≠ moodLow ∧
      moodGreat ≠ moodStruggling ∧ moodGood ≠ moodOkay ∧ moodGood ≠ moodLow ∧
      moodGood ≠ moodStruggling ∧ moodOkay ≠ moodLow ∧ moodOkay ≠ moodStruggling ∧
      moodLow ≠ moodStruggling := by
  decide

theorem getMoodEmoji_cases (avgValue : ℚ) :
    (4.5 ≤ avgValue ∧ getMoodEmoji avgValue = moodGreat) ∨
      (3.5 ≤ avgValue ∧ avgValue < 4.5 ∧ getMoodEmoji avgValue = moodGood) ∨
      (2.5 ≤ avgValue ∧ avgValue < 3.5 ∧ getMoodEmoji avgValue = moodOkay) ∨
      (1.5 ≤ avgValue ∧ avgValue < 2.5 ∧ getMoodEmoji avgValue = moodLow) ∨
      (avgValue < 1.5 ∧ getMoodEmoji avgValue = moodStruggling) := by
  unfold getMoodEmoji
  by_cases h4 : avgValue ≥ 4.5
  · exact Or.inl ⟨h4, by rw [if_pos h4]; rfl⟩
  rw [if_neg h4]
  by_cases h3 : avgValue ≥ 3.5
  · exact Or.inr (Or.inl ⟨h3, not_le.mp h4, by rw [if_pos h3]; rfl⟩)
  rw [if_neg h3]
  by_cases h2 : avgValue ≥ 2.5
  · exact Or.inr (Or.inr (Or.inl ⟨h2, not_le.mp h3, by rw [if_pos h2]; rfl⟩))
  rw [if_neg h2]
  by_cases h1 : avgValue ≥ 1.5
  · exact Or.inr (Or.inr (Or.inr (Or.inl ⟨h1, not_le.mp h2, by rw [if_pos h1]; rfl⟩)))
  rw [if_neg h1]
  exact Or.inr (Or.inr (Or.inr (Or.inr ⟨not_le.mp h1, rfl⟩)))

theorem getMoodAdvice_mid_type (avgMood : ℚ) (trend : String) (h1 : 1.5 ≤ avgMood)
    (h2 : avgMood < 3.5) :
    (getMoodAdvice avgMood trend).type ≠ "critical" ∧
      (getMoodAdvice avgMood trend).type ≠ "excellent" ∧
      (getMoodAdvice avgMood trend).type ≠ "thriving" := by
  rw [getMoodAdvice_mid avgMood trend h1 h2]
  split_ifs <;> decide

/-- On rational averages the mood label and the advice tier use the same cut points:
for every rational average and every trend, `getMoodEmoji` gives Struggling exactly when
`getMoodAdvice` gives tier critical, Great exactly when it gives excellent, and
Good exactly when it gives thriving. -/
theorem getMoodEmoji_matches_tier (avgMood : ℚ) (trend : String) :
    (getMoodEmoji avgMood = moodStruggling ↔
        (getMoodAdvice avgMood trend).type = "critical") ∧
      (getMoodEmoji avgMood = moodGreat ↔
        (getMoodAdvice avgMood trend).type = "excellent") ∧
      (getMoodEmoji avgMood = moodGood ↔
        (getMoodAdvice avgMood trend).type = "thriving") := by
  obtain ⟨hGG, hGO, hGL, hGS, hDO, hDL, hDS, hOL, hOS, hLS⟩ := mood_strings_distinct
  rcases getMoodEmoji_cases avgMood with
    ⟨a, e⟩ | ⟨a, b, e⟩ | ⟨a, b, e⟩ | ⟨a, b, e⟩ | ⟨a, e⟩
  · rw [e, getMoodAdvice_excellent avgMood trend a]
    exact ⟨iff_of_false hGS (by decide), iff_of_true rfl rfl, iff_of_false hGG (by decide)⟩
  · rw [e, getMoodAdvice_thriving avgMood trend a b]
    exact ⟨iff_of_false hDS (by decide), iff_of_false (Ne.symm hGG) (by decide),
      iff_of_true rfl rfl⟩
  · have h15 : (1.5 : ℚ) ≤ avgMood := by norm_num at a ⊢; linarith
    obtain ⟨t1, t2, t3⟩ := getMoodAdvice_mid_type avgMood trend h15 b
    rw [e]
    exact ⟨iff_of_false hOS t1, iff_of_false (Ne.symm hGO) t2, iff_of_false (Ne.symm hDO) t3⟩
  · have h35 : avgMood < 3.5 := by norm_num at b ⊢; linarith
    obtain ⟨t1, t2, t3⟩ := getMoodAdvice_mid_type avgMood trend a h35
    rw [e]
    exact ⟨iff_of_false hLS t1, iff_of_false (Ne.symm hGL) t2, iff_of_false (Ne.symm hDL) t3⟩
  · rw [e, getMoodAdvice_critical avgMood trend a]
    exact ⟨iff_of_true rfl rfl, iff_of_false (Ne.symm hGS) (by decide),
      iff_of_false (Ne.symm hDS) (by decide)⟩

/-! ## The two responders -/

theorem serverSelectedCategory_crisis_iff (s : String) :
    serverSelectedCategory s = .crisis ↔ ∃ p ∈ serverCrisisPhrases, p.data <:+: s.data := by
  have htest : (includes s "suicide" || includes s "kill myself" ||
      includes s "want to die") = true ↔ ∃ p ∈ serverCrisisPhrases, p.data <:+: s.data := by
    simp only [Bool.or_eq_true, includes_iff, serverCrisisPhrases, List.mem_cons,
      List.mem_singleton, List.not_mem_nil, or_false, exists_eq_or_imp, exists_eq_left,
      or_assoc]
  rw [← htest]
  unfold serverSelectedCategory
  by_cases h : (includes s "suicide" || includes s "kill myself" ||
      includes s "want to die") = true
  · rw [if_pos h]
    exact iff_of_true rfl h
  · rw [if_neg h]
    refine iff_of_false ?_ h
    repeat' (first | exact ServerCategory.noConfusion | apply ite_ne_of_ne)

/-- C29: the server's crisis detection is contained in the client's: its three
crisis phrases are among the client's five, so whenever `generateAIResponse`
takes the crisis branch for a message, `getAIResponse` takes the crisis branch
for it too; and the result of `generateAIResponse` does not depend on its mood
argument. -/
theorem server_crisis_contained (toLowerCase : String → String) (random : ℚ)
    (userMessage : String) (mood other : Option String) :
    (∀ p ∈ serverCrisisPhrases, p ∈ crisisPhrases) ∧
      (serverSelectedCategory (toLowerCase userMessage) = .crisis ↔
        ∃ p ∈ serverCrisisPhrases, p.data <:+: (toLowerCase userMessage).data) ∧
      (serverSelectedCategory (toLowerCase userMessage) = .crisis →
        selectedCategory (toLowerCase userMessage) = .crisis ∧
          generateAIResponse toLowerCase random userMessage mood =
            getRandomResponse random (serverResponses .crisis) ∧
          getAIResponse toLowerCase random userMessage =
            getRandomResponse random (responses .crisis)) ∧
      generateAIResponse toLowerCase random userMessage mood =
        generateAIResponse toLowerCase random userMessage other := by
  have hsub : ∀ p ∈ serverCrisisPhrases, p ∈ crisisPhrases := by decide
  refine ⟨hsub, serverSelectedCategory_crisis_iff _, ?_, ?_⟩
  · intro h
    have hclient : selectedCategory (toLowerCase userMessage) = .crisis := by
      obtain ⟨p, hp, hin⟩ := (serverSelectedCategory_crisis_iff _).mp h
      exact (selectedCategory_crisis_iff _).mpr ⟨p, hsub p hp, hin⟩
    refine ⟨hclient, ?_, ?_⟩
    · rw [generateAIResponse_eq, h]
    · rw [getAIResponse_eq, hclient]
  · rw [generateAIResponse_eq, generateAIResponse_eq]

theorem server_crisis_contained_witness :
    selectedCategory (asciiLower "I want to die") = .crisis ∧
      generateAIResponse asciiLower 0 "I want to die" (some "Sad") =
        getRandomResponse 0 (serverResponses .crisis) ∧
      getAIResponse asciiLower 0 "I want to die" = getRandomResponse 0 (responses .crisis) :=
  (server_crisis_contained asciiLower 0 "I want to die" (some "Sad") none).2.2.1 (by decide)

/-! ## Shift of the data -/

theorem mean_map_add (l : List ℚ) (c : ℚ) (h : l ≠ []) :
    mean (l.map (fun x => x + c)) = mean l + c := by
  unfold mean
  have hsum : ∀ l : List ℚ, (l.map (fun x => x + c)).sum = l.sum + (l.length : ℚ) * c := by
    intro l
    induction l with
    | nil => simp
    | cons a rest ih =>
      rw [List.map_cons, List.sum_cons, ih, List.sum_cons, List.length_cons]
      push_cast
      ring
  have hpos : (l.length : ℚ) ≠ 0 := by
    exact_mod_cast (List.length_pos.mpr h).ne'
  rw [hsum, List.length_map]
  field_simp
  ring

theorem recentPoints_map (f : ℚ → ℚ) (data : List ℚ) :
    recentPoints (data.map f) = (recentPoints data).map f := by
  unfold recentPoints lastN
  rw [List.length_map, List.map_drop]

theorem earlierPoints_map (f : ℚ → ℚ) (data : List ℚ) :
    earlierPoints (data.map f) = (earlierPoints data).map f := by
  unfold earlierPoints lastN
  rw [List.length_map, List.map_drop, List.map_take, List.length_take, List.length_take,
    List.length_map]

/-- C30: `getTrend` is invariant under a uniform shift of the data: adding a
constant to every point does not change the result. -/
theorem getTrend_shift (data : List ℚ) (c : ℚ) :
    getTrend (data.map (fun x => x + c)) = getTrend data := by
  rw [getTrend_eq, getTrend_eq, List.length_map]
  by_cases h2 : data.length < 2
  · rw [if_pos h2, if_pos h2]
  rw [if_neg h2, if_neg h2]
  by_cases h4 : data.length < 4
  · rw [if_pos h4, if_pos h4]
  rw [if_neg h4, if_neg h4]
  have hr : recentPoints data ≠ [] := by
    intro h
    have := recentPoints_length data
    rw [h] at this
    simp at this
    omega
  have he : earlierPoints data ≠ [] := by
    intro h
    have := earlierPoints_length data
    rw [h] at this
    simp at this
    omega
  rw [recentPoints_map, earlierPoints_map, mean_map_add _ c hr, mean_map_add _ c he]
  have e1 : (mean (recentPoints data) + c > mean (earlierPoints data) + c + 0.5) =
      (mean (recentPoints data) > mean (earlierPoints data) + 0.5) := by
    apply propext
    constructor <;> intro h <;> linarith
  have e2 : (mean (recentPoints data) + c < mean (earlierPoints data) + c - 0.5) =
      (mean (recentPoints data) < mean (earlierPoints data) - 0.5) := by
    apply propext
    constructor <;> intro h <;> linarith
  simp only [e1, e2]

/-! ## The tracker summary -/

theorem numbers_map_some (l : List ℚ) : numbers (l.map some) = some l := by
  induction l with
  | nil => rfl
  | cons a rest ih => simp [numbers, ih]

theorem exists_numbers (data : List (Option ℚ)) (P : ℚ → Prop)
    (h : ∀ x ∈ data, ∃ q, x = some q ∧ P q) :
    ∃ l : List ℚ, data = l.map some ∧ ∀ q ∈ l, P q := by
  induction data with
  | nil => exact ⟨[], rfl, by simp⟩
  | cons x rest ih =>
    obtain ⟨q, hx, hq⟩ := h x (List.mem_cons_self _ _)
    obtain ⟨l, hl, hP⟩ := ih (fun y hy => h y (List.mem_cons_of_mem _ hy))
    refine ⟨q :: l, by rw [hx, hl, List.map_cons], ?_⟩
    intro r hr
    rw [List.mem_cons] at hr
    rcases hr with rfl | hr
    · exact hq
    · exact hP r hr

theorem mean_bounds (l : List ℚ) (h : ∀ x ∈ l, 1 ≤ x ∧ x ≤ 5) (hne : l ≠ []) :
    1 ≤ l.sum / (l.length : ℚ) ∧ l.sum / (l.length : ℚ) ≤ 5 := by
  have hsum : ∀ l : List ℚ, (∀ x ∈ l, 1 ≤ x ∧ x ≤ 5) →
      (l.length : ℚ) ≤ l.sum ∧ l.sum ≤ 5 * (l.length : ℚ) := by
    intro l
    induction l with
    | nil => simp
    | cons a rest ih =>
      intro hall
      obtain ⟨h1, h2⟩ := hall a (List.mem_cons_self _ _)
      obtain ⟨h3, h4⟩ := ih (fun y hy => hall y (List.mem_cons_of_mem _ hy))
      rw [List.sum_cons, List.length_cons]
      push_cast
      constructor <;> linarith
  have hpos : (0 : ℚ) < (l.length : ℚ) := by
    exact_mod_cast List.length_pos.mpr hne
  obtain ⟨h1, h2⟩ := hsum l h
  rw [le_div_iff₀ hpos, div_le_iff₀ hpos]
  constructor <;> linarith

theorem labelScore_bounds (label : String) : 1 ≤ labelScore label ∧ labelScore label ≤ 5 := by
  unfold labelScore
  split_ifs <;> norm_num

theorem mem_moodsOn (localDate : Nat → CalendarDate) (msgs : List Message) (k : DateLabel)
    (l : String) (h : l ∈ moodsOn localDate msgs k) :
    ∃ m ∈ msgs, isTaggedUser m = true ∧ ∃ tag, m.mood = some tag ∧ tag.mood = l := by
  unfold moodsOn at h
  rw [List.mem_filterMap] at h
  obtain ⟨m, hm, hf⟩ := h
  by_cases hc : m.sender = "user" ∧ messageLabel localDate m = k
  · rw [if_pos hc] at hf
    cases hmood : m.mood with
    | none => rw [hmood] at hf; simp at hf
    | some tag =>
      rw [hmood] at hf
      simp only [Option.map_some', Option.some.injEq] at hf
      exact ⟨m, hm, (isTaggedUser_iff m).mpr ⟨hc.1, tag, hmood⟩, tag, hmood, hf⟩
  · rw [if_neg hc] at hf
    simp at hf

theorem groupByDate_untagged (localDate : Nat → CalendarDate) (msgs : List Message)
    (h : ∀ m ∈ msgs, isTaggedUser m = false) : groupByDate localDate msgs = [] := by
  induction msgs using List.reverseRecOn with
  | nil => rfl
  | append_singleton rest m ih =>
    rw [groupByDate_snoc, groupStep_untagged _ _ _ (h m (by simp)),
      ih (fun x hx => h x (List.mem_append_left _ hx))]

theorem renderMoodTracker_of_numbers (localDate : Nat → CalendarDate) (msgs : List Message)
    (l : List ℚ) (h : chartMoodData localDate msgs = l.map some) :
    renderMoodTracker localDate msgs =
      some
        { totalDays := l.length
          avgMoodValue := if l.length > 0 then l.sum / (l.length : ℚ) else 0
          avgMood := getMoodEmoji (if l.length > 0 then l.sum / (l.length : ℚ) else 0)
          trendIcon := getTrend l
          advice :=
            if l.length > 0 then
              some (getMoodAdvice (if l.length > 0 then l.sum / (l.length : ℚ) else 0)
                (getTrend l))
            else none } := by
  have hlen : (chartDates localDate msgs).length = l.length := by
    have := congrArg List.length h
    unfold chartMoodData at this
    unfold chartDates
    simpa using this
  unfold renderMoodTracker
  simp only [h, numbers_map_some, hlen, foldl_add_eq_sum, zero_add]

/-- C26: when the history has a tagged user message and the labels of its tagged
user messages are among Happy, Neutral, Anxious, Sad, Angry, every daily average
lies between 1 and 5, and so does the overall average, with which the tracker
calls `getMoodAdvice`. -/
theorem renderMoodTracker_average_bounds (localDate : Nat → CalendarDate)
    (messages : List Message)
    (htagged : ∃ m ∈ messages, isTaggedUser m = true)
    (hlabels : ∀ m ∈ messages, isTaggedUser m = true →
      ∀ tag, m.mood = some tag → tag.mood ∈ moodLabels) :
    (∀ p ∈ moodPoints localDate messages, ∃ q, p.avgMood = some q ∧ 1 ≤ q ∧ q ≤ 5) ∧
      ∃ summary, renderMoodTracker localDate messages = some summary ∧
        0 < summary.totalDays ∧
        1 ≤ summary.avgMoodValue ∧ summary.avgMoodValue ≤ 5 ∧
        summary.advice = some (getMoodAdvice summary.avgMoodValue summary.trendIcon) := by
  have hpoints : ∀ p ∈ moodPoints localDate messages,
      ∃ q, p.avgMood = some q ∧ 1 ≤ q ∧ q ≤ 5 := by
    intro p hp
    obtain ⟨hp', hne⟩ := moodPoints_mem localDate messages p hp
    have hl : ∀ l ∈ moodsOn localDate messages p.date, l ∈ moodLabels := by
      intro l hl
      obtain ⟨m, hm, ht, tag, hmood, htag⟩ := mem_moodsOn _ _ _ _ hl
      exact htag ▸ hlabels m hm ht tag hmood
    have havg : p.avgMood = (dayPoint (p.date, moodsOn localDate messages p.date)).avgMood :=
      congrArg DayPoint.avgMood hp'
    refine ⟨((moodsOn localDate messages p.date).map labelScore).sum /
      ((moodsOn localDate messages p.date).length : ℚ), ?_, ?_⟩
    · rw [havg]
      unfold dayPoint
      simp only
      rw [foldl_addMoodValue _ hl, Option.some_bind, zero_add,
        if_neg (fun h => hne (List.length_eq_zero.mp h))]
    · have hb := mean_bounds ((moodsOn localDate messages p.date).map labelScore)
        (by
          intro x hx
          rw [List.mem_map] at hx
          obtain ⟨l, _, rfl⟩ := hx
          exact labelScore_bounds l)
        (by simpa using hne)
      rw [List.length_map] at hb
      exact hb
  refine ⟨hpoints, ?_⟩
  obtain ⟨l, hl, hP⟩ := exists_numbers (chartMoodData localDate messages)
    (fun q => 1 ≤ q ∧ q ≤ 5) (by
      intro x hx
      unfold chartMoodData at hx
      rw [List.mem_map] at hx
      obtain ⟨p, hp, rfl⟩ := hx
      exact hpoints p hp)
  have hne : l ≠ [] := by
    intro h
    rw [h] at hl
    obtain ⟨m, hm, ht⟩ := htagged
    obtain ⟨_, _, hkey⟩ := groupByDate_spec localDate messages
    have hk := (hkey (messageLabel localDate m)).mpr
      ((moodsOn_ne_nil_iff _ _ _).mpr ⟨m, hm, ht, rfl⟩)
    unfold chartMoodData moodPoints at hl
    simp only [List.map_nil, List.map_eq_nil_iff] at hl
    rw [hl] at hk
    simp at hk
  have hpos : 0 < l.length := List.length_pos.mpr hne
  obtain ⟨b1, b2⟩ := mean_bounds l hP hne
  refine ⟨_, renderMoodTracker_of_numbers localDate messages l hl, hpos, ?_, ?_, ?_⟩
  · simp only [if_pos hpos]
    exact b1
  · simp only [if_pos hpos]
    exact b2
  · simp only [if_pos hpos]

theorem renderMoodTracker_average_bounds_witness :
    (∀ p ∈ moodPoints utcDate specExampleMessages, ∃ q, p.avgMood = some q ∧ 1 ≤ q ∧ q ≤ 5) ∧
      ∃ summary, renderMoodTracker utcDate specExampleMessages = some summary ∧
        0 < summary.totalDays ∧
        1 ≤ summary.avgMoodValue ∧ summary.avgMoodValue ≤ 5 ∧
        summary.advice = some (getMoodAdvice summary.avgMoodValue summary.trendIcon) :=
  renderMoodTracker_average_bounds utcDate specExampleMessages (by decide) (by decide)

/-- C28: when the history has no tagged user message, the tracker computes no
daily point, the overall average 0, which `getMoodEmoji` labels Struggling, the
trend Building, and no advice. -/
theorem renderMoodTracker_no_data (localDate : Nat → CalendarDate) (messages : List Message)
    (h : ∀ m ∈ messages, isTaggedUser m = false) :
    moodPoints localDate messages = [] ∧
      getMoodEmoji 0 = moodStruggling ∧
      renderMoodTracker localDate messages =
        some
          { totalDays := 0
            avgMoodValue := 0
            avgMood := moodStruggling
            trendIcon := trendBuilding
            advice := none } := by
  have hpts : moodPoints localDate messages = [] := by
    unfold moodPoints
    rw [groupByDate_untagged localDate messages h]
    rfl
  have hemoji : getMoodEmoji 0 = moodStruggling := by
    norm_num [getMoodEmoji, moodStruggling]
  refine ⟨hpts, hemoji, ?_⟩
  have hdata : chartMoodData localDate messages = ([] : List ℚ).map some := by
    unfold chartMoodData
    rw [hpts]
    rfl
  rw [renderMoodTracker_of_numbers localDate messages [] hdata]
  simp only [List.length_nil, lt_irrefl, gt_iff_lt, if_false, hemoji]
  rfl

theorem renderMoodTracker_no_data_witness :
    moodPoints utcDate [botMessage 1704445201500, plainMessage 1704621600000] = [] ∧
      getMoodEmoji 0 = moodStruggling ∧
      renderMoodTracker utcDate [botMessage 1704445201500, plainMessage 1704621600000] =
        some
          { totalDays := 0
            avgMoodValue := 0
            avgMood := moodStruggling
            trendIcon := trendBuilding
            advice := none } :=
  renderMoodTracker_no_data utcDate [botMessage 1704445201500, plainMessage 1704621600000]
    (by decide)

/-! ## Binary64 rounding: auxiliary facts -/

theorem roundHalfEven_cases (x : ℚ) :
    (roundHalfEven x = ⌊x⌋ ∧ x - ⌊x⌋ ≤ 1 / 2 ∧ (x - ⌊x⌋ = 1 / 2 → ⌊x⌋ % 2 = 0)) ∨
      (roundHalfEven x = ⌊x⌋ + 1 ∧ 1 / 2 ≤ x - ⌊x⌋ ∧ (x - ⌊x⌋ = 1 / 2 → ⌊x⌋ % 2 ≠ 0)) := by
  unfold roundHalfEven
  simp only
  by_cases h1 : x - (⌊x⌋ : ℚ) < 1 / 2
  · rw [if_pos h1]
    exact Or.inl ⟨rfl, le_of_lt h1, fun h => absurd h (ne_of_lt h1)⟩
  · rw [if_neg h1]
    by_cases h2 : 1 / 2 < x - (⌊x⌋ : ℚ)
    · rw [if_pos h2]
      exact Or.inr ⟨rfl, le_of_lt h2, fun h => absurd h.symm (ne_of_lt h2)⟩
    · rw [if_neg h2]
      by_cases h3 : ⌊x⌋ % 2 = 0
      · rw [if_pos h3]
        exact Or.inl ⟨rfl, not_lt.mp h2, fun _ => h3⟩
      · rw [if_neg h3]
        exact Or.inr ⟨rfl, not_lt.mp h1, fun _ => h3⟩

theorem le_roundHalfEven (x : ℚ) (J : ℤ) (h : (J : ℚ) ≤ x) : J ≤ roundHalfEven x := by
  have hf : J ≤ ⌊x⌋ := Int.le_floor.mpr h
  rcases roundHalfEven_cases x with ⟨e, _⟩ | ⟨e, _⟩ <;> rw [e] <;> omega

theorem roundHalfEven_le (x : ℚ) (J : ℤ) (h : x ≤ (J : ℚ)) : roundHalfEven x ≤ J := by
  have hfx : (⌊x⌋ : ℚ) ≤ x := Int.floor_le x
  have hf : ⌊x⌋ ≤ J := by exact_mod_cast le_trans hfx h
  rcases roundHalfEven_cases x with ⟨e, _⟩ | ⟨e, hr, _⟩
  · rw [e]
    exact hf
  · rw [e]
    have hlt : (⌊x⌋ : ℚ) < (J : ℚ) := by linarith
    have : ⌊x⌋ < J := by exact_mod_cast hlt
    omega

theorem roundHalfEven_mono (x y : ℚ) (h : x ≤ y) : roundHalfEven x ≤ roundHalfEven y := by
  have hfl : ⌊x⌋ ≤ ⌊y⌋ := Int.floor_le_floor h
  rcases lt_or_eq_of_le hfl with hlt | heq
  · have h1 : roundHalfEven x ≤ ⌊x⌋ + 1 := by
      rcases roundHalfEven_cases x with ⟨e, _⟩ | ⟨e, _⟩
      · omega
      · omega
    have h2 : ⌊y⌋ ≤ roundHalfEven y := le_roundHalfEven y _ (Int.floor_le y)
    omega
  · rcases roundHalfEven_cases x with ⟨ex, _⟩ | ⟨ex, hx, tx⟩
    · rw [ex, heq]
      exact le_roundHalfEven y _ (Int.floor_le y)
    · rcases roundHalfEven_cases y with ⟨ey, hy, ty⟩ | ⟨ey, _⟩
      · exfalso
        rw [heq] at hx tx
        have hxy : x - (⌊y⌋ : ℚ) ≤ y - (⌊y⌋ : ℚ) := by linarith
        have e1 : y - (⌊y⌋ : ℚ) = 1 / 2 := le_antisymm hy (le_trans hx hxy)
        have e2 : x - (⌊y⌋ : ℚ) = 1 / 2 := le_antisymm (by linarith) hx
        exact tx e2 (ty e1)
      · rw [ex, ey, heq]

theorem binary64Ulp_pos (x : ℚ) : 0 < binary64Ulp x :=
  zpow_pos (by norm_num) _

/-- Rounding does not cross a multiple of the spacing. -/
theorem binary64Nearest_grid (x : ℚ) (J : ℤ) :
    ((J : ℚ) * binary64Ulp x ≤ x → (J : ℚ) * binary64Ulp x ≤ binary64Nearest x) ∧
      (x ≤ (J : ℚ) * binary64Ulp x → binary64Nearest x ≤ (J : ℚ) * binary64Ulp x) := by
  have hulp := binary64Ulp_pos x
  unfold binary64Nearest
  constructor
  · intro h
    have h2 : (J : ℚ) ≤ x / binary64Ulp x := (le_div_iff₀ hulp).mpr h
    have h3 := le_roundHalfEven _ _ h2
    exact mul_le_mul_of_nonneg_right (by exact_mod_cast h3) (le_of_lt hulp)
  · intro h
    have h2 : x / binary64Ulp x ≤ (J : ℚ) := (div_le_iff₀ hulp).mpr h
    have h3 := roundHalfEven_le _ _ h2
    exact mul_le_mul_of_nonneg_right (by exact_mod_cast h3) (le_of_lt hulp)

/-- A power of two `2 ^ E` is a multiple of the spacing `2 ^ (F - 52)` when
`F ≤ E + 52`. -/
theorem zpow_two_grid (E F : ℤ) (h : F ≤ E + 52) :
    ∃ J : ℤ, (2 : ℚ) ^ E = (J : ℚ) * 2 ^ (F - 52) := by
  obtain ⟨d, hd⟩ : ∃ d : ℕ, (d : ℤ) = E - F + 52 :=
    ⟨(E - F + 52).toNat, Int.toNat_of_nonneg (by omega)⟩
  refine ⟨2 ^ d, ?_⟩
  push_cast
  rw [← zpow_natCast, ← zpow_add₀ (by norm_num), hd]
  congr 1
  ring

theorem zpow_log_abs_le (x : ℚ) (h : x ≠ 0) : (2 : ℚ) ^ Int.log 2 |x| ≤ |x| := by
  have := Int.zpow_log_le_self (b := 2) (by norm_num) (abs_pos.mpr h)
  simpa using this

theorem abs_lt_zpow_log (x : ℚ) : |x| < (2 : ℚ) ^ (Int.log 2 |x| + 1) := by
  have := Int.lt_zpow_succ_log_self (b := 2) (by norm_num) |x|
  simpa using this

theorem binary64Nearest_mono_pos (x y : ℚ) (h0 : 0 < x) (h : x ≤ y) :
    binary64Nearest x ≤ binary64Nearest y := by
  have hy0 : 0 < y := lt_of_lt_of_le h0 h
  have hlog : Int.log 2 |x| ≤ Int.log 2 |y| := by
    rw [abs_of_pos h0, abs_of_pos hy0]
    exact Int.log_mono_right h0 h
  have hE : max (Int.log 2 |x|) (-1022) ≤ max (Int.log 2 |y|) (-1022) :=
    max_le_max hlog le_rfl
  rcases eq_or_lt_of_le hE with heq | hlt
  · have hu : binary64Ulp x = binary64Ulp y := by
      unfold binary64Ulp
      rw [heq]
    unfold binary64Nearest
    rw [hu]
    have hulp := binary64Ulp_pos y
    have hdiv : x / binary64Ulp y ≤ y / binary64Ulp y := div_le_div_of_nonneg_right h (le_of_lt hulp)
    have := roundHalfEven_mono _ _ hdiv
    exact mul_le_mul_of_nonneg_right (by exact_mod_cast this) (le_of_lt hulp)
  · have hEy : max (Int.log 2 |y|) (-1022) = Int.log 2 |y| := by
      apply max_eq_left
      have : (-1022 : ℤ) ≤ max (Int.log 2 |x|) (-1022) := le_max_right _ _
      by_contra hc
      rw [max_eq_right (by omega)] at hlt
      omega
    have hgy : (2 : ℚ) ^ Int.log 2 |y| ≤ y :=
      le_trans (zpow_log_abs_le y (ne_of_gt hy0)) (le_of_eq (abs_of_pos hy0))
    have hgx : x ≤ (2 : ℚ) ^ Int.log 2 |y| := by
      have h1 := abs_lt_zpow_log x
      rw [abs_of_pos h0] at h1
      have h2 : (2 : ℚ) ^ (Int.log 2 x + 1) ≤ 2 ^ Int.log 2 |y| := by
        apply zpow_le_zpow_right₀ (by norm_num)
        rw [abs_of_pos h0] at hlt
        have : Int.log 2 x ≤ max (Int.log 2 x) (-1022) := le_max_left _ _
        rw [hEy] at hlt
        omega
      linarith
    obtain ⟨Jx, hJx⟩ := zpow_two_grid (Int.log 2 |y|) (max (Int.log 2 |x|) (-1022)) (by omega)
    obtain ⟨Jy, hJy⟩ := zpow_two_grid (Int.log 2 |y|) (max (Int.log 2 |y|) (-1022)) (by omega)
    have h1 := (binary64Nearest_grid x Jx).2 (by unfold binary64Ulp; rw [← hJx]; exact hgx)
    have h2 := (binary64Nearest_grid y Jy).1 (by unfold binary64Ulp; rw [← hJy]; exact hgy)
    unfold binary64Ulp at h1 h2
    rw [← hJx] at h1
    rw [← hJy] at h2
    exact le_trans h1 h2

theorem roundHalfEven_neg (x : ℚ) : roundHalfEven (-x) = -roundHalfEven x := by
  have f1 := Int.floor_le x
  have f2 := Int.lt_floor_add_one x
  have g1 := Int.floor_le (-x)
  have g2 := Int.lt_floor_add_one (-x)
  have d1 : ⌊-x⌋ + ⌊x⌋ ≤ 0 := by
    exact_mod_cast (show (⌊-x⌋ : ℚ) + ⌊x⌋ ≤ 0 by linarith)
  have d2 : -2 < ⌊-x⌋ + ⌊x⌋ := by
    exact_mod_cast (show (-2 : ℚ) < (⌊-x⌋ : ℚ) + ⌊x⌋ by linarith)
  rcases (show ⌊-x⌋ + ⌊x⌋ = 0 ∨ ⌊-x⌋ + ⌊x⌋ = -1 by omega) with k | k
  · have kq : (⌊-x⌋ : ℚ) + ⌊x⌋ = 0 := by exact_mod_cast k
    rcases roundHalfEven_cases x with ⟨e, h, t⟩ | ⟨e, h, t⟩ <;>
      rcases roundHalfEven_cases (-x) with ⟨e', h', t'⟩ | ⟨e', h', t'⟩ <;>
      rw [e, e'] <;>
      first
        | omega
        | (exfalso; linarith)
  · have kq : (⌊-x⌋ : ℚ) + ⌊x⌋ = -1 := by exact_mod_cast k
    rcases roundHalfEven_cases x with ⟨e, h, t⟩ | ⟨e, h, t⟩ <;>
      rcases roundHalfEven_cases (-x) with ⟨e', h', t'⟩ | ⟨e', h', t'⟩ <;>
      rw [e, e'] <;>
      first
        | omega
        | (exfalso
           have hx : x - (⌊x⌋ : ℚ) = 1 / 2 := by linarith
           have hx' : -x - (⌊-x⌋ : ℚ) = 1 / 2 := by linarith
           have := t hx
           have := t' hx'
           omega)

theorem binary64Nearest_neg (x : ℚ) : binary64Nearest (-x) = -binary64Nearest x := by
  unfold binary64Nearest binary64Ulp
  rw [abs_neg, neg_div, roundHalfEven_neg]
  push_cast
  ring

theorem binary64Nearest_zero : binary64Nearest 0 = 0 := by
  unfold binary64Nearest
  rw [zero_div]
  have : roundHalfEven 0 = 0 := by
    have := le_roundHalfEven 0 0 (by norm_num)
    have := roundHalfEven_le 0 0 (by norm_num)
    omega
  rw [this]
  simp

theorem binary64Nearest_nonneg (x : ℚ) (h : 0 ≤ x) : 0 ≤ binary64Nearest x := by
  have := (binary64Nearest_grid x 0).1 (by simpa using h)
  simpa using this

theorem binary64Nearest_mono (x y : ℚ) (h : x ≤ y) : binary64Nearest x ≤ binary64Nearest y := by
  rcases lt_trichotomy 0 x with hx | hx | hx
  · exact binary64Nearest_mono_pos x y hx h
  · rw [← hx, binary64Nearest_zero]
    exact binary64Nearest_nonneg y (by rw [hx]; exact h)
  · rcases le_or_lt 0 y with hy | hy
    · have h1 : binary64Nearest x ≤ 0 := by
        have := binary64Nearest_nonneg (-x) (by linarith)
        rw [binary64Nearest_neg] at this
        linarith
      exact le_trans h1 (binary64Nearest_nonneg y hy)
    · have := binary64Nearest_mono_pos (-y) (-x) (by linarith) (by linarith)
      rw [binary64Nearest_neg, binary64Nearest_neg] at this
      linarith

/-- Rounding to binary64 is monotone: the rounded value of the larger number is
not below that of the smaller. -/
theorem roundBinary64_mono (x y : ℚ) (h : x ≤ y) :
    JSNumber.lt (roundBinary64 y) (roundBinary64 x) = false := by
  have hm := binary64Nearest_mono x y h
  unfold roundBinary64
  by_cases h1 : (2 : ℚ) ^ 1024 ≤ binary64Nearest y
  · rw [if_pos h1]
    cases (if (2 : ℚ) ^ 1024 ≤ binary64Nearest x then JSNumber.posInf
      else if binary64Nearest x ≤ -2 ^ 1024 then JSNumber.negInf
      else JSNumber.finite (binary64Nearest x)) <;> rfl
  · rw [if_neg h1]
    have hx1 : ¬ (2 : ℚ) ^ 1024 ≤ binary64Nearest x := fun hc => h1 (le_trans hc hm)
    rw [if_neg hx1]
    by_cases h2 : binary64Nearest y ≤ -2 ^ 1024
    · rw [if_pos h2, if_pos (le_trans hm h2)]
      rfl
    · rw [if_neg h2]
      by_cases h3 : binary64Nearest x ≤ -2 ^ 1024
      · rw [if_pos h3]
        rfl
      · rw [if_neg h3]
        simp only [JSNumber.lt, decide_eq_false_iff_not, not_lt]
        exact hm

/-- Rounding a non-negative number below `2 ^ 52` gives a finite number, and it
does not cross a multiple of one half: the binary64 numbers below `2 ^ 52`
include every multiple of one half. -/
theorem roundBinary64_half (q : ℚ) (h0 : 0 ≤ q) (h1 : q < 2 ^ 52) :
    roundBinary64 q = .finite (binary64Nearest q) ∧
      ∀ m : ℤ, ((m : ℚ) / 2 ≤ q → (m : ℚ) / 2 ≤ binary64Nearest q) ∧
        (q ≤ (m : ℚ) / 2 → binary64Nearest q ≤ (m : ℚ) / 2) := by
  have hE51 : max (Int.log 2 |q|) (-1022) ≤ 51 := by
    apply max_le _ (by norm_num)
    rcases eq_or_lt_of_le h0 with h | h
    · rw [← h]
      simp
    · rw [abs_of_pos h]
      have h52 : q < ((2 : ℕ) : ℚ) ^ (52 : ℤ) := by
        have e : ((2 : ℕ) : ℚ) ^ (52 : ℤ) = 2 ^ 52 := by norm_num
        rw [e]
        exact h1
      have := (Int.lt_zpow_iff_log_lt (by norm_num) h).mp h52
      omega
  have hbound : ∀ m : ℤ, ((m : ℚ) / 2 ≤ q → (m : ℚ) / 2 ≤ binary64Nearest q) ∧
      (q ≤ (m : ℚ) / 2 → binary64Nearest q ≤ (m : ℚ) / 2) := by
    intro m
    obtain ⟨J, hJ⟩ := zpow_two_grid (-1) (max (Int.log 2 |q|) (-1022)) (by omega)
    have hm : (m : ℚ) / 2 = ((m * J : ℤ) : ℚ) * binary64Ulp q := by
      unfold binary64Ulp
      push_cast
      rw [mul_assoc, ← hJ]
      norm_num
      ring
    rw [hm]
    exact binary64Nearest_grid q (m * J)
  refine ⟨?_, hbound⟩
  have hlow := binary64Nearest_nonneg q h0
  have hhigh := (hbound (2 ^ 53)).2 (by norm_num; linarith)
  unfold roundBinary64
  rw [if_neg, if_neg]
  · push_neg
    have : (0 : ℚ) < 2 ^ 1024 := by positivity
    linarith
  · push_neg
    norm_num at hhigh ⊢
    linarith

theorem roundBinary64_natCast (k : ℕ) (h : k < 2 ^ 52) : roundBinary64 (k : ℚ) = .finite k := by
  have hq : (0 : ℚ) ≤ (k : ℚ) := by exact_mod_cast Nat.zero_le k
  have hq2 : (k : ℚ) < 2 ^ 52 := by exact_mod_cast h
  obtain ⟨hv, hb⟩ := roundBinary64_half (k : ℚ) hq hq2
  have h1 := (hb (2 * k)).1 (by push_cast; linarith)
  have h2 := (hb (2 * k)).2 (by push_cast; linarith)
  push_cast at h1 h2
  have : binary64Nearest k = k := by linarith
  rw [hv, this]

theorem roundHalfEven_le_pred (x : ℚ) (J : ℤ) (h : x < (J : ℚ) - 1 / 2) :
    roundHalfEven x ≤ J - 1 := by
  have hfx := Int.floor_le x
  rcases roundHalfEven_cases x with ⟨e, _⟩ | ⟨e, hr, _⟩
  · rw [e]
    have h1 : (⌊x⌋ : ℚ) < (J : ℚ) := by linarith
    have h2 : ⌊x⌋ < J := by exact_mod_cast h1
    omega
  · rw [e]
    have h1 : (⌊x⌋ : ℚ) + 1 < (J : ℚ) := by linarith
    have h2 : ⌊x⌋ + 1 < J := by exact_mod_cast h1
    omega

theorem zpow_two_sub_nat (k : ℤ) (d : ℕ) : (2 : ℚ) ^ (k - d) = 2 ^ k / 2 ^ d := by
  rw [zpow_sub₀ (by norm_num), zpow_natCast]

theorem binary64Nearest_of_binary64 (r : ℚ) (hr : roundBinary64 r = .finite r) :
    binary64Nearest r = r := by
  unfold roundBinary64 at hr
  split_ifs at hr
  exact JSNumber.finite.inj hr

/-- A binary64 number below 1 is at most `1 - 2 ^ (-53)`. -/
theorem binary64_le_pred_one (r : ℚ) (h0 : 0 ≤ r) (h1 : r < 1)
    (hr : roundBinary64 r = .finite r) : r ≤ 1 - 1 / 2 ^ 53 := by
  rcases eq_or_lt_of_le h0 with h | hpos
  · rw [← h]
    norm_num
  · have habs : |r| = r := abs_of_pos hpos
    have hlog : Int.log 2 r < 0 := by
      apply (Int.lt_zpow_iff_log_lt (by norm_num) hpos).mp
      simpa using h1
    by_cases hL : Int.log 2 r = -1
    · have hnear := binary64Nearest_of_binary64 r hr
      unfold binary64Nearest binary64Ulp at hnear
      rw [habs, hL] at hnear
      have hu : (2 : ℚ) ^ (max (-1 : ℤ) (-1022) - 52) = 1 / 2 ^ 53 := by
        have : max (-1 : ℤ) (-1022) - 52 = -53 := by decide
        rw [this]
        norm_num [zpow_neg]
      rw [hu] at hnear
      have hK : (roundHalfEven (r / (1 / 2 ^ 53)) : ℚ) < 2 ^ 53 := by
        rw [← hnear] at h1
        have h2 : (0 : ℚ) < 1 / 2 ^ 53 := by positivity
        have h3 := (lt_div_iff₀ h2).mpr h1
        simpa using h3
      have hK2 : roundHalfEven (r / (1 / 2 ^ 53)) < 2 ^ 53 := by exact_mod_cast hK
      have hK3 : roundHalfEven (r / (1 / 2 ^ 53)) ≤ 2 ^ 53 - 1 := by omega
      have hK4 : (roundHalfEven (r / (1 / 2 ^ 53)) : ℚ) ≤ 2 ^ 53 - 1 := by exact_mod_cast hK3
      rw [← hnear]
      have h2 : (0 : ℚ) ≤ 1 / 2 ^ 53 := by positivity
      calc (roundHalfEven (r / (1 / 2 ^ 53)) : ℚ) * (1 / 2 ^ 53)
          ≤ (2 ^ 53 - 1) * (1 / 2 ^ 53) := mul_le_mul_of_nonneg_right hK4 h2
        _ = 1 - 1 / 2 ^ 53 := by norm_num
    · have hL2 : Int.log 2 r + 1 ≤ -1 := by omega
      have hlt := abs_lt_zpow_log r
      rw [habs] at hlt
      have hle : (2 : ℚ) ^ (Int.log 2 r + 1) ≤ 2 ^ (-1 : ℤ) :=
        zpow_le_zpow_right₀ (by norm_num) hL2
      have hhalf : (2 : ℚ) ^ (-1 : ℤ) = 1 / 2 := by norm_num
      rw [hhalf] at hle
      have : (1 : ℚ) / 2 ≤ 1 - 1 / 2 ^ 53 := by norm_num
      linarith

/-- The binary64 product of a binary64 draw below 1 and a length stays below the
length. -/
theorem binary64Nearest_mul_lt (r : ℚ) (n : ℕ) (h0 : 0 ≤ r) (hr : r ≤ 1 - 1 / 2 ^ 53)
    (hn : 0 < n) (hlen : n < 2 ^ 52) : binary64Nearest (r * n) < n := by
  have hnq : (0 : ℚ) < (n : ℚ) := by exact_mod_cast hn
  have hx0 : 0 ≤ r * n := mul_nonneg h0 (le_of_lt hnq)
  have hxn : r * n ≤ n - n / 2 ^ 53 := by
    have := mul_le_mul_of_nonneg_right hr (le_of_lt hnq)
    calc r * n ≤ (1 - 1 / 2 ^ 53) * n := this
      _ = n - n / 2 ^ 53 := by ring
  rcases eq_or_lt_of_le hx0 with h | hpos
  · rw [← h, binary64Nearest_zero]
    exact hnq
  · have hk1 : (2 : ℚ) ^ Int.log 2 (n : ℚ) ≤ n := by
      have := zpow_log_abs_le (n : ℚ) (ne_of_gt hnq)
      rwa [abs_of_pos hnq] at this
    have hk0 : 0 ≤ Int.log 2 (n : ℚ) := by
      apply (Int.zpow_le_iff_le_log (by norm_num) hnq).mp
      have : (1 : ℚ) ≤ n := by exact_mod_cast hn
      simpa using this
    have hk52 : Int.log 2 (n : ℚ) < 52 := by
      apply (Int.lt_zpow_iff_log_lt (by norm_num) hnq).mp
      have : (n : ℚ) < 2 ^ 52 := by exact_mod_cast hlen
      have e : ((2 : ℕ) : ℚ) ^ (52 : ℤ) = 2 ^ 52 := by norm_num
      rw [e]
      exact this
    have habs : |r * n| = r * n := abs_of_pos hpos
    have hxlt : r * n < n := by
      have : (0 : ℚ) < n / 2 ^ 53 := by positivity
      linarith
    have hL : Int.log 2 (r * n) ≤ Int.log 2 (n : ℚ) := Int.log_mono_right hpos (le_of_lt hxlt)
    obtain ⟨k, hk⟩ : ∃ k : ℤ, k = Int.log 2 (n : ℚ) := ⟨_, rfl⟩
    rw [← hk] at hk1 hk0 hk52 hL
    rcases lt_or_eq_of_le hL with hLlt | hLeq
    · have hE : max (Int.log 2 |r * n|) (-1022) ≤ k - 1 := by
        rw [habs]
        exact max_le (by omega) (by omega)
      have hx2 : r * n ≤ 2 ^ k := by
        have h1 := abs_lt_zpow_log (r * n)
        rw [habs] at h1
        have h2 : (2 : ℚ) ^ (Int.log 2 (r * n) + 1) ≤ 2 ^ k :=
          zpow_le_zpow_right₀ (by norm_num) (by omega)
        linarith
      rcases lt_or_eq_of_le hk1 with hlt | heq
      · obtain ⟨J, hJ⟩ := zpow_two_grid k (max (Int.log 2 |r * n|) (-1022)) (by omega)
        have := (binary64Nearest_grid (r * n) J).2 (by unfold binary64Ulp; rw [← hJ]; exact hx2)
        unfold binary64Ulp at this
        rw [← hJ] at this
        linarith
      · obtain ⟨J, hJ⟩ := zpow_two_grid (k - 53) (max (Int.log 2 |r * n|) (-1022)) (by omega)
        have hsub : (2 : ℚ) ^ (k - 53) = 2 ^ k / 2 ^ 53 := by
          have := zpow_two_sub_nat k 53
          simpa using this
        have hg : (((2 ^ 53 - 1) * J : ℤ) : ℚ) * binary64Ulp (r * n) = n - n / 2 ^ 53 := by
          unfold binary64Ulp
          push_cast
          rw [mul_assoc, ← hJ, hsub, ← heq]
          ring
        have := (binary64Nearest_grid (r * n) ((2 ^ 53 - 1) * J)).2 (by rw [hg]; exact hxn)
        rw [hg] at this
        have : (0 : ℚ) < n / 2 ^ 53 := by positivity
        linarith
    · have hE : max (Int.log 2 |r * n|) (-1022) = k := by
        rw [habs, hLeq]
        exact max_eq_left (by omega)
      have hu : binary64Ulp (r * n) = 2 ^ (k - 52) := by
        unfold binary64Ulp
        rw [hE]
      have hupos : (0 : ℚ) < 2 ^ (k - 52) := zpow_pos (by norm_num) _
      have hx2 : (2 : ℚ) ^ k ≤ r * n := by
        have := zpow_log_abs_le (r * n) (ne_of_gt hpos)
        rwa [habs, hLeq] at this
      obtain ⟨J, hJ⟩ := zpow_two_grid 0 k (by omega)
      rw [zpow_zero] at hJ
      have hng : (n : ℚ) = ((n * J : ℤ) : ℚ) * 2 ^ (k - 52) := by
        push_cast
        rw [mul_assoc, ← hJ, mul_one]
      have hhalf : (2 : ℚ) ^ (k - 52) / 2 = 2 ^ k / 2 ^ 53 := by
        have := zpow_two_sub_nat k 52
        rw [show ((52 : ℕ) : ℤ) = 52 by norm_num] at this
        rw [this, div_div]
        norm_num
      have hgap : r * n < n - 2 ^ (k - 52) / 2 := by
        have h2 : (2 : ℚ) ^ k / 2 ^ 53 < n / 2 ^ 53 := by
          apply div_lt_div_of_pos_right _ (by positivity)
          linarith
        rw [hhalf]
        linarith
      have hdiv : r * n / 2 ^ (k - 52) < ((n * J : ℤ) : ℚ) - 1 / 2 := by
        rw [div_lt_iff₀ hupos, sub_mul, ← hng]
        linarith
      have hround := roundHalfEven_le_pred _ _ hdiv
      have hround2 : (roundHalfEven (r * n / 2 ^ (k - 52)) : ℚ) ≤ ((n * J : ℤ) : ℚ) - 1 := by
        exact_mod_cast hround
      unfold binary64Nearest
      rw [hu]
      calc (roundHalfEven (r * n / 2 ^ (k - 52)) : ℚ) * 2 ^ (k - 52)
          ≤ (((n * J : ℤ) : ℚ) - 1) * 2 ^ (k - 52) :=
            mul_le_mul_of_nonneg_right hround2 (le_of_lt hupos)
        _ = n - 2 ^ (k - 52) := by rw [sub_mul, ← hng, one_mul]
        _ < n := by linarith

/-- A multiple of `2 ^ (-53)` below 1 is a binary64 number. -/
theorem roundBinary64_draw (k : ℕ) (h : k < 2 ^ 53) :
    roundBinary64 ((k : ℚ) / 2 ^ 53) = .finite ((k : ℚ) / 2 ^ 53) := by
  have hx0 : (0 : ℚ) ≤ (k : ℚ) / 2 ^ 53 := by positivity
  have hx1 : (k : ℚ) / 2 ^ 53 < 1 := by
    rw [div_lt_one (by positivity)]
    exact_mod_cast h
  have hfin := (roundBinary64_half _ hx0 (lt_trans hx1 (by norm_num))).1
  rw [hfin]
  congr 1
  rcases Nat.eq_zero_or_pos k with rfl | hk
  · simp [binary64Nearest_zero]
  · have hpos : (0 : ℚ) < (k : ℚ) / 2 ^ 53 := by positivity
    have habs : |(k : ℚ) / 2 ^ 53| = (k : ℚ) / 2 ^ 53 := abs_of_pos hpos
    have hlow : (-53 : ℤ) ≤ Int.log 2 ((k : ℚ) / 2 ^ 53) := by
      apply (Int.zpow_le_iff_le_log (by norm_num) hpos).mp
      have h1 : (1 : ℚ) ≤ k := by exact_mod_cast hk
      have h2 : (((2 : ℕ) : ℚ)) ^ (-53 : ℤ) = 1 / 2 ^ 53 := by norm_num [zpow_neg]
      rw [h2]
      exact div_le_div_of_nonneg_right h1 (by positivity)
    have hhigh : Int.log 2 ((k : ℚ) / 2 ^ 53) < 0 := by
      apply (Int.lt_zpow_iff_log_lt (by norm_num) hpos).mp
      simpa using hx1
    have hE : max (Int.log 2 |(k : ℚ) / 2 ^ 53|) (-1022) = Int.log 2 ((k : ℚ) / 2 ^ 53) := by
      rw [habs]
      exact max_eq_left (by omega)
    obtain ⟨J, hJ⟩ := zpow_two_grid (-53) (Int.log 2 ((k : ℚ) / 2 ^ 53)) (by omega)
    have hgrid : (k : ℚ) / 2 ^ 53 = ((k * J : ℤ) : ℚ) * binary64Ulp ((k : ℚ) / 2 ^ 53) := by
      unfold binary64Ulp
      rw [hE]
      push_cast
      rw [mul_assoc, ← hJ]
      norm_num [zpow_neg]
      ring
    have h1 := (binary64Nearest_grid _ (k * J)).1 (le_of_eq hgrid.symm)
    have h2 := (binary64Nearest_grid _ (k * J)).2 (le_of_eq hgrid)
    rw [← hgrid] at h1 h2
    exact le_antisymm h2 h1

/-! ## The mood label and the advice on JavaScript numbers -/

theorem getMoodEmoji64_finite (avgValue : ℚ) :
    getMoodEmoji64 (.finite avgValue) = getMoodEmoji avgValue := by
  unfold getMoodEmoji64 getMoodEmoji
  simp only [JSNumber.ge, decide_eq_true_eq]

theorem getMoodAdvice64_finite (avgMood : ℚ) (trend : String) :
    getMoodAdvice64 (.finite avgMood) trend = getMoodAdvice avgMood trend := by
  unfold getMoodAdvice64 getMoodAdvice
  simp only [JSNumber.lt, decide_eq_true_eq]

/-- C27 as stated fails: it speaks of every average, and the average the tracker
passes on is `NaN` when a stored label names a member of `Object.prototype`.
Every comparison with `NaN` is false, so `getMoodEmoji` runs through its tests
to Struggling and `getMoodAdvice` runs through its tests to the tier excellent:
the label is Struggling and the tier is not critical, and the tier is excellent
and the label is not Great. -/
theorem getMoodEmoji64_nan_tier :
    chartMoodData64 utcDate inheritedLabelMessages = [JSNumber.nan] ∧
      (renderMoodTracker64 utcDate inheritedLabelMessages).avgMoodValue = JSNumber.nan ∧
      (renderMoodTracker64 utcDate inheritedLabelMessages).avgMood = moodStruggling ∧
      (renderMoodTracker64 utcDate inheritedLabelMessages).advice = some excellentAdvice ∧
      getMoodEmoji64 .nan = moodStruggling ∧
      (getMoodAdvice64 .nan trendBuilding).type = "excellent" ∧
      ¬ (getMoodEmoji64 .nan = moodStruggling ↔
        (getMoodAdvice64 .nan trendBuilding).type = "critical") ∧
      ¬ (getMoodEmoji64 .nan = moodGreat ↔
        (getMoodAdvice64 .nan trendBuilding).type = "excellent") := by
  decide!

/-- C27: the mood label and the advice tier use the same cut points for every
average that is not `NaN`: for every such number, the two infinities included,
and every trend, `getMoodEmoji` gives Struggling exactly when `getMoodAdvice`
gives tier critical, Great exactly when it gives excellent, and Good exactly
when it gives thriving. -/
theorem getMoodEmoji64_matches_tier (avgMood : JSNumber) (trend : String)
    (h : avgMood ≠ .nan) :
    (getMoodEmoji64 avgMood = moodStruggling ↔
        (getMoodAdvice64 avgMood trend).type = "critical") ∧
      (getMoodEmoji64 avgMood = moodGreat ↔
        (getMoodAdvice64 avgMood trend).type = "excellent") ∧
      (getMoodEmoji64 avgMood = moodGood ↔
        (getMoodAdvice64 avgMood trend).type = "thriving") := by
  obtain ⟨hGG, hGO, hGL, hGS, hDO, hDL, hDS, hOL, hOS, hLS⟩ := mood_strings_distinct
  cases avgMood with
  | finite q =>
    rw [getMoodEmoji64_finite, getMoodAdvice64_finite]
    exact getMoodEmoji_matches_tier q trend
  | posInf =>
    have e : getMoodEmoji64 .posInf = moodGreat := rfl
    have a : getMoodAdvice64 .posInf trend = excellentAdvice := by
      unfold getMoodAdvice64
      simp [JSNumber.lt]
    rw [e, a]
    exact ⟨iff_of_false hGS (by decide), iff_of_true rfl rfl, iff_of_false hGG (by decide)⟩
  | negInf =>
    have e : getMoodEmoji64 .negInf = moodStruggling := rfl
    have a : getMoodAdvice64 .negInf trend = criticalAdvice := by
      unfold getMoodAdvice64
      simp [JSNumber.lt]
    rw [e, a]
    exact ⟨iff_of_true rfl rfl, iff_of_false (Ne.symm hGS) (by decide),
      iff_of_false (Ne.symm hDS) (by decide)⟩
  | nan => exact absurd rfl h

theorem getMoodEmoji64_matches_tier_witness :
    JSNumber.finite 5 ≠ JSNumber.nan ∧
      (getMoodEmoji64 (.finite 5) = moodGreat ↔
        (getMoodAdvice64 (.finite 5) trendStable).type = "excellent") ∧
      (getMoodEmoji64 .negInf = moodStruggling ↔
        (getMoodAdvice64 .negInf trendStable).type = "critical") :=
  ⟨JSNumber.noConfusion,
    (getMoodEmoji64_matches_tier (.finite 5) trendStable JSNumber.noConfusion).2.1,
    (getMoodEmoji64_matches_tier .negInf trendStable JSNumber.noConfusion).1⟩

/-! ## The trend on JavaScript numbers -/

theorem slice_last3 {α : Type} (data : List α) : slice data (-3) none = lastN 3 data := by
  unfold slice sliceIndex lastN
  have hk : ((data.length : ℤ) + -3).toNat = data.length - 3 := by omega
  simp only [show ((-3 : ℤ) < 0) by norm_num, if_true, hk]
  apply List.take_of_length_le
  rw [List.length_drop]

theorem slice_before3 {α : Type} (data : List α) :
    slice data (-6) (some (-3)) = lastN 3 (data.take (data.length - 3)) := by
  unfold slice sliceIndex lastN
  have hk : ((data.length : ℤ) + -6).toNat = data.length - 6 := by omega
  have hf : ((data.length : ℤ) + -3).toNat = data.length - 3 := by omega
  simp only [show ((-6 : ℤ) < 0) by norm_num, show ((-3 : ℤ) < 0) by norm_num, if_true, hk, hf]
  rw [List.length_take, List.drop_take]
  have h1 : min (data.length - 3) data.length - 3 = data.length - 6 := by omega
  rw [h1]

theorem recentPoints64_length (data : List JSNumber) :
    (recentPoints64 data).length = min 3 data.length := by
  unfold recentPoints64 lastN
  rw [List.length_drop]
  omega

theorem earlierPoints64_length (data : List JSNumber) :
    (earlierPoints64 data).length = min 3 (data.length - 3) := by
  unfold earlierPoints64 lastN
  rw [List.length_drop, List.length_take]
  omega

theorem getTrend64_eq (data : List JSNumber) :
    getTrend64 data =
      if data.length < 2 then trendBuilding
      else if data.length < 4 then trendTracking
      else if JSNumber.gt (mean64 (recentPoints64 data))
          (JSNumber.add (mean64 (earlierPoints64 data)) (.finite 0.5)) = true then
        trendImproving
      else if JSNumber.lt (mean64 (recentPoints64 data))
          (JSNumber.sub (mean64 (earlierPoints64 data)) (.finite 0.5)) = true then
        trendDeclining
      else trendStable := by
  unfold getTrend64
  simp only [slice_last3, slice_before3]
  by_cases h2 : data.length < 2
  · rw [if_pos h2, if_pos h2]
    rfl
  · rw [if_neg h2, if_neg h2]
    have hr := recentPoints64_length data
    have he := earlierPoints64_length data
    unfold recentPoints64 at hr
    unfold earlierPoints64 at he
    by_cases h4 : data.length < 4
    · have : (lastN 3 data).length = 0 ∨
          (lastN 3 (data.take (data.length - 3))).length = 0 := by
        right
        omega
      rw [if_pos this, if_pos h4]
      rfl
    · have : ¬ ((lastN 3 data).length = 0 ∨
          (lastN 3 (data.take (data.length - 3))).length = 0) := by
        omega
      rw [if_neg this, if_neg h4]
      rfl

theorem JSNumber.lt_of_lt_of_lt (a b c : JSNumber) (h1 : JSNumber.lt a b = true)
    (h2 : JSNumber.lt b c = true) : JSNumber.lt a c = true := by
  cases a <;> cases b <;> cases c <;>
    simp only [JSNumber.lt, decide_eq_true_eq, Bool.false_eq_true] at h1 h2 ⊢
  exact lt_trans h1 h2

/-- The earlier mean plus 0.5 is not below the earlier mean less 0.5, both as
computed. -/
theorem JSNumber.add_half_not_lt_sub_half (e : JSNumber) :
    JSNumber.lt (JSNumber.add e (.finite 0.5)) (JSNumber.sub e (.finite 0.5)) = false := by
  cases e with
  | finite q =>
    have hle : q - 0.5 ≤ q + 0.5 := by
      norm_num
      linarith
    exact roundBinary64_mono (q - 0.5) (q + 0.5) hle
  | posInf => rfl
  | negInf => rfl
  | nan => rfl

/-- The two tests of `getTrend` never hold together. -/
theorem JSNumber.sub_half_not_above_add_half (r e : JSNumber)
    (h : JSNumber.lt r (JSNumber.sub e (.finite 0.5)) = true) :
    JSNumber.gt r (JSNumber.add e (.finite 0.5)) = false := by
  by_contra hc
  rw [Bool.not_eq_false] at hc
  have := JSNumber.lt_of_lt_of_lt _ _ _ hc h
  rw [JSNumber.add_half_not_lt_sub_half] at this
  exact Bool.noConfusion this

theorem JSNumber.lt_irrefl (a : JSNumber) : JSNumber.lt a a = false := by
  cases a <;> simp [JSNumber.lt]

/-- C12 as stated fails: the code computes the two means and the sum with 0.5
in binary64. For the six points 1, 1, 3.5, 1, 1, 5 the mean of the last three is
7/3 and the mean of the three before is 11/6, so the difference is exactly 0.5,
which the claim calls Stable; the code rounds 7/3 up and the sum of the rounded
11/6 and 0.5 down, and returns Improving. -/
theorem getTrend64_half_apart :
    getTrend64 (halfApartPoints.map JSNumber.finite) = trendImproving ∧
      mean (recentPoints halfApartPoints) = mean (earlierPoints halfApartPoints) + 0.5 ∧
      ¬ (getTrend64 (halfApartPoints.map JSNumber.finite) = trendImproving ↔
        mean (recentPoints halfApartPoints) > mean (earlierPoints halfApartPoints) + 0.5) ∧
      mean64 (recentPoints64 (halfApartPoints.map JSNumber.finite)) =
        .finite (5254199565265579 / 2 ^ 51) ∧
      JSNumber.add (mean64 (earlierPoints64 (halfApartPoints.map JSNumber.finite)))
        (.finite 0.5) = .finite (5254199565265578 / 2 ^ 51) := by
  have h1 : getTrend64 (halfApartPoints.map JSNumber.finite) = trendImproving := by decide!
  have h2 : mean (recentPoints halfApartPoints) =
      mean (earlierPoints halfApartPoints) + 0.5 := by decide!
  refine ⟨h1, h2, ?_, by decide!, by decide!⟩
  intro hiff
  have := hiff.mp h1
  rw [h2] at this
  exact lt_irrefl _ this

/-- C12: for a list of at least 4 points, with `recent` the last 3 points and
`earlier` the up to 3 points immediately before them, and with the means and
the sum and difference with 0.5 computed in binary64 as the code computes them
(the values added from the left, the sum divided by the count, every result
rounded to the nearest binary64 number), `getTrend` returns Improving exactly
when the recent mean is above the earlier mean plus 0.5, Declining exactly when
it is below the earlier mean less 0.5, and Stable otherwise; a recent mean equal
to the computed earlier mean plus 0.5, or less 0.5, is Stable. -/
theorem getTrend64_classification (data : List JSNumber) (h : 4 ≤ data.length) :
    (∃ before, data = before ++ earlierPoints64 data ++ recentPoints64 data) ∧
      (recentPoints64 data).length = 3 ∧
      (earlierPoints64 data).length = min 3 (data.length - 3) ∧
      (getTrend64 data = trendImproving ↔
        JSNumber.gt (mean64 (recentPoints64 data))
          (JSNumber.add (mean64 (earlierPoints64 data)) (.finite 0.5)) = true) ∧
      (getTrend64 data = trendDeclining ↔
        JSNumber.lt (mean64 (recentPoints64 data))
          (JSNumber.sub (mean64 (earlierPoints64 data)) (.finite 0.5)) = true) ∧
      (getTrend64 data = trendStable ↔
        JSNumber.gt (mean64 (recentPoints64 data))
            (JSNumber.add (mean64 (earlierPoints64 data)) (.finite 0.5)) = false ∧
          JSNumber.lt (mean64 (recentPoints64 data))
            (JSNumber.sub (mean64 (earlierPoints64 data)) (.finite 0.5)) = false) ∧
      (mean64 (recentPoints64 data) =
          JSNumber.add (mean64 (earlierPoints64 data)) (.finite 0.5) →
        getTrend64 data = trendStable) ∧
      (mean64 (recentPoints64 data) =
          JSNumber.sub (mean64 (earlierPoints64 data)) (.finite 0.5) →
        getTrend64 data = trendStable) := by
  obtain ⟨_, _, _, _, _, _, _, hID, hIS, hDS⟩ := trend_strings_distinct
  have hsplit : ∃ before, data = before ++ earlierPoints64 data ++ recentPoints64 data := by
    refine ⟨(data.take (data.length - 3)).take ((data.take (data.length - 3)).length - 3), ?_⟩
    unfold earlierPoints64 recentPoints64 lastN
    rw [List.take_append_drop, List.take_append_drop]
  refine ⟨hsplit, by rw [recentPoints64_length]; omega, earlierPoints64_length data, ?_⟩
  rw [getTrend64_eq, if_neg (by omega), if_neg (by omega)]
  generalize mean64 (recentPoints64 data) = r
  generalize mean64 (earlierPoints64 data) = e
  cases hi : JSNumber.gt r (JSNumber.add e (.finite 0.5)) with
  | true =>
    have hd : JSNumber.lt r (JSNumber.sub e (.finite 0.5)) = false := by
      by_contra hc
      rw [Bool.not_eq_false] at hc
      have := JSNumber.sub_half_not_above_add_half r e hc
      rw [hi] at this
      exact Bool.noConfusion this
    rw [if_pos rfl, hd]
    refine ⟨iff_of_true rfl rfl, iff_of_false hID Bool.false_ne_true,
      iff_of_false hIS (fun hc => Bool.noConfusion hc.1), ?_, ?_⟩
    · intro heq
      rw [heq] at hi
      unfold JSNumber.gt at hi
      rw [JSNumber.lt_irrefl] at hi
      exact Bool.noConfusion hi
    · intro heq
      rw [heq] at hi
      unfold JSNumber.gt at hi
      rw [JSNumber.add_half_not_lt_sub_half] at hi
      exact Bool.noConfusion hi
  | false =>
    rw [if_neg Bool.false_ne_true]
    cases hd : JSNumber.lt r (JSNumber.sub e (.finite 0.5)) with
    | true =>
      rw [if_pos rfl]
      refine ⟨iff_of_false (Ne.symm hID) Bool.false_ne_true, iff_of_true rfl rfl,
        iff_of_false hDS (fun hc => Bool.noConfusion hc.2), ?_, ?_⟩
      · intro heq
        rw [heq, JSNumber.add_half_not_lt_sub_half] at hd
        exact Bool.noConfusion hd
      · intro heq
        rw [heq, JSNumber.lt_irrefl] at hd
        exact Bool.noConfusion hd
    | false =>
      rw [if_neg Bool.false_ne_true]
      exact ⟨iff_of_false (Ne.symm hIS) Bool.false_ne_true,
        iff_of_false (Ne.symm hDS) Bool.false_ne_true, iff_of_true rfl ⟨rfl, rfl⟩,
        fun _ => rfl, fun _ => rfl⟩

theorem getTrend64_classification_witness :
    getTrend64 [.finite 2, .finite 2, .finite 2, .finite 4, .finite 4, .finite 4] =
        trendImproving ∧
      getTrend64 [.finite 3, .finite 3, .finite 3, .finite 3] = trendStable ∧
      getTrend64 [.finite 3, .finite 3, .finite 3, .finite 3.5, .finite 3.5, .finite 3.5] =
        trendStable :=
  ⟨(getTrend64_classification
      [.finite 2, .finite 2, .finite 2, .finite 4, .finite 4, .finite 4]
      (by decide)).2.2.2.1.mpr (by decide!),
    (getTrend64_classification [.finite 3, .finite 3, .finite 3, .finite 3]
      (by decide)).2.2.2.2.2.1.mpr (by decide!),
    (getTrend64_classification
      [.finite 3, .finite 3, .finite 3, .finite 3.5, .finite 3.5, .finite 3.5]
      (by decide)).2.2.2.2.2.2.1 (by decide!)⟩

/-! ## The day average on JavaScript numbers -/

theorem moodPoints64_mem (localDate : Nat → CalendarDate) (msgs : List Message)
    (p : DayPoint64) (hp : p ∈ moodPoints64 localDate msgs) :
    p = dayPoint64 (p.date, moodsOn localDate msgs p.date) ∧
      moodsOn localDate msgs p.date ≠ [] := by
  unfold moodPoints64 at hp
  rw [List.mem_map] at hp
  obtain ⟨e, he, rfl⟩ := hp
  obtain ⟨_, hval, hkey⟩ := groupByDate_spec localDate msgs
  have h1 : (dayPoint64 e).date = e.1 := rfl
  rw [h1, ← hval e he]
  exact ⟨rfl, hval e he ▸ (hkey e.1).mp (List.mem_map_of_mem Prod.fst he)⟩

theorem foldl_addMoodValue64 (moods : List String) (h : ∀ l ∈ moods, l ∈ moodLabels)
    (s : JSNumber) :
    moods.foldl addMoodValue64 s =
      (labelScores64 moods).foldl (fun a b => JSNumber.add a b) s := by
  induction moods generalizing s with
  | nil => rfl
  | cons a rest ih =>
    have ha := getMoodValue_of_label a (h a (List.mem_cons_self _ _))
    have hrest : ∀ l ∈ rest, l ∈ moodLabels := fun l hl => h l (List.mem_cons_of_mem _ hl)
    have hstep : addMoodValue64 s a = JSNumber.add s (.finite (labelScore a)) := by
      unfold addMoodValue64
      rw [ha]
    unfold labelScores64
    rw [List.foldl_cons, hstep, ih hrest, List.map_cons, List.foldl_cons]
    rfl

theorem labelScore_nat (label : String) : ∃ n : ℕ, n ≤ 5 ∧ labelScore label = (n : ℚ) := by
  unfold labelScore
  split_ifs
  · exact ⟨5, by norm_num, by norm_num⟩
  · exact ⟨3, by norm_num, by norm_num⟩
  · exact ⟨2, by norm_num, by norm_num⟩
  · exact ⟨2, by norm_num, by norm_num⟩
  · exact ⟨1, by norm_num, by norm_num⟩
  · exact ⟨3, by norm_num, by norm_num⟩

/-- The sum of label scores is exact in binary64: every partial sum is a whole
number below `2 ^ 52`. -/
theorem foldl_add_labelScores (labels : List String) (k : ℕ)
    (h : k + 5 * labels.length < 2 ^ 52) :
    (labelScores64 labels).foldl (fun a b => JSNumber.add a b) (.finite (k : ℚ)) =
      .finite ((k : ℚ) + (labels.map labelScore).sum) := by
  induction labels generalizing k with
  | nil => simp [labelScores64]
  | cons a rest ih =>
    obtain ⟨n, hn, hs⟩ := labelScore_nat a
    rw [List.length_cons] at h
    have hstep : JSNumber.add (.finite (k : ℚ)) (.finite (labelScore a)) =
        .finite (((k + n : ℕ) : ℚ)) := by
      change roundBinary64 ((k : ℚ) + labelScore a) = _
      rw [hs, ← Nat.cast_add]
      exact roundBinary64_natCast (k + n) (by omega)
    unfold labelScores64 at ih ⊢
    rw [List.map_cons, List.foldl_cons, hstep, ih (k + n) (by omega), List.map_cons,
      List.sum_cons, hs]
    push_cast
    rw [add_assoc]

theorem thirdsExample_points64 :
    moodPoints64 utcDate thirdsExampleMessages =
      [⟨⟨1, 5⟩, .finite (7505999378950827 / 2 ^ 51), some "Sad"⟩] := by
  decide!

theorem yearApart_points64 :
    moodPoints64 utcDate yearApartMessages = [⟨⟨1, 5⟩, .finite (7 / 2), some "Sad"⟩] := by
  decide!

theorem specExample_points64 :
    moodPoints64 utcDate specExampleMessages =
      [⟨⟨1, 5⟩, .finite (7 / 2), some "Sad"⟩, ⟨⟨1, 6⟩, .finite 2, some "Anxious"⟩] := by
  decide!

/-- C6 as stated fails. The score is a binary64 quotient: for a day with the
tags Happy, Neutral, Sad the mean is 10/3, which is no binary64 number, and the
score is the binary64 number next to it, 3.3333333333333335. And the tagged
user messages are filed under a label of month and day: for a message tagged
Happy on 2024-01-05 and one tagged Sad on 2025-01-05 there is one point, of
score 3.5, while the means of the two days are 5 and 2. -/
theorem moodPoints64_not_day_mean :
    moodPoints64 utcDate thirdsExampleMessages =
        [⟨⟨1, 5⟩, .finite (7505999378950827 / 2 ^ 51), some "Sad"⟩] ∧
      moodsOnDay utcDate thirdsExampleMessages ⟨2024, 1, 5⟩ = ["Happy", "Neutral", "Sad"] ∧
      mean ((moodsOnDay utcDate thirdsExampleMessages ⟨2024, 1, 5⟩).map labelScore) = 10 / 3 ∧
      (7505999378950827 / 2 ^ 51 : ℚ) ≠ 10 / 3 ∧
      moodPoints64 utcDate yearApartMessages = [⟨⟨1, 5⟩, .finite (7 / 2), some "Sad"⟩] ∧
      mean ((moodsOnDay utcDate yearApartMessages ⟨2024, 1, 5⟩).map labelScore) = 5 ∧
      mean ((moodsOnDay utcDate yearApartMessages ⟨2025, 1, 5⟩).map labelScore) = 2 :=
  ⟨thirdsExample_points64, by decide, by decide!, by norm_num, yearApart_points64,
    by decide!, by decide!⟩

/-- C6: the score of each daily point is the arithmetic mean of the label values
Happy 5, Neutral 3, Anxious 2, Sad 2, Angry 1 over the tagged user messages
filed under the point's date label, as the code computes it in binary64: the
values are added from the left and the sum is divided by the count. For fewer
than `2 ^ 49` messages the sum is exact and the score is the mean rounded to the
nearest binary64 number. When the messages filed under the label are all of one
calendar day, they are the tagged user messages of that day. -/
theorem moodPoints64_avgMood (localDate : Nat → CalendarDate) (messages : List Message)
    (p : DayPoint64) (hp : p ∈ moodPoints64 localDate messages)
    (hlabels : ∀ l ∈ moodsOn localDate messages p.date, l ∈ moodLabels) :
    moodsOn localDate messages p.date ≠ [] ∧
      p.avgMood = mean64 (labelScores64 (moodsOn localDate messages p.date)) ∧
      ((moodsOn localDate messages p.date).length < 2 ^ 49 →
        p.avgMood =
          roundBinary64 (((moodsOn localDate messages p.date).map labelScore).sum /
            ((moodsOn localDate messages p.date).length : ℚ))) ∧
      ∀ day : CalendarDate, toLocaleDateString day = p.date →
        (∀ m ∈ messages, isTaggedUser m = true → messageLabel localDate m = p.date →
          localDate m.timestamp = day) →
        moodsOn localDate messages p.date = moodsOnDay localDate messages day := by
  obtain ⟨hp', hne⟩ := moodPoints64_mem localDate messages p hp
  have havg : p.avgMood = mean64 (labelScores64 (moodsOn localDate messages p.date)) := by
    have h1 : p.avgMood = (dayPoint64 (p.date, moodsOn localDate messages p.date)).avgMood :=
      congrArg DayPoint64.avgMood hp'
    rw [h1]
    unfold dayPoint64 mean64
    simp only
    rw [foldl_addMoodValue64 _ hlabels]
    unfold labelScores64
    rw [List.length_map]
  refine ⟨hne, havg, ?_, ?_⟩
  · intro hlen
    rw [havg]
    unfold mean64
    have h0 : (JSNumber.finite 0) = .finite ((0 : ℕ) : ℚ) := by norm_num
    rw [h0, foldl_add_labelScores _ 0 (by omega)]
    have hlen0 : ((moodsOn localDate messages p.date).length : ℚ) ≠ 0 := by
      intro hc
      exact hne (List.length_eq_zero.mp (by exact_mod_cast hc))
    unfold labelScores64 JSNumber.ofLength
    rw [List.length_map]
    simp only [JSNumber.div, if_neg hlen0, Nat.cast_zero, zero_add]
  · intro day hday hall
    unfold moodsOn moodsOnDay
    apply List.filterMap_congr
    intro m hm
    cases hmood : m.mood with
    | none => simp
    | some tag =>
      by_cases hu : m.sender = "user"
      · have ht : isTaggedUser m = true := (isTaggedUser_iff m).mpr ⟨hu, tag, hmood⟩
        by_cases hl : messageLabel localDate m = p.date
        · simp [hu, hl, hall m hm ht hl]
        · have hd : localDate m.timestamp ≠ day := by
            intro h
            apply hl
            unfold messageLabel
            rw [h, hday]
          simp [hu, hl, hd]
      · simp [hu]

theorem moodPoints64_avgMood_witness :
    (⟨⟨1, 5⟩, .finite (7 / 2), some "Sad"⟩ : DayPoint64) ∈
        moodPoints64 utcDate specExampleMessages ∧
      moodsOn utcDate specExampleMessages ⟨1, 5⟩ = ["Happy", "Sad"] ∧
      JSNumber.finite (7 / 2) =
        mean64 (labelScores64 (moodsOn utcDate specExampleMessages ⟨1, 5⟩)) ∧
      JSNumber.finite (7 / 2) =
        roundBinary64 (((moodsOn utcDate specExampleMessages ⟨1, 5⟩).map labelScore).sum /
          ((moodsOn utcDate specExampleMessages ⟨1, 5⟩).length : ℚ)) ∧
      moodsOn utcDate specExampleMessages ⟨1, 5⟩ =
        moodsOnDay utcDate specExampleMessages ⟨2024, 1, 5⟩ :=
  have h := moodPoints64_avgMood utcDate specExampleMessages
    ⟨⟨1, 5⟩, .finite (7 / 2), some "Sad"⟩
    (by rw [specExample_points64]; simp) (by decide)
  ⟨by rw [specExample_points64]; simp, by decide, h.2.1, h.2.2.1 (by decide),
    h.2.2.2 ⟨2024, 1, 5⟩ (by decide) (by decide)⟩

/-! ## Selection on JavaScript numbers -/

theorem getRandomResponse64_eq (random : ℚ) (templates : List String)
    (h0 : 0 ≤ random) (h1 : random < 1) (hlen : templates.length < 2 ^ 52) :
    JSNumber.mul (.finite random) (JSNumber.ofLength templates.length) =
        .finite (binary64Nearest (random * (templates.length : ℚ))) ∧
      0 ≤ binary64Nearest (random * (templates.length : ℚ)) ∧
      getRandomResponse64 random templates =
        templates[(⌊binary64Nearest (random * (templates.length : ℚ))⌋).toNat]? := by
  have hn0 : (0 : ℚ) ≤ (templates.length : ℚ) := by exact_mod_cast Nat.zero_le _
  have hn52 : (templates.length : ℚ) < 2 ^ 52 := by exact_mod_cast hlen
  have hx0 : 0 ≤ random * (templates.length : ℚ) := mul_nonneg h0 hn0
  have hx1 : random * (templates.length : ℚ) < 2 ^ 52 := by
    have : random * (templates.length : ℚ) ≤ 1 * (templates.length : ℚ) :=
      mul_le_mul_of_nonneg_right (le_of_lt h1) hn0
    linarith
  have hfin := (roundBinary64_half _ hx0 hx1).1
  have hmul : JSNumber.mul (.finite random) (JSNumber.ofLength templates.length) =
      .finite (binary64Nearest (random * (templates.length : ℚ))) := hfin
  have hnn := binary64Nearest_nonneg _ hx0
  refine ⟨hmul, hnn, ?_⟩
  unfold getRandomResponse64
  rw [hmul]
  simp only
  rw [if_neg (not_lt.mpr (Int.floor_nonneg.mpr hnn))]

/-- Every index is reached by a draw that is a multiple of `2 ^ (-53)`. -/
theorem getRandomResponse64_reach (templates : List String) (i : Nat)
    (hi : i < templates.length) (hlen : templates.length < 2 ^ 52) :
    ∃ k : ℕ, k < 2 ^ 53 ∧
      roundBinary64 ((k : ℚ) / 2 ^ 53) = .finite ((k : ℚ) / 2 ^ 53) ∧
      getRandomResponse64 ((k : ℚ) / 2 ^ 53) templates = some templates[i] := by
  have hnpos : (0 : ℚ) < (templates.length : ℚ) := by
    exact_mod_cast Nat.lt_of_le_of_lt (Nat.zero_le i) hi
  have hn52 : (templates.length : ℚ) < 2 ^ 52 := by exact_mod_cast hlen
  have hin : (i : ℚ) + 1 ≤ (templates.length : ℚ) := by exact_mod_cast hi
  have hi0 : (0 : ℚ) ≤ (i : ℚ) := by exact_mod_cast Nat.zero_le i
  obtain ⟨x, hx⟩ : ∃ x : ℚ, x = (i : ℚ) * 2 ^ 53 / (templates.length : ℚ) := ⟨_, rfl⟩
  have hxn : x * (templates.length : ℚ) = (i : ℚ) * 2 ^ 53 := by
    rw [hx, div_mul_cancel₀ _ (ne_of_gt hnpos)]
  have hx0 : 0 ≤ x := by
    rw [hx]
    positivity
  have hxle : x ≤ 2 ^ 53 - 2 := by
    rw [hx, div_le_iff₀ hnpos]
    nlinarith
  have hk1 : x ≤ (⌈x⌉₊ : ℚ) := Nat.le_ceil x
  have hk2 : (⌈x⌉₊ : ℚ) < x + 1 := Nat.ceil_lt_add_one hx0
  have hk : ⌈x⌉₊ < 2 ^ 53 := by
    have : (⌈x⌉₊ : ℚ) < 2 ^ 53 := by linarith
    exact_mod_cast this
  have hr0 : (0 : ℚ) ≤ (⌈x⌉₊ : ℚ) / 2 ^ 53 := by positivity
  have hr1 : (⌈x⌉₊ : ℚ) / 2 ^ 53 < 1 := by
    rw [div_lt_one (by positivity)]
    exact_mod_cast hk
  have hprod : (⌈x⌉₊ : ℚ) / 2 ^ 53 * (templates.length : ℚ) =
      (⌈x⌉₊ : ℚ) * (templates.length : ℚ) / 2 ^ 53 := by ring
  have hlow : ((2 * i : ℤ) : ℚ) / 2 ≤ (⌈x⌉₊ : ℚ) / 2 ^ 53 * (templates.length : ℚ) := by
    rw [hprod, le_div_iff₀ (by positivity)]
    push_cast
    have := mul_le_mul_of_nonneg_right hk1 (le_of_lt hnpos)
    linarith
  have hhigh : (⌈x⌉₊ : ℚ) / 2 ^ 53 * (templates.length : ℚ) ≤ ((2 * i + 1 : ℤ) : ℚ) / 2 := by
    rw [hprod, div_le_iff₀ (by positivity)]
    push_cast
    have := mul_lt_mul_of_pos_right hk2 hnpos
    linarith
  have hx52 : (⌈x⌉₊ : ℚ) / 2 ^ 53 * (templates.length : ℚ) < 2 ^ 52 := by
    have : (⌈x⌉₊ : ℚ) / 2 ^ 53 * (templates.length : ℚ) ≤ 1 * (templates.length : ℚ) :=
      mul_le_mul_of_nonneg_right (le_of_lt hr1) (le_of_lt hnpos)
    linarith
  obtain ⟨_, hb⟩ := roundBinary64_half _ (mul_nonneg hr0 (le_of_lt hnpos)) hx52
  have hP1 := (hb (2 * i)).1 hlow
  have hP2 := (hb (2 * i + 1)).2 hhigh
  push_cast at hP1 hP2
  have hfloor : ⌊binary64Nearest ((⌈x⌉₊ : ℚ) / 2 ^ 53 * (templates.length : ℚ))⌋ = (i : ℤ) := by
    rw [Int.floor_eq_iff]
    constructor
    · push_cast
      linarith
    · push_cast
      linarith
  refine ⟨⌈x⌉₊, hk, roundBinary64_draw _ hk, ?_⟩
  rw [(getRandomResponse64_eq _ templates hr0 hr1 hlen).2.2, hfloor, Int.toNat_ofNat]
  exact List.getElem?_eq_getElem hi

/-- C22 as stated fails: the index is the floor of the binary64 product of the
draw and the length. For the draw `6004799503160661 / 2 ^ 53`, which lies in
`[1/3, 2/3)`, and the three crisis templates, the product `2 - 2 ^ (-53)` lies
half way between two binary64 numbers and rounds to 2: the template at index 2
is returned, and not the template at index 1. -/
theorem getRandomResponse64_tie :
    (responses .crisis).length = 3 ∧
      roundBinary64 tieDraw = .finite tieDraw ∧
      (1 : ℚ) / 3 ≤ tieDraw ∧ tieDraw < 2 / 3 ∧
      JSNumber.mul (.finite tieDraw) (JSNumber.ofLength 3) = .finite 2 ∧
      getRandomResponse64 tieDraw (responses .crisis) = (responses .crisis)[2]? ∧
      getRandomResponse64 tieDraw (responses .crisis) ≠ (responses .crisis)[1]? := by
  decide!

/-- C22: for a list of length `n ≥ 1`, a draw that is a binary64 number in
`[0, 1)` and an index `i < n`, the index taken is the floor of the binary64
product `p` of the draw and `n`, and it is within the list: the element at
index `i` is returned when `i ≤ p < i + 1`, and for a list without repetition
only then. For a draw in `[i / n, (i + 1) / n)` the product lies between `i`
and `i + 1`: the element at index `i` is returned, or the product has rounded
up to `i + 1` and the element at index `i + 1` is returned. When the product is
exact, the index is `i` exactly for the draws in `[i / n, (i + 1) / n)`, an
interval of length `1 / n`. Every index is reached by a draw that is a multiple
of `2 ^ (-53)`, and the result depends on the list and the draw only. -/
theorem getRandomResponse64_selection (random : ℚ) (templates : List String) (i : Nat)
    (h0 : 0 ≤ random) (h1 : random < 1) (hr : roundBinary64 random = .finite random)
    (hi : i < templates.length) (hlen : templates.length < 2 ^ 52) :
    JSNumber.mul (.finite random) (JSNumber.ofLength templates.length) =
        .finite (binary64Nearest (random * (templates.length : ℚ))) ∧
      0 ≤ binary64Nearest (random * (templates.length : ℚ)) ∧
      binary64Nearest (random * (templates.length : ℚ)) < (templates.length : ℚ) ∧
      getRandomResponse64 random templates ∈ templates.map some ∧
      ((i : ℚ) ≤ binary64Nearest (random * (templates.length : ℚ)) ∧
          binary64Nearest (random * (templates.length : ℚ)) < (i : ℚ) + 1 →
        getRandomResponse64 random templates = some templates[i]) ∧
      (templates.Nodup →
        (getRandomResponse64 random templates = some templates[i] ↔
          (i : ℚ) ≤ binary64Nearest (random * (templates.length : ℚ)) ∧
            binary64Nearest (random * (templates.length : ℚ)) < (i : ℚ) + 1)) ∧
      ((i : ℚ) / (templates.length : ℚ) ≤ random ∧
          random < ((i : ℚ) + 1) / (templates.length : ℚ) →
        getRandomResponse64 random templates = some templates[i] ∨
          (binary64Nearest (random * (templates.length : ℚ)) = (i : ℚ) + 1 ∧
            getRandomResponse64 random templates = templates[i + 1]?)) ∧
      (binary64Nearest (random * (templates.length : ℚ)) = random * (templates.length : ℚ) →
        ((i : ℚ) / (templates.length : ℚ) ≤ random ∧
            random < ((i : ℚ) + 1) / (templates.length : ℚ) →
          getRandomResponse64 random templates = some templates[i]) ∧
        (⌊binary64Nearest (random * (templates.length : ℚ))⌋ = (i : ℤ) ↔
          (i : ℚ) / (templates.length : ℚ) ≤ random ∧
            random < ((i : ℚ) + 1) / (templates.length : ℚ))) ∧
      ((i : ℚ) + 1) / (templates.length : ℚ) - (i : ℚ) / (templates.length : ℚ) =
        1 / (templates.length : ℚ) ∧
      ∃ k : ℕ, k < 2 ^ 53 ∧
        roundBinary64 ((k : ℚ) / 2 ^ 53) = .finite ((k : ℚ) / 2 ^ 53) ∧
        getRandomResponse64 ((k : ℚ) / 2 ^ 53) templates = some templates[i] := by
  have hn : (0 : ℚ) < (templates.length : ℚ) := by
    exact_mod_cast Nat.lt_of_le_of_lt (Nat.zero_le i) hi
  have hnpos : 0 < templates.length := Nat.lt_of_le_of_lt (Nat.zero_le i) hi
  have hn52 : (templates.length : ℚ) < 2 ^ 52 := by exact_mod_cast hlen
  obtain ⟨hmul, hnn, hget⟩ := getRandomResponse64_eq random templates h0 h1 hlen
  have hlt := binary64Nearest_mul_lt random templates.length h0
    (binary64_le_pred_one random h0 h1 hr) hnpos hlen
  obtain ⟨P, hP⟩ : ∃ P : ℚ, P = binary64Nearest (random * (templates.length : ℚ)) := ⟨_, rfl⟩
  rw [← hP] at hmul hnn hget hlt ⊢
  have hfl0 : 0 ≤ ⌊P⌋ := Int.floor_nonneg.mpr hnn
  have hfln : (⌊P⌋).toNat < templates.length := by
    have h2 : (⌊P⌋ : ℚ) < (templates.length : ℚ) := lt_of_le_of_lt (Int.floor_le P) hlt
    have h3 : ⌊P⌋ < (templates.length : ℤ) := by exact_mod_cast h2
    omega
  have hfloor : ⌊P⌋ = (i : ℤ) ↔ (i : ℚ) ≤ P ∧ P < (i : ℚ) + 1 := by
    rw [Int.floor_eq_iff]
    simp
  have hsome : getRandomResponse64 random templates =
      some (templates.get ⟨(⌊P⌋).toNat, hfln⟩) := by
    rw [hget]
    exact List.getElem?_eq_getElem hfln
  have hin : (i : ℚ) ≤ P ∧ P < (i : ℚ) + 1 →
      getRandomResponse64 random templates = some templates[i] := by
    intro h
    rw [hget, hfloor.mpr h, Int.toNat_ofNat]
    exact List.getElem?_eq_getElem hi
  have hx0 : 0 ≤ random * (templates.length : ℚ) := mul_nonneg h0 (le_of_lt hn)
  have hx52 : random * (templates.length : ℚ) < 2 ^ 52 := by
    have : random * (templates.length : ℚ) ≤ 1 * (templates.length : ℚ) :=
      mul_le_mul_of_nonneg_right (le_of_lt h1) (le_of_lt hn)
    linarith
  obtain ⟨_, hb⟩ := roundBinary64_half _ hx0 hx52
  rw [← hP] at hb
  have hbetween : (i : ℚ) / (templates.length : ℚ) ≤ random ∧
      random < ((i : ℚ) + 1) / (templates.length : ℚ) → (i : ℚ) ≤ P ∧ P ≤ (i : ℚ) + 1 := by
    intro h
    have h2 := (div_le_iff₀ hn).mp h.1
    have h3 := (lt_div_iff₀ hn).mp h.2
    have a := (hb (2 * i)).1 (by push_cast; linarith)
    have b := (hb (2 * (i + 1))).2 (by push_cast; linarith)
    push_cast at a b
    constructor
    · linarith
    · linarith
  refine ⟨hmul, hnn, hlt, ?_, hin, ?_, ?_, ?_, ?_, getRandomResponse64_reach templates i hi hlen⟩
  · rw [hsome]
    exact List.mem_map_of_mem some (List.get_mem _ _ _)
  · intro hnd
    refine ⟨?_, hin⟩
    intro h
    rw [hget, List.getElem?_eq_getElem hfln, Option.some.injEq, hnd.getElem_inj_iff] at h
    rw [hfloor.symm]
    omega
  · intro h
    obtain ⟨a, b⟩ := hbetween h
    rcases lt_or_eq_of_le b with hlt1 | heq
    · exact Or.inl (hin ⟨a, hlt1⟩)
    · right
      refine ⟨heq, ?_⟩
      have hfl : ⌊P⌋ = ((i + 1 : ℕ) : ℤ) := by
        rw [heq, Int.floor_eq_iff]
        push_cast
        constructor
        · linarith
        · linarith
      rw [hget, hfl, Int.toNat_ofNat]
  · intro hexact
    have hiff : ⌊P⌋ = (i : ℤ) ↔ (i : ℚ) / (templates.length : ℚ) ≤ random ∧
        random < ((i : ℚ) + 1) / (templates.length : ℚ) := by
      rw [hfloor, hexact, div_le_iff₀ hn, lt_div_iff₀ hn]
    exact ⟨fun h => hin (hfloor.mp (hiff.mpr h)), hiff⟩
  · field_simp

theorem getRandomResponse64_selection_witness :
    getRandomResponse64 (1 / 2) ["a", "b", "c"] = some "b" ∧
      (getRandomResponse64 tieDraw ["a", "b", "c"] = some "b" ∨
        (binary64Nearest (tieDraw * 3) = 2 ∧
          getRandomResponse64 tieDraw ["a", "b", "c"] = some "c")) :=
  ⟨(getRandomResponse64_selection (1 / 2) ["a", "b", "c"] 1 (by norm_num) (by norm_num)
      (by decide!) (by decide) (by decide)).2.2.2.2.1 (by decide!),
    by
      have h := (getRandomResponse64_selection tieDraw ["a", "b", "c"] 1 (by decide!)
        (by decide!) (by decide!) (by decide) (by decide)).2.2.2.2.2.2.1 (by decide!)
      have e : (((1 : ℕ) : ℚ) + 1) = 2 := by norm_num
      have e3 : ((["a", "b", "c"].length : ℕ) : ℚ) = 3 := by norm_num
      rw [e, e3] at h
      exact h⟩

end MindCare
